import Mathlib

/-
  Verification of the Infographics editor's scene-mutation and
  interactive-transform engine.

  The JavaScript sources are shallowly embedded:
  * numbers are modelled by an arbitrary linear ordered field `K`
    (instantiated at `ℚ` for the purely rational code paths and at `ℝ`
    for the trigonometric ones);
  * JS objects holding optional fields become structures with `Option`
    fields; `delete obj.f` / `obj.f = undefined` both become `none`;
  * JS arrays become `List`s; `push`/`pop` act at the end of the list;
  * JS object maps (`{ id: value }`) become association lists
    `List (String × _)` looked up by first key occurrence;
  * a thrown exception is modelled by a `Bool` success flag (`false` =
    the body threw) or by an `Option` result (`none` = threw), with the
    partially mutated state preserved, matching JS try/catch semantics.
-/

namespace Infographics

/-- A 2D point `{x, y}`. -/
structure Pos (K : Type) where
  x : K
  y : K
  deriving DecidableEq

/-- Size `{width, height}`.  Sizes are modelled as always-present numeric
fields (the claims under study only exercise blocks with numeric sizes,
i.e. `hasNumericSize` holds). -/
structure Size (K : Type) where
  width : K
  height : K
  deriving DecidableEq

/-- Crop insets `{top, right, bottom, left}` in percent, as produced by
`getCropValues`. -/
structure Crop (K : Type) where
  top : K
  right : K
  bottom : K
  left : K
  deriving DecidableEq

/-- A DOMRect-like rectangle (canvas or workspace bounding box). -/
structure Rect (K : Type) where
  left : K
  top : K
  width : K
  height : K
  deriving DecidableEq

/-- A block record (src/stores/InfographicsStore.js data model).  Fields not
touched by the claims under study (zIndex, color, content, ...) are omitted;
`btype` is the JS `type` tag ("text" | "image" | ...). -/
structure Block (K : Type) where
  id : String
  btype : String
  position : Pos K
  size : Size K
  rotation : K
  fontSize : Option K
  crop : Option (Crop K)
  groupId : Option String
  locked : Bool
  deriving DecidableEq

/-- A group record as normalized by `addGroup`:
`{ id, childIds, blockIds, position, size, rotation, blockOffsets }`
(the unused `meta` bag is omitted). -/
structure Group (K : Type) where
  id : String
  childIds : List String
  blockIds : List String
  position : Pos K
  size : Size K
  rotation : K
  blockOffsets : List (String × Pos K)
  deriving DecidableEq

/-- A page: `{ id, blocks }`. -/
structure Page (K : Type) where
  id : String
  blocks : List (Block K)
  deriving DecidableEq

/-- A project: `{ pages }`. -/
structure Project (K : Type) where
  pages : List (Page K)
  deriving DecidableEq

/-- The undoable part of the store state: project, activePageId and the
groups array (the command stacks live in `Store` below). -/
structure Scene (K : Type) where
  project : Project K
  activePageId : Option String
  groups : List (Group K)
  deriving DecidableEq

variable {K : Type} [LinearOrderedField K] [DecidableEq K]

/-- Getter `store.activePage`: first page whose id equals `activePageId`. -/
def Scene.activePage (s : Scene K) : Option (Page K) :=
  s.project.pages.find? (fun p => s.activePageId == some p.id)

/-- Lookup `store.getBlockById(id)`: scan pages in order, in each page take the
first block with the given id. -/
def getBlockById (s : Scene K) (id : String) : Option (Block K) :=
  s.project.pages.findSome? (fun p => p.blocks.find? (fun b => b.id == id))

/-- Lookup `store.getGroupById(id)`. -/
def getGroupById (s : Scene K) (id : String) : Option (Group K) :=
  s.groups.find? (fun g => g.id == id)

/-- Update the first block with the given id in a single block list. -/
def updateBlockInList (id : String) (f : Block K → Block K) :
    List (Block K) → List (Block K)
  | [] => []
  | b :: rest =>
      if b.id == id then f b :: rest else b :: updateBlockInList id f rest

/-- Update the first block with the given id in page-major order (the block
object `getBlockById` would return is mutated in place in JS). -/
def updateBlockInPages (id : String) (f : Block K → Block K) :
    List (Page K) → List (Page K)
  | [] => []
  | p :: ps =>
      if p.blocks.any (fun b => b.id == id) then
        { p with blocks := updateBlockInList id f p.blocks } :: ps
      else
        p :: updateBlockInPages id f ps

/-- Apply `f` to the block `getBlockById` finds (no-op when absent). -/
def modifyBlock (s : Scene K) (id : String) (f : Block K → Block K) : Scene K :=
  { s with project := { pages := updateBlockInPages id f s.project.pages } }

/-- A patch for `updateBlock` (`Object.assign(b, patch)`): each present
field overwrites the block's field. -/
structure BlockPatch (K : Type) where
  position : Option (Pos K) := none
  size : Option (Size K) := none
  rotation : Option K := none
  fontSize : Option K := none
  crop : Option (Crop K) := none
  locked : Option Bool := none
  deriving DecidableEq

/-- Merge `Object.assign(b, patch)` for the modelled fields. -/
def applyBlockPatch (b : Block K) (p : BlockPatch K) : Block K :=
  { b with
    position := p.position.getD b.position
    size := p.size.getD b.size
    rotation := p.rotation.getD b.rotation
    fontSize := p.fontSize.orElse (fun _ => b.fontSize)
    crop := p.crop.orElse (fun _ => b.crop)
    locked := p.locked.getD b.locked }

/-- Mutation `store.updateBlock(id, patch)`: merge the patch into the first block
matching `id`; silent no-op when absent. -/
def updateBlock (s : Scene K) (id : String) (p : BlockPatch K) : Scene K :=
  modifyBlock s id (fun b => applyBlockPatch b p)

/-- Set (or clear) a block's `groupId` field. -/
def setBlockGroupId (s : Scene K) (id : String) (gid : Option String) : Scene K :=
  modifyBlock s id (fun b => { b with groupId := gid })

/-- Guarded detach `if (b && b.groupId === groupId) delete b.groupId` (used by
`removeGroup` and the removed-children arm of `updateGroup`). -/
def detachIfOwned (s : Scene K) (bid gid : String) : Scene K :=
  match getBlockById s bid with
  | some b => if b.groupId = some gid then setBlockGroupId s bid none else s
  | none => s

/-- Attach `if (b) b.groupId = groupId` (used by `addGroup` and the
added-children arm of `updateGroup`). -/
def attachChild (s : Scene K) (bid gid : String) : Scene K :=
  match getBlockById s bid with
  | some _ => setBlockGroupId s bid (some gid)
  | none => s

/-- Apply `f` to the first group with the given id. -/
def updateGroupInList (gid : String) (f : Group K → Group K) :
    List (Group K) → List (Group K)
  | [] => []
  | g :: gs =>
      if g.id == gid then f g :: gs else g :: updateGroupInList gid f gs

/-- The spec object accepted by `addGroup` before normalization. -/
structure GroupSpec (K : Type) where
  id : Option String := none
  childIds : Option (List String) := none
  blockIds : Option (List String) := none
  position : Option (Pos K) := none
  size : Option (Size K) := none
  rotation : Option K := none
  blockOffsets : Option (List (String × Pos K)) := none
  deriving DecidableEq

/-- Mutation `store.addGroup(group)`: normalize the record (both `childIds` and
`blockIds` aliases, defaults for geometry), push it, then stamp
`groupId` on every listed child block.  `genFresh` stands in for the
`genId("group")` fallback used when no id is supplied. -/
def addGroup (s : Scene K) (spec : GroupSpec K) (genFresh : String) : Scene K :=
  let gid := spec.id.getD genFresh
  let children := spec.childIds.getD (spec.blockIds.getD [])
  let g : Group K :=
    { id := gid
      childIds := children
      blockIds := spec.blockIds.getD (spec.childIds.getD [])
      position := spec.position.getD ⟨0, 0⟩
      size := spec.size.getD ⟨0, 0⟩
      rotation := spec.rotation.getD 0
      blockOffsets := spec.blockOffsets.getD [] }
  let s1 : Scene K := { s with groups := s.groups ++ [g] }
  children.foldl (fun acc bid => attachChild acc bid gid) s1

/-- A patch for `updateGroup`. -/
structure GroupPatch (K : Type) where
  childIds : Option (List String) := none
  blockIds : Option (List String) := none
  position : Option (Pos K) := none
  size : Option (Size K) := none
  rotation : Option K := none
  blockOffsets : Option (List (String × Pos K)) := none
  deriving DecidableEq

/-- The `allowed`-fields merge loop at the end of `updateGroup`. -/
def applyGroupFields (s : Scene K) (gid : String) (p : GroupPatch K) : Scene K :=
  { s with
    groups := updateGroupInList gid (fun g =>
      { g with
        position := p.position.getD g.position
        size := p.size.getD g.size
        rotation := p.rotation.getD g.rotation
        blockOffsets := p.blockOffsets.getD g.blockOffsets }) s.groups }

/-- Helper `setIds` inside `updateGroup`: set both `childIds` and `blockIds`. -/
def setGroupChildIds (s : Scene K) (gid : String) (ids : List String) : Scene K :=
  { s with
    groups := updateGroupInList gid
      (fun g => { g with childIds := ids, blockIds := ids }) s.groups }

/-- Mutation `store.updateGroup(id, patch)`: normalize a `blockIds`-only patch into
`childIds`; on a `childIds` patch, detach `groupId` from removed children
(only when still owned) and attach it to added children, then store the new
id list under both keys; finally merge the remaining allowed fields.
Iterating the JS `Set`s is modelled by folding over the raw id lists: the
per-id actions are idempotent, so dropping the deduplication is
behavior-preserving. -/
def updateGroup (s : Scene K) (gid : String) (patch : GroupPatch K) : Scene K :=
  match s.groups.find? (fun g => g.id == gid) with
  | none => s
  | some g =>
      let effIds : Option (List String) :=
        match patch.childIds with
        | some c => some c
        | none => patch.blockIds
      match effIds with
      | some newIds =>
          let s1 := g.childIds.foldl
            (fun acc oldId =>
              if newIds.contains oldId then acc else detachIfOwned acc oldId gid) s
          let s2 := newIds.foldl
            (fun acc newId =>
              if g.childIds.contains newId then acc else attachChild acc newId gid) s1
          applyGroupFields (setGroupChildIds s2 gid newIds) gid patch
      | none => applyGroupFields s gid patch

/-- Mutation `store.removeGroup(id)`: detach `groupId` from every current child that
still points at this group, then splice the group record out. -/
def removeGroup (s : Scene K) (gid : String) : Scene K :=
  match s.groups.find? (fun g => g.id == gid) with
  | none => s
  | some g =>
      let s1 := g.childIds.foldl (fun acc bid => detachIfOwned acc bid gid) s
      { s1 with groups := s1.groups.eraseP (fun h => h.id == gid) }

/- ===== Command Stack (src/stores/InfographicsStore.js, applyCommand/undo/redo) ===== -/

/-- A command object `{ do(store), undo(store) }`.  Each operation returns
the (possibly partially) mutated scene together with a success flag:
`false` models the body throwing an exception after performing the
mutations done so far. -/
structure Command (K : Type) where
  doFn : Scene K → Scene K × Bool
  undoFn : Scene K → Scene K × Bool

/-- The full store: scene plus `undoStack` and `redoStack` (JS arrays,
pushed/popped at the end). -/
structure Store (K : Type) where
  scene : Scene K
  undoStack : List (Command K)
  redoStack : List (Command K)

/-- Operation `store.applyCommand(cmd)`: `try { cmd.do(this); undoStack.push(cmd);
redoStack = [] } catch { log }`.  On a throw the partially mutated scene is
kept but the command is not pushed and the redo stack is not cleared. -/
def Store.applyCommand (st : Store K) (cmd : Command K) : Store K :=
  let r := cmd.doFn st.scene
  if r.2 then
    { scene := r.1, undoStack := st.undoStack ++ [cmd], redoStack := [] }
  else
    { st with scene := r.1 }

/-- Operation `store.undo()`: no-op when empty; otherwise pop the last command (the
pop precedes the `try`), run `cmd.undo`, and push onto the redo stack only
when the body did not throw. -/
def Store.undo (st : Store K) : Store K :=
  match st.undoStack.getLast? with
  | none => st
  | some cmd =>
      let r := cmd.undoFn st.scene
      if r.2 then
        { scene := r.1, undoStack := st.undoStack.dropLast
          redoStack := st.redoStack ++ [cmd] }
      else
        { scene := r.1, undoStack := st.undoStack.dropLast
          redoStack := st.redoStack }

/-- Operation `store.redo()`: symmetric to `undo`, replaying `cmd.do`. -/
def Store.redo (st : Store K) : Store K :=
  match st.redoStack.getLast? with
  | none => st
  | some cmd =>
      let r := cmd.doFn st.scene
      if r.2 then
        { scene := r.1, redoStack := st.redoStack.dropLast
          undoStack := st.undoStack ++ [cmd] }
      else
        { scene := r.1, redoStack := st.redoStack.dropLast
          undoStack := st.undoStack }

/- ===== Command factories (src/stores/commands.js) ===== -/

/-- Factory `MoveCommand(blockId, oldPos, newPos)`. -/
def MoveCommand (blockId : String) (oldPos newPos : Pos K) : Command K :=
  { doFn := fun s => (updateBlock s blockId { position := some newPos }, true)
    undoFn := fun s => (updateBlock s blockId { position := some oldPos }, true) }

/-- Payload of `ResizeCommand`. -/
structure ResizePayload (K : Type) where
  blockId : String
  oldSize : Size K
  newSize : Size K
  oldPos : Option (Pos K) := none
  newPos : Option (Pos K) := none
  oldFontSize : Option K := none
  newFontSize : Option K := none

/-- Factory `ResizeCommand({...})`: patch `size`, plus `position`/`fontSize` when
the corresponding payload entries are non-null. -/
def ResizeCommand (p : ResizePayload K) : Command K :=
  { doFn := fun s =>
      (updateBlock s p.blockId
        { size := some p.newSize, position := p.newPos, fontSize := p.newFontSize },
        true)
    undoFn := fun s =>
      (updateBlock s p.blockId
        { size := some p.oldSize, position := p.oldPos, fontSize := p.oldFontSize },
        true) }

/-- Payload of `RotateCommand`; the child maps hold per-block geometry
patches replayed through `updateBlock`. -/
structure RotatePayload (K : Type) where
  blockId : String
  oldRotation : K
  newRotation : K
  childOld : Option (List (String × BlockPatch K)) := none
  childNew : Option (List (String × BlockPatch K)) := none

/-- Factory `RotateCommand({...})`. -/
def RotateCommand (p : RotatePayload K) : Command K :=
  { doFn := fun s =>
      let s1 := updateBlock s p.blockId { rotation := some p.newRotation }
      ((p.childNew.getD []).foldl (fun acc e => updateBlock acc e.1 e.2) s1, true)
    undoFn := fun s =>
      let s1 := updateBlock s p.blockId { rotation := some p.oldRotation }
      ((p.childOld.getD []).foldl (fun acc e => updateBlock acc e.1 e.2) s1, true) }

/-- Factory `CropCommand(blockId, oldCrop, newCrop)` (an empty `{}` crop object is
`none`). -/
def CropCommand (blockId : String) (oldCrop newCrop : Option (Crop K)) : Command K :=
  { doFn := fun s => (updateBlock s blockId { crop := newCrop }, true)
    undoFn := fun s => (updateBlock s blockId { crop := oldCrop }, true) }

/-- Factory `GroupTransformCommand(groupId, groupBefore, groupAfter, childBefore,
childAfter)`: replay the group record patch through `updateGroup` and the
child patches through `updateBlock`. -/
def GroupTransformCommand (groupId : String)
    (groupBefore groupAfter : Option (GroupPatch K))
    (childBefore childAfter : List (String × BlockPatch K)) : Command K :=
  { doFn := fun s =>
      let s1 := match groupAfter with
        | some ga => updateGroup s groupId ga
        | none => s
      (childAfter.foldl (fun acc e => updateBlock acc e.1 e.2) s1, true)
    undoFn := fun s =>
      let s1 := match groupBefore with
        | some gb => updateGroup s groupId gb
        | none => s
      (childBefore.foldl (fun acc e => updateBlock acc e.1 e.2) s1, true) }

/-- Dedup `Array.from(new Set(xs))`: deduplicate keeping first occurrences. -/
def dedupFirst (l : List String) : List String :=
  l.foldl (fun acc x => if acc.contains x then acc else acc ++ [x]) []

/-- Replace the blocks array of the active page (the JS code mutates
`store.activePage.blocks`). -/
def setActivePageBlocks (s : Scene K) (bs : List (Block K)) : Scene K :=
  { s with project := { pages := go s.activePageId s.project.pages } }
where
  go (aid : Option String) : List (Page K) → List (Page K)
    | [] => []
    | p :: ps =>
        if aid == some p.id then { p with blocks := bs } :: ps
        else p :: go aid ps

/-- The closure state `GroupCommand` captures during `do` and reads back
during `undo` (`oldGroups` per-block previous `groupId`, and whether the
group record was created by this command). -/
structure GroupClosure where
  oldGroups : List (String × Option String)
  createdGroup : Bool

/-- Closure `GroupCommand(groupId, blockIds).do(store)` with `groupMeta = null`:
record each targeted active-page block's previous `groupId` and restamp it,
then either create the group record (`addGroup`) or merge the ids into the
existing record via `updateGroup`.  `none` models the JS code throwing on a
missing active page (`page.blocks` on `null`). -/
def groupCommandDo (s : Scene K) (groupId : String) (ids : List String) :
    Option (Scene K × GroupClosure) :=
  match s.activePage with
  | none => none
  | some page =>
      let oldGroups :=
        (page.blocks.filter (fun b => ids.contains b.id)).map
          (fun b => (b.id, b.groupId))
      let s1 := setActivePageBlocks s
        (page.blocks.map (fun b =>
          if ids.contains b.id then { b with groupId := some groupId } else b))
      match getGroupById s1 groupId with
      | none =>
          let s2 := addGroup s1
            { id := some groupId, childIds := some ids
              position := some ⟨0, 0⟩, size := some ⟨0, 0⟩, rotation := some 0 }
            groupId
          some (s2, { oldGroups := oldGroups, createdGroup := true })
      | some existing =>
          let newChildIds := dedupFirst (existing.childIds ++ ids)
          let s2 := updateGroup s1 existing.id { childIds := some newChildIds }
          some (s2, { oldGroups := oldGroups, createdGroup := false })

/-- Association-list lookup (JS `map[key]`, `undefined` when absent). -/
def alistFind (l : List (String × Option String)) (k : String) : Option String :=
  match l.find? (fun e => e.1 == k) with
  | some e => e.2
  | none => none

/-- Closure `GroupCommand(groupId, blockIds).undo(store)`: restore each targeted
block's captured `groupId`, then remove the created group, or filter the
merged ids back out of the existing group's `childIds` (directly, without
touching `blockIds`). -/
def groupCommandUndo (s : Scene K) (groupId : String) (ids : List String)
    (cl : GroupClosure) : Option (Scene K) :=
  match s.activePage with
  | none => none
  | some page =>
      let s1 := setActivePageBlocks s
        (page.blocks.map (fun b =>
          if ids.contains b.id then { b with groupId := alistFind cl.oldGroups b.id }
          else b))
      if cl.createdGroup then
        some (removeGroup s1 groupId)
      else
        match getGroupById s1 groupId with
        | some _ =>
            some { s1 with
              groups := updateGroupInList groupId
                (fun g => { g with
                  childIds := g.childIds.filter (fun i => !(ids.contains i)) })
                s1.groups }
        | none => some s1

/- ===== Geometry helpers (src/unnamed/part_003) ===== -/

/-- Helper `getCropValues(crop)`: read the four insets with `?? 0`
defaults (a missing or empty crop object yields all zeros). -/
def getCropValues (c : Option (Crop K)) : Crop K :=
  c.getD ⟨0, 0, 0, 0⟩

/-- Helper `clampCropValue(value, min = 0, max = 45)` from part_003. -/
def clampCropValue (value : K) (lo : K := 0) (hi : K := 45) : K :=
  min (max value lo) hi

/-- Local `clamp100` in the single-block crop branch: clamp to `[0, 100]`. -/
def clamp100 (v : K) : K :=
  min (max v 0) 100

/-- Check that `pat` is a prefix of `l` (character-list version). -/
def charStartsWith : List Char → List Char → Bool
  | _, [] => true
  | [], _ :: _ => false
  | a :: as, b :: bs => a == b && charStartsWith as bs

/-- Check that `pat` occurs as a contiguous sublist of `l`. -/
def charContains : List Char → List Char → Bool
  | [], pat => pat.isEmpty
  | a :: as, pat => charStartsWith (a :: as) pat || charContains as pat

/-- Substring test `handle.includes(dir)` (JS `String.prototype.includes`),
as used by the resize branches to test a drag handle for a direction. -/
def hIncludes (handle dir : String) : Bool :=
  charContains handle.toList dir.toList

/- ===== Interaction session (src/unnamed/part_002) ===== -/

/-- The `blockSnapshot` captured by `beginInteraction` for a single block
(a value copy of the live block's interaction-relevant fields). -/
structure InteractionSnap (K : Type) where
  id : String
  position : Pos K
  size : Size K
  rotation : K
  fontSize : Option K
  btype : String
  crop : Option (Crop K)
  deriving DecidableEq

/-- Snapshot construction in the single-block arm of `beginInteraction`. -/
def snapOfBlock (b : Block K) : InteractionSnap K :=
  { id := b.id, position := b.position, size := b.size, rotation := b.rotation
    fontSize := b.fontSize, btype := b.btype, crop := b.crop }

/-- A single-block interaction payload (`interactionRef.current`), without
the rotate-specific angle fields (those require real trigonometry and are
handled by the `ℝ`-specific definitions below). -/
structure SingleInteraction (K : Type) where
  itype : String
  startX : K
  startY : K
  canvasRect : Rect K
  blockSnapshot : InteractionSnap K
  handle : Option String := none
  deriving DecidableEq

/-- Entry of `beginInteraction` for a single non-rotate gesture: `none`
when the block is missing or locked (locked blocks only get selected; no
drag session starts). -/
def beginInteractionSingle (s : Scene K) (itype : String) (blockId : String)
    (ex ey : K) (canvasRect : Rect K) (handle : Option String) :
    Option (SingleInteraction K) :=
  match getBlockById s blockId with
  | none => none
  | some b =>
      if b.locked then none
      else
        some { itype := itype, startX := ex, startY := ey
               canvasRect := canvasRect, blockSnapshot := snapOfBlock b
               handle := handle }

/-- Resize branch of `handlePointerMove` (single block): the patch written
through `store.updateBlock` for a given handle and total delta.  Covers the
dedicated text top-left scale branch and the default axis resize. -/
def resizeSingle (snap : InteractionSnap K) (canvasRect : Rect K)
    (handle : String) (dx dy : K) : BlockPatch K :=
  if snap.btype == "text" && handle == "top-left" then
    let startWidth := snap.size.width
    let minWidth : K := 20
    let rightEdge := snap.position.x + startWidth
    let newLeft := max 0 (min (snap.position.x + dx) (rightEdge - minWidth))
    let newWidth := rightEdge - newLeft
    let startFontSize := snap.fontSize.getD 16
    let scale := max (1 / 2) (min (newWidth / startWidth) 3)
    { position := some { snap.position with x := newLeft }
      size := some { snap.size with width := newWidth }
      fontSize := some (startFontSize * scale) }
  else
    let startWidth := snap.size.width
    let startHeight := snap.size.height
    let minSize : K := 40
    let w1 :=
      if hIncludes handle "right" then
        max minSize (min (startWidth + dx) (canvasRect.width - snap.position.x))
      else startWidth
    let xw :=
      if hIncludes handle "left" then
        let rightEdge := snap.position.x + startWidth
        let newLeft := max 0 (min (snap.position.x + dx) (rightEdge - minSize))
        (newLeft, rightEdge - newLeft)
      else (snap.position.x, w1)
    let h1 :=
      if hIncludes handle "bottom" then
        max minSize (min (startHeight + dy) (canvasRect.height - snap.position.y))
      else startHeight
    let yh :=
      if hIncludes handle "top" then
        let bottomEdge := snap.position.y + startHeight
        let newTop := max 0 (min (snap.position.y + dy) (bottomEdge - minSize))
        (newTop, bottomEdge - newTop)
      else (snap.position.y, h1)
    { position := some ⟨xw.1, yh.1⟩
      size := some { snap.size with width := xw.2, height := yh.2 } }

/-- Application of one resize pointer-move: write the patch computed from
the snapshot and the total delta into the live scene. -/
def resizeEventApply (inter : SingleInteraction K) (s : Scene K) (ex ey : K) :
    Scene K :=
  match inter.handle with
  | none => s
  | some handle =>
      let dx := ex - inter.startX
      let dy := ey - inter.startY
      updateBlock s inter.blockSnapshot.id
        (resizeSingle inter.blockSnapshot inter.canvasRect handle dx dy)

/-- Crop branch of `handlePointerMove` (single image block): given the
gesture-entry crop snapshot, the snapshot size and the total delta, produce
the next crop.  Mirrors the source line by line: per-handle clamped update
with the `100 − other − MIN_VISIBLE` bound, the final `[0,100]` safety
clamps, and the two visible-span corrections. -/
def applyCropGesture (snap : Crop K) (size : Size K) (handle : String)
    (dx dy : K) : Crop K :=
  let dxPercent := if size.width > 0 then dx / size.width * 100 else 0
  let dyPercent := if size.height > 0 then dy / size.height * 100 else 0
  let c1 :=
    if handle == "left" then
      { snap with left := min (clamp100 (snap.left + dxPercent)) (100 - snap.right - 1) }
    else snap
  let c2 :=
    if handle == "right" then
      { c1 with right := min (clamp100 (snap.right - dxPercent)) (100 - snap.left - 1) }
    else c1
  let c3 :=
    if handle == "top" then
      { c2 with top := min (clamp100 (snap.top + dyPercent)) (100 - snap.bottom - 1) }
    else c2
  let c4 :=
    if handle == "bottom" then
      { c3 with bottom := min (clamp100 (snap.bottom - dyPercent)) (100 - snap.top - 1) }
    else c3
  let c5 : Crop K :=
    { left := clamp100 c4.left, right := clamp100 c4.right
      top := clamp100 c4.top, bottom := clamp100 c4.bottom }
  let visibleH := 100 - (c5.left + c5.right)
  let c6 :=
    if visibleH < 1 then
      if handle == "left" then { c5 with left := 100 - c5.right - 1 }
      else if handle == "right" then { c5 with right := 100 - c5.left - 1 }
      else
        let excess := 1 - visibleH
        { c5 with left := clamp100 (c5.left - excess / 2)
                  right := clamp100 (c5.right - excess / 2) }
    else c5
  let visibleV := 100 - (c6.top + c6.bottom)
  if visibleV < 1 then
    if handle == "top" then { c6 with top := 100 - c6.bottom - 1 }
    else if handle == "bottom" then { c6 with bottom := 100 - c6.top - 1 }
    else
      let excess := 1 - visibleV
      { c6 with top := clamp100 (c6.top - excess / 2)
                bottom := clamp100 (c6.bottom - excess / 2) }
  else c6

/-- Application of one crop pointer-move to the live scene. -/
def cropEventApply (inter : SingleInteraction K) (s : Scene K) (ex ey : K) :
    Scene K :=
  match inter.handle with
  | none => s
  | some handle =>
      let dx := ex - inter.startX
      let dy := ey - inter.startY
      updateBlock s inter.blockSnapshot.id
        { crop := some (applyCropGesture (getCropValues inter.blockSnapshot.crop)
            inter.blockSnapshot.size handle dx dy) }

/-- Exit of `endInteraction` for a single-block gesture: diff the current
committed geometry against the entry snapshot and push exactly one command
when (and only when) the relevant fields changed. -/
def endInteractionSingle (st : Store K) (inter : SingleInteraction K) : Store K :=
  let snap := inter.blockSnapshot
  match getBlockById st.scene snap.id with
  | none => st
  | some current =>
      if inter.itype == "move" then
        if snap.position.x ≠ current.position.x ∨
            snap.position.y ≠ current.position.y then
          st.applyCommand (MoveCommand snap.id snap.position current.position)
        else st
      else if inter.itype == "resize" then
        if snap.size ≠ current.size ∨ snap.position ≠ current.position ∨
            snap.fontSize ≠ current.fontSize then
          st.applyCommand (ResizeCommand
            { blockId := snap.id
              oldSize := snap.size, newSize := current.size
              oldPos := some snap.position, newPos := some current.position
              oldFontSize := snap.fontSize, newFontSize := current.fontSize })
        else st
      else if inter.itype == "rotate" then
        if snap.rotation ≠ current.rotation then
          st.applyCommand (RotateCommand
            { blockId := snap.id
              oldRotation := snap.rotation, newRotation := current.rotation })
        else st
      else if inter.itype == "crop" then
        if snap.crop ≠ current.crop then
          st.applyCommand (CropCommand snap.id snap.crop current.crop)
        else st
      else st

/- ===== Group interaction session ===== -/

/-- Child snapshot geometry as captured / diffed by the group arms of
`beginInteraction` and `endInteraction`
(`{ position, rotation, size, fontSize }`). -/
structure ChildGeom (K : Type) where
  position : Pos K
  rotation : K
  size : Size K
  fontSize : Option K
  deriving DecidableEq

/-- A group interaction payload (move gestures; the rotate-specific angle
fields live in the `ℝ`-specific part). -/
structure GroupInteraction (K : Type) where
  blockId : String
  startX : K
  startY : K
  canvasRect : Rect K
  blockSnapshot : Group K
  groupSnapshotPosition : Pos K
  groupBlockIds : List String
  childSnapshots : List (InteractionSnap K)
  blockOffsets : List (String × Pos K)
  deriving DecidableEq

/-- Lookup `offsets[childId] || {x: 0, y: 0}`. -/
def offsetLookup (l : List (String × Pos K)) (k : String) : Pos K :=
  match l.find? (fun e => e.1 == k) with
  | some e => e.2
  | none => ⟨0, 0⟩

/-- Accumulation step of the child-snapshot loop in the group arm of
`beginInteraction` (missing child ids are skipped). -/
def snapStep (s : Scene K) (acc : List (InteractionSnap K)) (bid : String) :
    List (InteractionSnap K) :=
  match getBlockById s bid with
  | none => acc
  | some b => acc ++ [snapOfBlock b]

/-- Accumulation step of the offset-recomputation loop in the group arm of
`beginInteraction` (offset = child position − group position). -/
def offStep (s : Scene K) (g : Group K) (acc : List (String × Pos K))
    (bid : String) : List (String × Pos K) :=
  match getBlockById s bid with
  | none => acc
  | some b =>
      acc ++ [(bid, (⟨b.position.x - g.position.x,
                     b.position.y - g.position.y⟩ : Pos K))]

/-- Accumulation step of the after-map rebuild in the group arm of
`endInteraction`. -/
def geomStep (s : Scene K) (acc : List (String × ChildGeom K))
    (cid : String) : List (String × ChildGeom K) :=
  match getBlockById s cid with
  | none => acc
  | some b =>
      acc ++ [(cid, ChildGeom.mk b.position b.rotation b.size b.fontSize)]

/-- Group arm of `beginInteraction`: snapshot the group record, every
child's geometry, and the offset map (the stored `blockOffsets` when
non-empty, else offsets computed from current live positions). -/
def beginInteractionGroup (s : Scene K) (blockId : String) (ex ey : K)
    (canvasRect : Rect K) : Option (GroupInteraction K) :=
  match getGroupById s blockId with
  | none => none
  | some g =>
      let groupBlockIds := g.childIds
      let childSnapshots := groupBlockIds.foldl (snapStep s) []
      let blockOffsets :=
        if g.blockOffsets.isEmpty then
          groupBlockIds.foldl (offStep s g) []
        else g.blockOffsets
      some { blockId := blockId, startX := ex, startY := ey
             canvasRect := canvasRect, blockSnapshot := g
             groupSnapshotPosition := g.position
             groupBlockIds := groupBlockIds
             childSnapshots := childSnapshots
             blockOffsets := blockOffsets }

/-- Projection of a group record into the patch shape
`GroupTransformCommand` replays through `updateGroup` (the full record is
passed as the patch in the source). -/
def groupToPatch (g : Group K) : GroupPatch K :=
  { childIds := some g.childIds, blockIds := some g.blockIds
    position := some g.position, size := some g.size
    rotation := some g.rotation, blockOffsets := some g.blockOffsets }

/-- Projection of a child-geometry map entry into the patch replayed
through `updateBlock` (undefined `fontSize` entries are dropped by the
JSON clone, hence `Option`). -/
def childGeomPatch (cg : ChildGeom K) : BlockPatch K :=
  { position := some cg.position, rotation := some cg.rotation
    size := some cg.size, fontSize := cg.fontSize }

/-- Exit of `endInteraction` for a group gesture: rebuild the before map
from the entry snapshots and the after map from the live store, compare
them (JSON-string comparison in the source, structural equality here), and
push exactly one `GroupTransformCommand` covering the group record and
every child if and only if something differs. -/
def endInteractionGroup (st : Store K) (inter : GroupInteraction K) : Store K :=
  let groupBefore : Option (Group K) := some inter.blockSnapshot
  let groupAfter := getGroupById st.scene inter.blockId
  let childBefore : List (String × ChildGeom K) := inter.childSnapshots.map
    (fun cs => (cs.id, ChildGeom.mk cs.position cs.rotation cs.size cs.fontSize))
  let childIds :=
    match groupAfter with
    | some ga => if ga.childIds.isEmpty then inter.groupBlockIds else ga.childIds
    | none => inter.groupBlockIds
  let childAfter : List (String × ChildGeom K) :=
    childIds.foldl (geomStep st.scene) []
  if groupBefore ≠ groupAfter ∨ childBefore ≠ childAfter then
    st.applyCommand (GroupTransformCommand inter.blockId
      (groupBefore.map groupToPatch) (groupAfter.map groupToPatch)
      (childBefore.map (fun e => (e.1, childGeomPatch e.2)))
      (childAfter.map (fun e => (e.1, childGeomPatch e.2))))
  else st

/- ===== Real-valued geometry: move clamp and rotation (part_002) =====
The move branches use `Math.cos`/`Math.sin` and the rotate branches use
`Math.atan2` and `Math.PI`, so these are embedded over `ℝ`. -/

open Real in
/-- Effective axis-aligned footprint of a possibly-rotated box:
`theta = rotation·π/180`, `effW = |w·|cos θ|| + |h·|sin θ||`,
`effH = |w·|sin θ|| + |h·|cos θ||` (the inner `Math.abs` on the trig
values and the outer one on the products both appear in the source). -/
noncomputable def effSize (w h rotationDeg : ℝ) : ℝ × ℝ :=
  let theta := rotationDeg * π / 180
  let c := |Real.cos theta|
  let s := |Real.sin theta|
  (|w * c| + |h * s|, |w * s| + |h * c|)

/-- Move-clamp of a candidate top-left point against the workspace: the
candidate is clamped into
`[wsEdge − eff·0.9, wsOppositeEdge − eff]` per axis. -/
noncomputable def moveClamp (ws canvasRect : Rect ℝ) (eff : ℝ × ℝ)
    (nextX nextY : ℝ) : Pos ℝ :=
  let wsLeft := ws.left - canvasRect.left
  let wsTop := ws.top - canvasRect.top
  let wsRight := wsLeft + ws.width
  let wsBottom := wsTop + ws.height
  let allowOutsideFactor : ℝ := 9 / 10
  let minX := wsLeft - eff.1 * allowOutsideFactor
  let minY := wsTop - eff.2 * allowOutsideFactor
  let maxX := wsRight - eff.1
  let maxY := wsBottom - eff.2
  ⟨min (max nextX minX) maxX, min (max nextY minY) maxY⟩

/-- Single-block move branch of `handlePointerMove`: candidate = snapshot
position + total delta, clamped by the rotation-aware footprint; the result
is written as a live (non-undoable) `updateBlock`. -/
noncomputable def moveEventApply (ws : Rect ℝ) (inter : SingleInteraction ℝ)
    (s : Scene ℝ) (ex ey : ℝ) : Scene ℝ :=
  let dx := ex - inter.startX
  let dy := ey - inter.startY
  let snap := inter.blockSnapshot
  let eff := effSize snap.size.width snap.size.height snap.rotation
  let target := moveClamp ws inter.canvasRect eff
    (snap.position.x + dx) (snap.position.y + dy)
  updateBlock s snap.id { position := some target }

/-- Group move branch of `handlePointerMove`: clamp the candidate group
top-left, write `clamped + offset` into every child, then update the group
record's position. -/
noncomputable def groupMoveEventApply (ws : Rect ℝ) (inter : GroupInteraction ℝ)
    (s : Scene ℝ) (ex ey : ℝ) : Scene ℝ :=
  let dx := ex - inter.startX
  let dy := ey - inter.startY
  let g := inter.blockSnapshot
  let eff := effSize g.size.width g.size.height g.rotation
  let clamped := moveClamp ws inter.canvasRect eff
    (inter.groupSnapshotPosition.x + dx) (inter.groupSnapshotPosition.y + dy)
  let s1 := inter.groupBlockIds.foldl
    (fun acc cid =>
      let off := offsetLookup inter.blockOffsets cid
      updateBlock acc cid
        { position := some ⟨clamped.x + off.x, clamped.y + off.y⟩ }) s
  updateGroup s1 inter.blockId { position := some clamped }

/-- Truncation toward zero, as used by the JS `%` operator. -/
noncomputable def jsTrunc (x : ℝ) : ℤ :=
  if 0 ≤ x then ⌊x⌋ else ⌈x⌉

/-- The JS remainder operator `a % b` on numbers: `a − b·trunc(a/b)`.  Its
result takes the sign of `a` (it is negative for negative `a`), unlike a
mathematical modulus. -/
noncomputable def jsRem (a b : ℝ) : ℝ :=
  a - b * (jsTrunc (a / b) : ℝ)

/-- JS `Math.atan2(y, x)`, via the complex argument of `x + y·i`. -/
noncomputable def atan2 (y x : ℝ) : ℝ :=
  Complex.arg ⟨x, y⟩

/-- Rotation formula shared by the single-block and group rotate branches:
`degrees = ((currentAngle − startAngle)·180/π + initialRotation) % 360`
with the JS remainder. -/
noncomputable def rotateDegrees (initialRotation startAngle currentAngle : ℝ) : ℝ :=
  jsRem ((currentAngle - startAngle) * 180 / Real.pi + initialRotation) 360

/-- The rotate-specific interaction fields set by `beginInteraction`:
pivot center (canvas offset + block center), start angle (`atan2` from
pivot to the pointer-down point) and the snapshot rotation. -/
structure RotateInteraction where
  center : Pos ℝ
  startAngle : ℝ
  initialRotation : ℝ

/-- Entry of `beginInteraction` for a single-block rotate gesture. -/
noncomputable def beginRotateSingle (b : Block ℝ) (canvasRect : Rect ℝ)
    (ex ey : ℝ) : RotateInteraction :=
  let centerX := canvasRect.left + b.position.x + b.size.width / 2
  let centerY := canvasRect.top + b.position.y + b.size.height / 2
  { center := ⟨centerX, centerY⟩
    startAngle := atan2 (ey - centerY) (ex - centerX)
    initialRotation := b.rotation }

/-- Single-block rotate branch of `handlePointerMove`: recompute the
current angle from the pivot, derive the new rotation and write it through
`updateBlock` (the `Number.isFinite` guard always passes over `ℝ`). -/
noncomputable def rotateEventApply (ri : RotateInteraction) (snapId : String)
    (s : Scene ℝ) (ex ey : ℝ) : Scene ℝ :=
  let currentAngle := atan2 (ey - ri.center.y) (ex - ri.center.x)
  let degrees := rotateDegrees ri.initialRotation ri.startAngle currentAngle
  updateBlock s snapId { rotation := some degrees }

/-- JS object spread `{...old, ...new}` on an association list: keys of
`old` keep their position (overridden by `new` when present), keys only in
`new` are appended in order. -/
def spreadOffsets (old nw : List (String × Pos K)) : List (String × Pos K) :=
  (old.map (fun e =>
    match nw.find? (fun n => n.1 == e.1) with
    | some n => (e.1, n.2)
    | none => e)) ++
  nw.filter (fun n => !(old.any (fun e => e.1 == n.1)))

/-- New top-left of a child in the group rotate branch: the child's center
is orbited around the group center by the delta angle. -/
noncomputable def childRotPos (groupCx groupCy deltaRadians : ℝ)
    (snap : InteractionSnap ℝ) : Pos ℝ :=
  let childCx := snap.position.x + snap.size.width / 2
  let childCy := snap.position.y + snap.size.height / 2
  let dx := childCx - groupCx
  let dy := childCy - groupCy
  let c := Real.cos deltaRadians
  let si := Real.sin deltaRadians
  ⟨groupCx + (dx * c - dy * si) - snap.size.width / 2,
   groupCy + (dx * si + dy * c) - snap.size.height / 2⟩

/-- Per-child update of the group rotate branch
(`updates[snapshot.id] = { rotation, position }`): the snapshot rotation
plus the raw delta in degrees — no normalization — and the orbited
position. -/
noncomputable def childRotPatch (groupCx groupCy deltaRadians deltaDegrees : ℝ)
    (snap : InteractionSnap ℝ) : BlockPatch ℝ :=
  { rotation := some (snap.rotation + deltaDegrees)
    position := some (childRotPos groupCx groupCy deltaRadians snap) }

/-- Group rotate branch of `handlePointerMove`: recompute the current
angle from the pivot, write rotation + orbited position into every child
snapshot through `updateBlock`, then update the group record with the
normalized-by-`%` rotation and the spread-merged `blockOffsets` recomputed
from the new child positions. -/
noncomputable def groupRotateEventApply (ri : RotateInteraction)
    (inter : GroupInteraction ℝ) (s : Scene ℝ) (ex ey : ℝ) : Scene ℝ :=
  let currentAngle := atan2 (ey - ri.center.y) (ex - ri.center.x)
  let deltaAngle := currentAngle - ri.startAngle
  let degrees := rotateDegrees ri.initialRotation ri.startAngle currentAngle
  let deltaDegrees := deltaAngle * 180 / Real.pi
  let g := inter.blockSnapshot
  let groupCx := g.position.x + g.size.width / 2
  let groupCy := g.position.y + g.size.height / 2
  let s1 := inter.childSnapshots.foldl
    (fun acc snap => updateBlock acc snap.id
      (childRotPatch groupCx groupCy deltaAngle deltaDegrees snap)) s
  let newBlockOffsets := inter.childSnapshots.map (fun snap =>
    (snap.id,
      (⟨(childRotPos groupCx groupCy deltaAngle snap).x - g.position.x,
        (childRotPos groupCx groupCy deltaAngle snap).y - g.position.y⟩ : Pos ℝ)))
  let existing :=
    match getGroupById s1 inter.blockId with
    | some g2 => g2.blockOffsets
    | none => []
  updateGroup s1 inter.blockId
    { rotation := some degrees
      blockOffsets := some (spreadOffsets existing newBlockOffsets) }

/- ===== Toolkit lemmas about the embedded store operations ===== -/

theorem updateBlockInList_map_id {f : Block K → Block K} (hf : ∀ b, (f b).id = b.id)
    (id : String) (bs : List (Block K)) :
    (updateBlockInList id f bs).map Block.id = bs.map Block.id := by
  induction bs with
  | nil => rfl
  | cons b rest ih =>
      cases hb : (b.id == id) with
      | true => simp [updateBlockInList, hb, hf b]
      | false => simp [updateBlockInList, hb, ih]

theorem updateBlockInList_any {f : Block K → Block K} (hf : ∀ b, (f b).id = b.id)
    (id id2 : String) (bs : List (Block K)) :
    (updateBlockInList id f bs).any (fun b => b.id == id2) =
      bs.any (fun b => b.id == id2) := by
  induction bs with
  | nil => rfl
  | cons b rest ih =>
      cases hb : (b.id == id) with
      | true => simp [updateBlockInList, hb, hf b]
      | false => simp [updateBlockInList, hb, ih]

theorem find?_updateBlockInList_ne {f : Block K → Block K}
    (hf : ∀ b, (f b).id = b.id) {id id2 : String} (hne : id2 ≠ id)
    (bs : List (Block K)) :
    (updateBlockInList id f bs).find? (fun b => b.id == id2) =
      bs.find? (fun b => b.id == id2) := by
  induction bs with
  | nil => rfl
  | cons b rest ih =>
      cases hb : (b.id == id) with
      | true =>
          have hbeq : b.id = id := by simpa using hb
          have h2 : ((f b).id == id2) = false := by
            simp [hf b, hbeq]
            exact fun hc => hne hc.symm
          have h3 : (b.id == id2) = false := by
            simp [hbeq]
            exact fun hc => hne hc.symm
          simp [updateBlockInList, hb, List.find?_cons, h2, h3]
      | false =>
          simp only [updateBlockInList, hb, Bool.false_eq_true, if_false]
          rw [List.find?_cons, List.find?_cons, ih]

theorem find?_updateBlockInList_self {f : Block K → Block K}
    (hf : ∀ b, (f b).id = b.id) (id : String) (bs : List (Block K)) :
    (updateBlockInList id f bs).find? (fun b => b.id == id) =
      (bs.find? (fun b => b.id == id)).map f := by
  induction bs with
  | nil => rfl
  | cons b rest ih =>
      cases hb : (b.id == id) with
      | true =>
          have h2 : ((f b).id == id) = true := by simp [hf b]; simpa using hb
          simp [updateBlockInList, hb, List.find?_cons, h2]
      | false =>
          simp only [updateBlockInList, hb, Bool.false_eq_true, if_false]
          simp [List.find?_cons, hb, ih]

theorem updateBlockInList_comp {f g : Block K → Block K}
    (hf : ∀ b, (f b).id = b.id) (id : String) (bs : List (Block K)) :
    updateBlockInList id g (updateBlockInList id f bs) =
      updateBlockInList id (fun b => g (f b)) bs := by
  induction bs with
  | nil => rfl
  | cons b rest ih =>
      cases hb : (b.id == id) with
      | true =>
          have h2 : ((f b).id == id) = true := by simp [hf b]; simpa using hb
          simp [updateBlockInList, hb, h2]
      | false => simp [updateBlockInList, hb, ih]

theorem updateBlockInList_congr_id {f : Block K → Block K} {id : String}
    {bs : List (Block K)}
    (h : ∀ b, bs.find? (fun b => b.id == id) = some b → f b = b) :
    updateBlockInList id f bs = bs := by
  induction bs with
  | nil => rfl
  | cons b rest ih =>
      cases hb : (b.id == id) with
      | true =>
          have : f b = b := h b (by rw [List.find?_cons, hb])
          simp [updateBlockInList, hb, this]
      | false =>
          have := ih (fun b2 hb2 => h b2 (by rw [List.find?_cons, hb]; exact hb2))
          simp [updateBlockInList, hb, this]

theorem findSome?_updateBlockInPages_self {f : Block K → Block K}
    (hf : ∀ b, (f b).id = b.id) (id : String) (ps : List (Page K)) :
    (updateBlockInPages id f ps).findSome?
        (fun p => p.blocks.find? (fun b => b.id == id)) =
      (ps.findSome? (fun p => p.blocks.find? (fun b => b.id == id))).map f := by
  induction ps with
  | nil => rfl
  | cons p ps ih =>
      cases hany : p.blocks.any (fun b => b.id == id) with
      | true =>
          obtain ⟨b, hbmem, hbid⟩ := List.any_eq_true.mp hany
          obtain ⟨b0, hb0⟩ : ∃ b0, p.blocks.find? (fun b => b.id == id) = some b0 := by
            have h1 : p.blocks.find? (fun b => b.id == id) ≠ none := by
              intro hfd
              have h2 := List.find?_eq_none.mp hfd b hbmem
              simp [hbid] at h2
            cases hfd : p.blocks.find? (fun b => b.id == id) with
            | some b0 => exact ⟨b0, rfl⟩
            | none => exact absurd hfd h1
          simp [updateBlockInPages, hany, List.findSome?_cons,
            find?_updateBlockInList_self hf, hb0]
      | false =>
          have hfind : p.blocks.find? (fun b => b.id == id) = none := by
            rw [List.find?_eq_none]
            intro b hbmem hbid
            have h2 : p.blocks.any (fun b => b.id == id) = true :=
              List.any_eq_true.mpr ⟨b, hbmem, hbid⟩
            rw [hany] at h2
            exact Bool.false_ne_true h2
          simp only [updateBlockInPages, hany, Bool.false_eq_true, if_false,
            List.findSome?_cons, hfind]
          exact ih

theorem findSome?_updateBlockInPages_ne {f : Block K → Block K}
    (hf : ∀ b, (f b).id = b.id) {id id2 : String} (hne : id2 ≠ id)
    (ps : List (Page K)) :
    (updateBlockInPages id f ps).findSome?
        (fun p => p.blocks.find? (fun b => b.id == id2)) =
      ps.findSome? (fun p => p.blocks.find? (fun b => b.id == id2)) := by
  induction ps with
  | nil => rfl
  | cons p ps ih =>
      cases hany : p.blocks.any (fun b => b.id == id) with
      | true =>
          simp [updateBlockInPages, hany, List.findSome?_cons,
            find?_updateBlockInList_ne hf hne]
      | false =>
          simp only [updateBlockInPages, hany, Bool.false_eq_true, if_false,
            List.findSome?_cons]
          rw [ih]

theorem updateBlockInPages_congr_id {f : Block K → Block K} {id : String}
    {ps : List (Page K)}
    (h : ∀ b, ps.findSome? (fun p => p.blocks.find? (fun b => b.id == id)) = some b →
      f b = b) :
    updateBlockInPages id f ps = ps := by
  induction ps with
  | nil => rfl
  | cons p ps ih =>
      cases hany : p.blocks.any (fun b => b.id == id) with
      | true =>
          have : updateBlockInList id f p.blocks = p.blocks := by
            apply updateBlockInList_congr_id
            intro b hb
            exact h b (by simp [List.findSome?_cons, hb])
          simp [updateBlockInPages, hany, this]
      | false =>
          have hfind : p.blocks.find? (fun b => b.id == id) = none := by
            rw [List.find?_eq_none]
            intro b hbmem hbid
            have h2 : p.blocks.any (fun b => b.id == id) = true :=
              List.any_eq_true.mpr ⟨b, hbmem, hbid⟩
            rw [hany] at h2
            exact Bool.false_ne_true h2
          have := ih (fun b hb => h b (by simp [List.findSome?_cons, hfind, hb]))
          simp [updateBlockInPages, hany, this]

theorem updateBlockInPages_comp {f g : Block K → Block K}
    (hf : ∀ b, (f b).id = b.id) (id : String) (ps : List (Page K)) :
    updateBlockInPages id g (updateBlockInPages id f ps) =
      updateBlockInPages id (fun b => g (f b)) ps := by
  induction ps with
  | nil => rfl
  | cons p ps ih =>
      cases hany : p.blocks.any (fun b => b.id == id) with
      | true =>
          have h2 : (updateBlockInList id f p.blocks).any (fun b => b.id == id) = true := by
            rw [updateBlockInList_any hf]; exact hany
          simp [updateBlockInPages, hany, h2, updateBlockInList_comp hf]
      | false => simp [updateBlockInPages, hany, ih]

theorem getBlockById_modifyBlock_self {f : Block K → Block K}
    (hf : ∀ b, (f b).id = b.id) (s : Scene K) (id : String) :
    getBlockById (modifyBlock s id f) id = (getBlockById s id).map f :=
  findSome?_updateBlockInPages_self hf id s.project.pages

theorem getBlockById_modifyBlock_ne {f : Block K → Block K}
    (hf : ∀ b, (f b).id = b.id) (s : Scene K) {id id2 : String} (hne : id2 ≠ id) :
    getBlockById (modifyBlock s id f) id2 = getBlockById s id2 :=
  findSome?_updateBlockInPages_ne hf hne s.project.pages

theorem modifyBlock_congr_id {f : Block K → Block K} {s : Scene K} {id : String}
    (h : ∀ b, getBlockById s id = some b → f b = b) :
    modifyBlock s id f = s := by
  show ({ s with project := { pages := updateBlockInPages id f s.project.pages } } :
    Scene K) = s
  rw [updateBlockInPages_congr_id h]

theorem modifyBlock_comp {f g : Block K → Block K}
    (hf : ∀ b, (f b).id = b.id) (s : Scene K) (id : String) :
    modifyBlock (modifyBlock s id f) id g = modifyBlock s id (fun b => g (f b)) := by
  simp only [modifyBlock]
  rw [updateBlockInPages_comp hf]

theorem modifyBlock_groups (s : Scene K) (id : String) (f : Block K → Block K) :
    (modifyBlock s id f).groups = s.groups := rfl

theorem modifyBlock_activePageId (s : Scene K) (id : String) (f : Block K → Block K) :
    (modifyBlock s id f).activePageId = s.activePageId := rfl

theorem applyBlockPatch_id (b : Block K) (p : BlockPatch K) :
    (applyBlockPatch b p).id = b.id := rfl

theorem getBlockById_updateBlock_self (s : Scene K) (id : String) (p : BlockPatch K) :
    getBlockById (updateBlock s id p) id =
      (getBlockById s id).map (fun b => applyBlockPatch b p) := by
  unfold updateBlock
  apply getBlockById_modifyBlock_self
  intro b
  rfl

theorem getBlockById_updateBlock_ne (s : Scene K) {id id2 : String}
    (hne : id2 ≠ id) (p : BlockPatch K) :
    getBlockById (updateBlock s id p) id2 = getBlockById s id2 := by
  unfold updateBlock
  apply getBlockById_modifyBlock_ne
  · intro b
    rfl
  · exact hne

theorem updateBlock_groups (s : Scene K) (id : String) (p : BlockPatch K) :
    (updateBlock s id p).groups = s.groups := rfl

theorem updateGroupInList_map_id {f : Group K → Group K} (hf : ∀ g, (f g).id = g.id)
    (gid : String) (gs : List (Group K)) :
    (updateGroupInList gid f gs).map Group.id = gs.map Group.id := by
  induction gs with
  | nil => rfl
  | cons g rest ih =>
      cases hg : (g.id == gid) with
      | true => simp [updateGroupInList, hg, hf g]
      | false => simp [updateGroupInList, hg, ih]

theorem find?_updateGroupInList_self {f : Group K → Group K}
    (hf : ∀ g, (f g).id = g.id) (gid : String) (gs : List (Group K)) :
    (updateGroupInList gid f gs).find? (fun g => g.id == gid) =
      (gs.find? (fun g => g.id == gid)).map f := by
  induction gs with
  | nil => rfl
  | cons g rest ih =>
      cases hg : (g.id == gid) with
      | true =>
          have h2 : ((f g).id == gid) = true := by simp [hf g]; simpa using hg
          simp [updateGroupInList, hg, List.find?_cons, h2]
      | false =>
          simp only [updateGroupInList, hg, Bool.false_eq_true, if_false]
          simp [List.find?_cons, hg, ih]

theorem find?_updateGroupInList_ne {f : Group K → Group K}
    (hf : ∀ g, (f g).id = g.id) {gid gid2 : String} (hne : gid2 ≠ gid)
    (gs : List (Group K)) :
    (updateGroupInList gid f gs).find? (fun g => g.id == gid2) =
      gs.find? (fun g => g.id == gid2) := by
  induction gs with
  | nil => rfl
  | cons g rest ih =>
      cases hg : (g.id == gid) with
      | true =>
          have hgeq : g.id = gid := by simpa using hg
          have h2 : ((f g).id == gid2) = false := by
            simp [hf g, hgeq]
            exact fun hc => hne hc.symm
          have h3 : (g.id == gid2) = false := by
            simp [hgeq]
            exact fun hc => hne hc.symm
          simp [updateGroupInList, hg, List.find?_cons, h2, h3]
      | false =>
          simp only [updateGroupInList, hg, Bool.false_eq_true, if_false]
          rw [List.find?_cons, List.find?_cons, ih]

theorem attachChild_groups (s : Scene K) (bid gid : String) :
    (attachChild s bid gid).groups = s.groups := by
  unfold attachChild
  split <;> rfl

theorem detachIfOwned_groups (s : Scene K) (bid gid : String) :
    (detachIfOwned s bid gid).groups = s.groups := by
  unfold detachIfOwned
  split
  · split <;> rfl
  · rfl

theorem attachChild_activePageId (s : Scene K) (bid gid : String) :
    (attachChild s bid gid).activePageId = s.activePageId := by
  unfold attachChild
  split <;> rfl

theorem detachIfOwned_activePageId (s : Scene K) (bid gid : String) :
    (detachIfOwned s bid gid).activePageId = s.activePageId := by
  unfold detachIfOwned
  split
  · split <;> rfl
  · rfl

theorem attachChild_getBlockById_ne {bid2 bid : String} (hne : bid2 ≠ bid)
    (s : Scene K) (gid : String) :
    getBlockById (attachChild s bid gid) bid2 = getBlockById s bid2 := by
  unfold attachChild
  split
  · unfold setBlockGroupId
    apply getBlockById_modifyBlock_ne
    · intro b; rfl
    · exact hne
  · rfl

theorem detachIfOwned_getBlockById_ne {bid2 bid : String} (hne : bid2 ≠ bid)
    (s : Scene K) (gid : String) :
    getBlockById (detachIfOwned s bid gid) bid2 = getBlockById s bid2 := by
  unfold detachIfOwned
  split
  · split
    · unfold setBlockGroupId
      apply getBlockById_modifyBlock_ne
      · intro b; rfl
      · exact hne
    · rfl
  · rfl

theorem detachIfOwned_preserves {s : Scene K} {bid2 : String} {b : Block K}
    (hb : getBlockById s bid2 = some b) {gid : String}
    (hown : b.groupId ≠ some gid) (bid : String) :
    getBlockById (detachIfOwned s bid gid) bid2 = some b := by
  by_cases heq : bid2 = bid
  · subst heq
    unfold detachIfOwned
    rw [hb]
    simp only [hown, if_false, Bool.false_eq_true]
    · exact hb
  · rw [detachIfOwned_getBlockById_ne heq]
    exact hb

theorem foldl_preserve_mem {β : Type} (P : Scene K → Prop)
    (step : Scene K → β → Scene K) :
    ∀ (l : List β) (s : Scene K),
      (∀ t x, x ∈ l → P t → P (step t x)) → P s → P (l.foldl step s) := by
  intro l
  induction l with
  | nil => intro s _ hs; exact hs
  | cons a rest ih =>
      intro s hstep hs
      exact ih (step s a) (fun t x hx ht => hstep t x (List.mem_cons_of_mem a hx) ht)
        (hstep s a (List.mem_cons_self a rest) hs)

/- ===== Concrete values shared by several witnesses ===== -/

/-- An empty rational scene (no pages, no groups). -/
def emptyScene : Scene ℚ :=
  { project := { pages := [] }, activePageId := none, groups := [] }

/-- A command whose `do` and `undo` both succeed without mutating. -/
def noopCmd : Command ℚ :=
  { doFn := fun s => (s, true), undoFn := fun s => (s, true) }

/-- A command whose `do` and `undo` both throw (after no mutation). -/
def throwingCmd : Command ℚ :=
  { doFn := fun s => (s, false), undoFn := fun s => (s, false) }

/-- Repeated application of `noopCmd` through `applyCommand`. -/
def applyNoopN : ℕ → Store ℚ → Store ℚ
  | 0, st => st
  | n + 1, st => (applyNoopN n st).applyCommand noopCmd

theorem applyNoopN_undoStack_length (n : ℕ) (st : Store ℚ) :
    (applyNoopN n st).undoStack.length = st.undoStack.length + n := by
  induction n with
  | zero => rfl
  | succ n ih =>
      show ((applyNoopN n st).applyCommand noopCmd).undoStack.length = _
      simp only [Store.applyCommand, noopCmd]
      simp [ih]
      omega

/- ===== C2: Command Stack exception policy ===== -/

/-- C2 counterexample: the claim states that after `applyCommand` of a
throwing command the command is on the undo list with the redo list
cleared, and that after a throwing `undo` the command is on the redo list.
In fact a command whose `do` throws is not pushed at all (undo list stays
empty, redo list is not cleared), and a command whose `undo` throws is
popped but never reaches the redo list. -/
theorem c2_exception_counterexample :
    (Store.applyCommand ⟨emptyScene, [], [noopCmd]⟩ throwingCmd).undoStack = [] ∧
    (Store.applyCommand ⟨emptyScene, [], [noopCmd]⟩ throwingCmd).redoStack = [noopCmd] ∧
    (Store.undo ⟨emptyScene, [throwingCmd], []⟩).undoStack = [] ∧
    (Store.undo ⟨emptyScene, [throwingCmd], []⟩).redoStack = [] := by
  refine ⟨rfl, rfl, ?_, ?_⟩ <;> rfl

/-- C2 (amended): exceptions thrown by a command's `do`/`undo` are caught
(the operations are total and keep the partially-mutated scene), but the
stack does not advance as in the non-throwing case: a throwing `do` leaves
the undo list unchanged and does not clear the redo list; a throwing
`undo` removes the command from the undo list without pushing it onto the
redo list; a throwing `redo` removes it from the redo list without pushing
it onto the undo list. -/
theorem c2_exception_amended (st : Store K) (cmd : Command K) :
    ((cmd.doFn st.scene).2 = false →
      st.applyCommand cmd = { st with scene := (cmd.doFn st.scene).1 }) ∧
    (∀ rest : List (Command K), st.undoStack = rest ++ [cmd] →
      (cmd.undoFn st.scene).2 = false →
      st.undo = { scene := (cmd.undoFn st.scene).1, undoStack := rest
                  redoStack := st.redoStack }) ∧
    (∀ rest : List (Command K), st.redoStack = rest ++ [cmd] →
      (cmd.doFn st.scene).2 = false →
      st.redo = { scene := (cmd.doFn st.scene).1, undoStack := st.undoStack
                  redoStack := rest }) := by
  refine ⟨?_, ?_, ?_⟩
  · intro h
    simp [Store.applyCommand, h]
  · intro rest hrest h
    unfold Store.undo
    rw [hrest]
    simp [List.getLast?_concat, List.dropLast_concat, h]
  · intro rest hrest h
    unfold Store.redo
    rw [hrest]
    simp [List.getLast?_concat, List.dropLast_concat, h]

/-- C2 witness: the amended behavior at a concrete store and command. -/
theorem c2_exception_amended_witness :
    (Store.applyCommand ⟨emptyScene, [], [noopCmd]⟩ throwingCmd =
      { scene := emptyScene, undoStack := [], redoStack := [noopCmd] }) ∧
    (Store.undo ⟨emptyScene, [throwingCmd], [noopCmd]⟩ =
      { scene := emptyScene, undoStack := [], redoStack := [noopCmd] }) ∧
    (Store.redo ⟨emptyScene, [], [throwingCmd]⟩ =
      { scene := emptyScene, undoStack := [], redoStack := [] }) :=
  ⟨(c2_exception_amended ⟨emptyScene, [], [noopCmd]⟩ throwingCmd).1 rfl,
   (c2_exception_amended ⟨emptyScene, [throwingCmd], [noopCmd]⟩ throwingCmd).2.1 [] rfl rfl,
   (c2_exception_amended ⟨emptyScene, [], [throwingCmd]⟩ throwingCmd).2.2 [] rfl rfl⟩

/- ===== C9: Bounded history ===== -/

/-- C9 counterexample: the undo list is not bounded by any fixed limit —
repeatedly applying a (successful) command grows it beyond every bound;
nothing is ever evicted. -/
theorem c9_bounded_history_counterexample :
    ¬ ∃ L : ℕ, ∀ n : ℕ,
      (applyNoopN n ⟨emptyScene, [], []⟩).undoStack.length ≤ L := by
  rintro ⟨L, h⟩
  have h2 := h (L + 1)
  rw [applyNoopN_undoStack_length] at h2
  omega

/-- C9 (amended): the Command Stack keeps unbounded history — every
successfully applied command is appended to the undo list and no entry is
ever evicted, so the undo list grows without bound. -/
theorem c9_bounded_history_amended (st : Store K) (cmd : Command K)
    (h : (cmd.doFn st.scene).2 = true) :
    (st.applyCommand cmd).undoStack = st.undoStack ++ [cmd] := by
  simp [Store.applyCommand, h]

/-- C9 witness: applying a successful command to an empty store appends it. -/
theorem c9_bounded_history_amended_witness :
    (Store.applyCommand ⟨emptyScene, [], []⟩ noopCmd).undoStack = [] ++ [noopCmd] :=
  c9_bounded_history_amended ⟨emptyScene, [], []⟩ noopCmd rfl

theorem updateGroupInList_congr {f : Group K → Group K} {gid : String}
    {gs : List (Group K)} (h : ∀ g ∈ gs, f g = g) :
    updateGroupInList gid f gs = gs := by
  induction gs with
  | nil => rfl
  | cons g rest ih =>
      cases hg : (g.id == gid) with
      | true => simp [updateGroupInList, hg, h g (List.mem_cons_self g rest)]
      | false =>
          simp [updateGroupInList, hg,
            ih (fun g2 hg2 => h g2 (List.mem_cons_of_mem g hg2))]

theorem applyGroupFields_of_none {p : GroupPatch K}
    (h1 : p.position = none) (h2 : p.size = none) (h3 : p.rotation = none)
    (h4 : p.blockOffsets = none) (s : Scene K) (gid : String) :
    applyGroupFields s gid p = s := by
  unfold applyGroupFields
  have key : updateGroupInList gid
      (fun g => { g with position := p.position.getD g.position
                         size := p.size.getD g.size
                         rotation := p.rotation.getD g.rotation
                         blockOffsets := p.blockOffsets.getD g.blockOffsets })
        s.groups = s.groups := by
    apply updateGroupInList_congr
    intro g _
    rw [h1, h2, h3, h4]
    rfl
  rw [key]

theorem getGroupById_congr_groups {t s : Scene K} (h : t.groups = s.groups)
    (gid : String) : getGroupById t gid = getGroupById s gid := by
  unfold getGroupById
  rw [h]

theorem getGroupById_setGroupChildIds_self (s : Scene K) (gid : String)
    (ids : List String) :
    getGroupById (setGroupChildIds s gid ids) gid =
      (getGroupById s gid).map (fun g => { g with childIds := ids, blockIds := ids }) := by
  unfold setGroupChildIds getGroupById
  simp only
  apply find?_updateGroupInList_self
  intro g
  rfl

theorem getBlockById_setGroupChildIds (s : Scene K) (gid : String)
    (ids : List String) (bid : String) :
    getBlockById (setGroupChildIds s gid ids) bid = getBlockById s bid := rfl

theorem find?_eraseP_self_of_nodup (gs : List (Group K)) (gid : String)
    (hnd : (gs.map Group.id).Nodup) :
    (List.eraseP (fun g => g.id == gid) gs).find? (fun g => g.id == gid) = none := by
  induction gs with
  | nil => rfl
  | cons g rest ih =>
      cases hg : (g.id == gid) with
      | true =>
          have hgeq : g.id = gid := by simpa using hg
          rw [List.eraseP_cons, hg]
          simp only [cond_true]
          rw [List.find?_eq_none]
          intro h hmem hid
          have hidlist : g.id ∈ rest.map Group.id := by
            rw [hgeq]
            exact List.mem_map.mpr ⟨h, hmem, by simpa using hid⟩
          exact (List.nodup_cons.mp (by simpa using hnd)).1 hidlist
      | false =>
          rw [List.eraseP_cons, hg]
          simp only [cond_false]
          rw [List.find?_cons, hg]
          exact ih (List.nodup_cons.mp (by simpa using hnd)).2

/- ===== C10: stale-member detach guard ===== -/

/-- C10: `removeGroup` and a `childIds`-removing `updateGroup` detach a
child's `groupId` only when the block still points at the group being
modified; a block listed in the group's `childIds` but owned by another
group keeps its `groupId`, while the group record itself is still deleted
(respectively its `childIds` still replaced). -/
theorem c10_stale_member_guard (s : Scene K) (gid : String) (g : Group K)
    (bid : String) (b : Block K) (g2 : String) (newIds : List String)
    (hg : getGroupById s gid = some g)
    (hnd : (s.groups.map Group.id).Nodup)
    (hb : getBlockById s bid = some b)
    (hmem : bid ∈ g.childIds)
    (hown : b.groupId = some g2)
    (hne : g2 ≠ gid)
    (hnotin : bid ∉ newIds) :
    (getBlockById (removeGroup s gid) bid = some b ∧
      getGroupById (removeGroup s gid) gid = none) ∧
    (getBlockById (updateGroup s gid { childIds := some newIds }) bid = some b ∧
      getGroupById (updateGroup s gid { childIds := some newIds }) gid =
        some { g with childIds := newIds, blockIds := newIds }) := by
  have hownNe : b.groupId ≠ some gid := by
    rw [hown]
    intro hc
    exact hne (by injection hc)
  constructor
  · unfold removeGroup
    rw [show s.groups.find? (fun h => h.id == gid) = some g from hg]
    simp only
    have hblocks : getBlockById
        (g.childIds.foldl (fun acc bid2 => detachIfOwned acc bid2 gid) s) bid
        = some b := by
      apply foldl_preserve_mem (fun t => getBlockById t bid = some b)
      · intro t x _ ht
        exact detachIfOwned_preserves ht hownNe x
      · exact hb
    have hgroups : (g.childIds.foldl
        (fun acc bid2 => detachIfOwned acc bid2 gid) s).groups = s.groups := by
      apply foldl_preserve_mem (fun t => t.groups = s.groups)
      · intro t x _ ht
        rw [detachIfOwned_groups, ht]
      · rfl
    constructor
    · exact hblocks
    · show List.find? _ _ = none
      rw [hgroups]
      exact find?_eraseP_self_of_nodup s.groups gid hnd
  · unfold updateGroup
    rw [show s.groups.find? (fun h => h.id == gid) = some g from hg]
    simp only
    constructor
    · rw [applyGroupFields_of_none rfl rfl rfl rfl, getBlockById_setGroupChildIds]
      apply foldl_preserve_mem (fun t => getBlockById t bid = some b)
      · intro t x hx ht
        split
        · exact ht
        · rw [attachChild_getBlockById_ne (fun hcc => hnotin (by rw [hcc]; exact hx))]
          exact ht
      · apply foldl_preserve_mem (fun t => getBlockById t bid = some b)
        · intro t x _ ht
          split
          · exact ht
          · exact detachIfOwned_preserves ht hownNe x
        · exact hb
    · rw [applyGroupFields_of_none rfl rfl rfl rfl,
        getGroupById_setGroupChildIds_self]
      have hgroups2 : (List.foldl
          (fun acc newId =>
            if g.childIds.contains newId then acc else attachChild acc newId gid)
          (List.foldl
            (fun acc oldId =>
              if newIds.contains oldId then acc else detachIfOwned acc oldId gid) s
            g.childIds)
          newIds).groups = s.groups := by
        apply foldl_preserve_mem (fun t => t.groups = s.groups)
        · intro t x _ ht
          split
          · exact ht
          · rw [attachChild_groups]
            exact ht
        · apply foldl_preserve_mem (fun t => t.groups = s.groups)
          · intro t x _ ht
            split
            · exact ht
            · rw [detachIfOwned_groups]
              exact ht
          · rfl
      rw [getGroupById_congr_groups hgroups2, hg]
      rfl

/-- Concrete block used by the C10 witness: listed in group `g-1` but
already reassigned to `g-2`. -/
def blockA : Block ℚ :=
  { id := "a", btype := "image", position := ⟨0, 0⟩, size := ⟨10, 10⟩
    rotation := 0, fontSize := none, crop := none
    groupId := some "g-2", locked := false }

/-- Concrete group record for the C10 witness. -/
def groupG1 : Group ℚ :=
  { id := "g-1", childIds := ["a"], blockIds := ["a"], position := ⟨0, 0⟩
    size := ⟨0, 0⟩, rotation := 0, blockOffsets := [] }

/-- Concrete scene for the C10 witness. -/
def sceneC10 : Scene ℚ :=
  { project := { pages := [⟨"p", [blockA]⟩] }, activePageId := some "p"
    groups := [groupG1] }

/-- C10 witness: the guard at a concrete scene. -/
theorem c10_stale_member_guard_witness :
    (getBlockById (removeGroup sceneC10 "g-1") "a" = some blockA ∧
      getGroupById (removeGroup sceneC10 "g-1") "g-1" = none) ∧
    (getBlockById (updateGroup sceneC10 "g-1" { childIds := some [] }) "a" = some blockA ∧
      getGroupById (updateGroup sceneC10 "g-1" { childIds := some [] }) "g-1" =
        some { groupG1 with childIds := [], blockIds := [] }) :=
  c10_stale_member_guard sceneC10 "g-1" groupG1 "a" blockA "g-2" []
    rfl (by decide) rfl (by decide) rfl (by decide) (by decide)

/- ===== C6: crop clamp invariant ===== -/

/-- The crop invariant maintained by the single-block crop branch: all four
insets nonnegative and each axis keeps at least `MIN_VISIBLE_PERCENT = 1`
percent visible. -/
def CropInv (c : Crop K) : Prop :=
  0 ≤ c.left ∧ 0 ≤ c.right ∧ 0 ≤ c.top ∧ 0 ≤ c.bottom ∧
  c.left + c.right ≤ 99 ∧ c.top + c.bottom ≤ 99

instance (c : Crop K) : Decidable (CropInv c) := by
  unfold CropInv
  infer_instance

/-- A sequence of committed crop gestures (per-gesture snapshot size,
handle, and total pixel delta). -/
def applyCropSeq (c : Crop K) (steps : List (Size K × String × K × K)) : Crop K :=
  steps.foldl (fun acc st => applyCropGesture acc st.1 st.2.1 st.2.2.1 st.2.2.2) c

theorem clamp100_nonneg (v : K) : 0 ≤ clamp100 v :=
  le_min (le_max_right v 0) (by norm_num)

theorem clamp100_le_100 (v : K) : clamp100 v ≤ 100 :=
  min_le_right _ _

theorem clamp100_eq_self {v : K} (h0 : 0 ≤ v) (h1 : v ≤ 100) : clamp100 v = v := by
  unfold clamp100
  rw [max_eq_left h0, min_eq_left h1]

theorem applyCropGesture_left_char (c : Crop K) (h : CropInv c) (size : Size K)
    (dx dy : K) :
    applyCropGesture c size "left" dx dy =
      { c with left := min (clamp100 (c.left + (if size.width > 0 then dx / size.width * 100 else 0))) (100 - c.right - 1) } := by
  obtain ⟨h1, h2, h3, h4, h5, h6⟩ := h
  unfold applyCropGesture
  simp only [show (("left" == "left") = true) from rfl,
    show (("left" == "right") = false) from rfl,
    show (("left" == "top") = false) from rfl,
    show (("left" == "bottom") = false) from rfl,
    if_true, Bool.false_eq_true, if_false]
  set d : K := (if size.width > 0 then dx / size.width * 100 else 0) with hd
  rw [clamp100_eq_self h2 (by linarith), clamp100_eq_self h3 (by linarith),
    clamp100_eq_self h4 (by linarith)]
  have hA0 : (0 : K) ≤ clamp100 (c.left + d) ⊓ (100 - c.right - 1) :=
    le_min (clamp100_nonneg _) (by linarith)
  have hA100 : clamp100 (c.left + d) ⊓ (100 - c.right - 1) ≤ 100 :=
    le_trans (min_le_left _ _) (clamp100_le_100 _)
  have hAr : clamp100 (c.left + d) ⊓ (100 - c.right - 1) ≤ 100 - c.right - 1 :=
    min_le_right _ _
  rw [clamp100_eq_self hA0 hA100]
  have hInner : ¬(100 - (clamp100 (c.left + d) ⊓ (100 - c.right - 1) + c.right) < 1) :=
    not_lt.mpr (by linarith)
  rw [if_neg hInner]
  dsimp only
  rw [if_neg (not_lt.mpr (by linarith : (1 : K) ≤ 100 - (c.top + c.bottom)))]

theorem applyCropGesture_right_char (c : Crop K) (h : CropInv c) (size : Size K)
    (dx dy : K) :
    applyCropGesture c size "right" dx dy =
      { c with right := min (clamp100 (c.right - (if size.width > 0 then dx / size.width * 100 else 0))) (100 - c.left - 1) } := by
  obtain ⟨h1, h2, h3, h4, h5, h6⟩ := h
  unfold applyCropGesture
  simp only [show (("right" == "left") = false) from rfl,
    show (("right" == "right") = true) from rfl,
    show (("right" == "top") = false) from rfl,
    show (("right" == "bottom") = false) from rfl,
    if_true, Bool.false_eq_true, if_false]
  set d : K := (if size.width > 0 then dx / size.width * 100 else 0) with hd
  rw [clamp100_eq_self h1 (by linarith), clamp100_eq_self h3 (by linarith),
    clamp100_eq_self h4 (by linarith)]
  have hA0 : (0 : K) ≤ clamp100 (c.right - d) ⊓ (100 - c.left - 1) :=
    le_min (clamp100_nonneg _) (by linarith)
  have hA100 : clamp100 (c.right - d) ⊓ (100 - c.left - 1) ≤ 100 :=
    le_trans (min_le_left _ _) (clamp100_le_100 _)
  have hAr : clamp100 (c.right - d) ⊓ (100 - c.left - 1) ≤ 100 - c.left - 1 :=
    min_le_right _ _
  rw [clamp100_eq_self hA0 hA100]
  have hInner : ¬(100 - (c.left + clamp100 (c.right - d) ⊓ (100 - c.left - 1)) < 1) :=
    not_lt.mpr (by linarith)
  rw [if_neg hInner]
  dsimp only
  rw [if_neg (not_lt.mpr (by linarith : (1 : K) ≤ 100 - (c.top + c.bottom)))]

theorem applyCropGesture_top_char (c : Crop K) (h : CropInv c) (size : Size K)
    (dx dy : K) :
    applyCropGesture c size "top" dx dy =
      { c with top := min (clamp100 (c.top + (if size.height > 0 then dy / size.height * 100 else 0))) (100 - c.bottom - 1) } := by
  obtain ⟨h1, h2, h3, h4, h5, h6⟩ := h
  unfold applyCropGesture
  simp only [show (("top" == "left") = false) from rfl,
    show (("top" == "right") = false) from rfl,
    show (("top" == "top") = true) from rfl,
    show (("top" == "bottom") = false) from rfl,
    if_true, Bool.false_eq_true, if_false]
  set d : K := (if size.height > 0 then dy / size.height * 100 else 0) with hd
  rw [clamp100_eq_self h1 (by linarith), clamp100_eq_self h2 (by linarith),
    clamp100_eq_self h4 (by linarith)]
  have hA0 : (0 : K) ≤ clamp100 (c.top + d) ⊓ (100 - c.bottom - 1) :=
    le_min (clamp100_nonneg _) (by linarith)
  have hA100 : clamp100 (c.top + d) ⊓ (100 - c.bottom - 1) ≤ 100 :=
    le_trans (min_le_left _ _) (clamp100_le_100 _)
  have hAr : clamp100 (c.top + d) ⊓ (100 - c.bottom - 1) ≤ 100 - c.bottom - 1 :=
    min_le_right _ _
  rw [clamp100_eq_self hA0 hA100]
  rw [if_neg (not_lt.mpr (by linarith : (1 : K) ≤ 100 - (c.left + c.right)))]
  dsimp only
  have hInner : ¬(100 - (clamp100 (c.top + d) ⊓ (100 - c.bottom - 1) + c.bottom) < 1) :=
    not_lt.mpr (by linarith)
  rw [if_neg hInner]

theorem applyCropGesture_bottom_char (c : Crop K) (h : CropInv c) (size : Size K)
    (dx dy : K) :
    applyCropGesture c size "bottom" dx dy =
      { c with bottom := min (clamp100 (c.bottom - (if size.height > 0 then dy / size.height * 100 else 0))) (100 - c.top - 1) } := by
  obtain ⟨h1, h2, h3, h4, h5, h6⟩ := h
  unfold applyCropGesture
  simp only [show (("bottom" == "left") = false) from rfl,
    show (("bottom" == "right") = false) from rfl,
    show (("bottom" == "top") = false) from rfl,
    show (("bottom" == "bottom") = true) from rfl,
    if_true, Bool.false_eq_true, if_false]
  set d : K := (if size.height > 0 then dy / size.height * 100 else 0) with hd
  rw [clamp100_eq_self h1 (by linarith), clamp100_eq_self h2 (by linarith),
    clamp100_eq_self h3 (by linarith)]
  have hA0 : (0 : K) ≤ clamp100 (c.bottom - d) ⊓ (100 - c.top - 1) :=
    le_min (clamp100_nonneg _) (by linarith)
  have hA100 : clamp100 (c.bottom - d) ⊓ (100 - c.top - 1) ≤ 100 :=
    le_trans (min_le_left _ _) (clamp100_le_100 _)
  have hAr : clamp100 (c.bottom - d) ⊓ (100 - c.top - 1) ≤ 100 - c.top - 1 :=
    min_le_right _ _
  rw [clamp100_eq_self hA0 hA100]
  rw [if_neg (not_lt.mpr (by linarith : (1 : K) ≤ 100 - (c.left + c.right)))]
  dsimp only
  have hInner : ¬(100 - (c.top + clamp100 (c.bottom - d) ⊓ (100 - c.top - 1)) < 1) :=
    not_lt.mpr (by linarith)
  rw [if_neg hInner]

theorem applyCropGesture_other_char (c : Crop K) (h : CropInv c) (size : Size K)
    {handle : String} (hL : handle ≠ "left") (hR : handle ≠ "right")
    (hT : handle ≠ "top") (hB : handle ≠ "bottom") (dx dy : K) :
    applyCropGesture c size handle dx dy = c := by
  obtain ⟨h1, h2, h3, h4, h5, h6⟩ := h
  unfold applyCropGesture
  simp only [show ((handle == "left") = false) by simpa using hL,
    show ((handle == "right") = false) by simpa using hR,
    show ((handle == "top") = false) by simpa using hT,
    show ((handle == "bottom") = false) by simpa using hB,
    Bool.false_eq_true, if_false]
  rw [clamp100_eq_self h1 (by linarith), clamp100_eq_self h2 (by linarith),
    clamp100_eq_self h3 (by linarith), clamp100_eq_self h4 (by linarith)]
  rw [if_neg (not_lt.mpr (by linarith : (1 : K) ≤ 100 - (c.left + c.right)))]
  dsimp only
  rw [if_neg (not_lt.mpr (by linarith : (1 : K) ≤ 100 - (c.top + c.bottom)))]

theorem cropStep_inv (c : Crop K) (h : CropInv c) (size : Size K)
    (handle : String) (dx dy : K) :
    CropInv (applyCropGesture c size handle dx dy) := by
  obtain ⟨h1, h2, h3, h4, h5, h6⟩ := h
  by_cases hL : handle = "left"
  · subst hL
    rw [applyCropGesture_left_char c ⟨h1, h2, h3, h4, h5, h6⟩]
    exact ⟨le_min (clamp100_nonneg _) (by linarith), h2, h3, h4, by
      have := min_le_right
        (clamp100 (c.left + (if size.width > 0 then dx / size.width * 100 else 0)))
        (100 - c.right - 1)
      dsimp only
      linarith, h6⟩
  by_cases hR : handle = "right"
  · subst hR
    rw [applyCropGesture_right_char c ⟨h1, h2, h3, h4, h5, h6⟩]
    exact ⟨h1, le_min (clamp100_nonneg _) (by linarith), h3, h4, by
      have := min_le_right
        (clamp100 (c.right - (if size.width > 0 then dx / size.width * 100 else 0)))
        (100 - c.left - 1)
      dsimp only
      linarith, h6⟩
  by_cases hT : handle = "top"
  · subst hT
    rw [applyCropGesture_top_char c ⟨h1, h2, h3, h4, h5, h6⟩]
    exact ⟨h1, h2, le_min (clamp100_nonneg _) (by linarith), h4, h5, by
      have := min_le_right
        (clamp100 (c.top + (if size.height > 0 then dy / size.height * 100 else 0)))
        (100 - c.bottom - 1)
      dsimp only
      linarith⟩
  by_cases hB : handle = "bottom"
  · subst hB
    rw [applyCropGesture_bottom_char c ⟨h1, h2, h3, h4, h5, h6⟩]
    exact ⟨h1, h2, h3, le_min (clamp100_nonneg _) (by linarith), h5, by
      have := min_le_right
        (clamp100 (c.bottom - (if size.height > 0 then dy / size.height * 100 else 0)))
        (100 - c.top - 1)
      dsimp only
      linarith⟩
  rw [applyCropGesture_other_char c ⟨h1, h2, h3, h4, h5, h6⟩ size hL hR hT hB]
  exact ⟨h1, h2, h3, h4, h5, h6⟩

/-- C6: starting from crop insets satisfying the bounds, every sequence of
crop-delta applications keeps all four insets in `[0, 100]` with
`left + right ≤ 100 − MIN_VISIBLE` and `top + bottom ≤ 100 − MIN_VISIBLE`
(`MIN_VISIBLE = 1`), and each single application only moves the dragged
edge — the opposite edge (and the other axis) is never corrected. -/
theorem c6_crop_clamp_invariant (c : Crop K) (hInv : CropInv c)
    (steps : List (Size K × String × K × K)) :
    (CropInv (applyCropSeq c steps) ∧
      (0 ≤ (applyCropSeq c steps).left ∧ (applyCropSeq c steps).left ≤ 100) ∧
      (0 ≤ (applyCropSeq c steps).right ∧ (applyCropSeq c steps).right ≤ 100) ∧
      (0 ≤ (applyCropSeq c steps).top ∧ (applyCropSeq c steps).top ≤ 100) ∧
      (0 ≤ (applyCropSeq c steps).bottom ∧ (applyCropSeq c steps).bottom ≤ 100) ∧
      (applyCropSeq c steps).left + (applyCropSeq c steps).right ≤ 100 - 1 ∧
      (applyCropSeq c steps).top + (applyCropSeq c steps).bottom ≤ 100 - 1) ∧
    (∀ size dx dy,
      ((applyCropGesture c size "left" dx dy).right = c.right ∧
        (applyCropGesture c size "left" dx dy).top = c.top ∧
        (applyCropGesture c size "left" dx dy).bottom = c.bottom) ∧
      ((applyCropGesture c size "right" dx dy).left = c.left ∧
        (applyCropGesture c size "right" dx dy).top = c.top ∧
        (applyCropGesture c size "right" dx dy).bottom = c.bottom) ∧
      ((applyCropGesture c size "top" dx dy).left = c.left ∧
        (applyCropGesture c size "top" dx dy).right = c.right ∧
        (applyCropGesture c size "top" dx dy).bottom = c.bottom) ∧
      ((applyCropGesture c size "bottom" dx dy).left = c.left ∧
        (applyCropGesture c size "bottom" dx dy).right = c.right ∧
        (applyCropGesture c size "bottom" dx dy).top = c.top)) := by
  have hseq : CropInv (applyCropSeq c steps) := by
    unfold applyCropSeq
    apply List.foldlRecOn steps _ c hInv
    intro acc hacc st _
    exact cropStep_inv acc hacc st.1 st.2.1 st.2.2.1 st.2.2.2
  constructor
  · obtain ⟨k1, k2, k3, k4, k5, k6⟩ := hseq
    exact ⟨⟨k1, k2, k3, k4, k5, k6⟩,
      ⟨k1, by linarith⟩, ⟨k2, by linarith⟩, ⟨k3, by linarith⟩, ⟨k4, by linarith⟩,
      by linarith, by linarith⟩
  · intro size dx dy
    refine ⟨?_, ?_, ?_, ?_⟩
    · rw [applyCropGesture_left_char c hInv]
      exact ⟨rfl, rfl, rfl⟩
    · rw [applyCropGesture_right_char c hInv]
      exact ⟨rfl, rfl, rfl⟩
    · rw [applyCropGesture_top_char c hInv]
      exact ⟨rfl, rfl, rfl⟩
    · rw [applyCropGesture_bottom_char c hInv]
      exact ⟨rfl, rfl, rfl⟩

/-- C6 witness: a concrete full-image crop, dragged hard left then right. -/
theorem c6_crop_clamp_invariant_witness :
    CropInv (applyCropSeq (⟨0, 0, 0, 0⟩ : Crop ℚ)
      [(⟨100, 50⟩, "left", 250, 0), (⟨100, 50⟩, "right", -30, 10)]) ∧
    (applyCropGesture (⟨0, 0, 0, 0⟩ : Crop ℚ) ⟨100, 50⟩ "left" 250 0).right = 0 :=
  ⟨(c6_crop_clamp_invariant (⟨0, 0, 0, 0⟩ : Crop ℚ) (by norm_num [CropInv])
      [(⟨100, 50⟩, "left", 250, 0), (⟨100, 50⟩, "right", -30, 10)]).1.1,
   ((c6_crop_clamp_invariant (⟨0, 0, 0, 0⟩ : Crop ℚ) (by norm_num [CropInv]) []).2
      ⟨100, 50⟩ 250 0).1.1⟩

/- ===== C7: group move preserves offsets ===== -/

theorem foldl_posPatch (tgt : String → Pos K) (ids : List String) :
    ∀ (s : Scene K) (cid : String) (b : Block K), getBlockById s cid = some b →
      ∃ b2, getBlockById
          (ids.foldl (fun acc c2 => updateBlock acc c2 { position := some (tgt c2) }) s)
          cid = some b2 ∧
        (cid ∈ ids → b2.position = tgt cid) ∧ (cid ∉ ids → b2 = b) := by
  induction ids with
  | nil =>
      intro s cid b hb
      exact ⟨b, hb, by simp, fun _ => rfl⟩
  | cons c rest ih =>
      intro s cid b hb
      by_cases hc : cid = c
      · subst hc
        have hb2 : getBlockById (updateBlock s cid { position := some (tgt cid) }) cid
            = some (applyBlockPatch b { position := some (tgt cid) }) := by
          rw [getBlockById_updateBlock_self, hb]
          rfl
        obtain ⟨b2, hfind, hmem, hnmem⟩ := ih _ cid _ hb2
        refine ⟨b2, by simpa using hfind, fun _ => ?_, fun hn =>
          absurd (List.mem_cons_self cid rest) hn⟩
        by_cases hmem2 : cid ∈ rest
        · exact hmem hmem2
        · rw [hnmem hmem2]
          rfl
      · have hb2 : getBlockById (updateBlock s c { position := some (tgt c) }) cid
            = some b := by
          rw [getBlockById_updateBlock_ne s hc]
          exact hb
        obtain ⟨b2, hfind, hmem, hnmem⟩ := ih _ cid _ hb2
        refine ⟨b2, by simpa using hfind, fun hmem3 => ?_, fun hn => ?_⟩
        · exact hmem (by
            cases List.mem_cons.mp hmem3 with
            | inl h => exact absurd h hc
            | inr h => exact h)
        · exact hnmem (fun hr => hn (List.mem_cons_of_mem c hr))

theorem updateGroup_positionPatch_blocks (s : Scene K) (gid : String)
    (pos : Pos K) (bid : String) :
    getBlockById (updateGroup s gid { position := some pos }) bid =
      getBlockById s bid := by
  unfold updateGroup
  cases hf : s.groups.find? (fun g => g.id == gid) with
  | none => rfl
  | some g => rfl

theorem getGroupById_updateGroup_positionPatch (s : Scene K) (gid : String)
    (pos : Pos K) :
    getGroupById (updateGroup s gid { position := some pos }) gid =
      (getGroupById s gid).map (fun g => { g with position := pos }) := by
  unfold updateGroup
  cases hf : s.groups.find? (fun g => g.id == gid) with
  | none =>
      show getGroupById s gid = _
      unfold getGroupById
      rw [hf]
      rfl
  | some g =>
      show getGroupById (applyGroupFields s gid _) gid = _
      unfold applyGroupFields getGroupById
      simp only
      refine Eq.trans (find?_updateGroupInList_self ?_ gid s.groups) ?_
      · intro g2
        rfl
      · rw [hf]
        rfl

/-- Abbreviation for the clamped candidate group top-left computed by the
group move branch from the snapshot position plus the total delta. -/
noncomputable def gmClamp (ws : Rect ℝ) (inter : GroupInteraction ℝ)
    (ex ey : ℝ) : Pos ℝ :=
  moveClamp ws inter.canvasRect
    (effSize inter.blockSnapshot.size.width inter.blockSnapshot.size.height
      inter.blockSnapshot.rotation)
    (inter.groupSnapshotPosition.x + (ex - inter.startX))
    (inter.groupSnapshotPosition.y + (ey - inter.startY))

theorem groupMoveEventApply_eq (ws : Rect ℝ) (inter : GroupInteraction ℝ)
    (s : Scene ℝ) (ex ey : ℝ) :
    groupMoveEventApply ws inter s ex ey =
      updateGroup
        (inter.groupBlockIds.foldl
          (fun acc cid => updateBlock acc cid
            { position := some ⟨(gmClamp ws inter ex ey).x +
                (offsetLookup inter.blockOffsets cid).x,
              (gmClamp ws inter ex ey).y +
                (offsetLookup inter.blockOffsets cid).y⟩ }) s)
        inter.blockId { position := some (gmClamp ws inter ex ey) } := rfl

/-- C7: after every group-move pointer update, each child's committed
position equals the group's committed position plus that child's stored
offset, exactly — including when the candidate group position was clamped
against the workspace — and the stored offset map itself is unchanged, so
the relation persists across any sequence of moves. -/
theorem c7_group_move_preserves_offsets (ws : Rect ℝ) (inter : GroupInteraction ℝ)
    (s : Scene ℝ) (ex ey : ℝ) (g0 : Group ℝ)
    (hg : getGroupById s inter.blockId = some g0)
    (hoff : inter.blockOffsets = g0.blockOffsets)
    (cid : String) (hmem : cid ∈ inter.groupBlockIds)
    (b : Block ℝ) (hb : getBlockById s cid = some b) :
    ∃ b2 g2,
      getBlockById (groupMoveEventApply ws inter s ex ey) cid = some b2 ∧
      getGroupById (groupMoveEventApply ws inter s ex ey) inter.blockId = some g2 ∧
      g2.blockOffsets = g0.blockOffsets ∧
      b2.position.x = g2.position.x + (offsetLookup g0.blockOffsets cid).x ∧
      b2.position.y = g2.position.y + (offsetLookup g0.blockOffsets cid).y := by
  rw [groupMoveEventApply_eq]
  obtain ⟨b2, hfind, hmemP, _⟩ := foldl_posPatch
    (fun c2 => (⟨(gmClamp ws inter ex ey).x + (offsetLookup inter.blockOffsets c2).x,
      (gmClamp ws inter ex ey).y + (offsetLookup inter.blockOffsets c2).y⟩ : Pos ℝ))
    inter.groupBlockIds s cid b hb
  have hgroups : (inter.groupBlockIds.foldl
      (fun acc c2 => updateBlock acc c2
        { position := some (⟨(gmClamp ws inter ex ey).x +
            (offsetLookup inter.blockOffsets c2).x,
          (gmClamp ws inter ex ey).y +
            (offsetLookup inter.blockOffsets c2).y⟩ : Pos ℝ) }) s).groups
      = s.groups := by
    apply foldl_preserve_mem (fun t => t.groups = s.groups)
    · intro t x _ ht
      rw [updateBlock_groups, ht]
    · rfl
  refine ⟨b2, { g0 with position := gmClamp ws inter ex ey }, ?_, ?_, rfl, ?_, ?_⟩
  · rw [updateGroup_positionPatch_blocks]
    exact hfind
  · rw [getGroupById_updateGroup_positionPatch, getGroupById_congr_groups hgroups, hg]
    rfl
  · rw [hmemP hmem, hoff]
  · rw [hmemP hmem, hoff]

/-- C7 witness data: a one-child group with stored offset `(5, 5)`. -/
def blockC7 : Block ℝ :=
  { id := "a", btype := "image", position := ⟨15, 15⟩, size := ⟨20, 20⟩
    rotation := 0, fontSize := none, crop := none
    groupId := some "g-1", locked := false }

/-- C7 witness group. -/
def groupC7 : Group ℝ :=
  { id := "g-1", childIds := ["a"], blockIds := ["a"], position := ⟨10, 10⟩
    size := ⟨100, 100⟩, rotation := 0, blockOffsets := [("a", ⟨5, 5⟩)] }

/-- C7 witness scene. -/
def sceneC7 : Scene ℝ :=
  { project := { pages := [⟨"p", [blockC7]⟩] }, activePageId := some "p"
    groups := [groupC7] }

/-- C7 witness interaction payload (as captured at gesture start). -/
def interC7 : GroupInteraction ℝ :=
  { blockId := "g-1", startX := 0, startY := 0, canvasRect := ⟨0, 0, 800, 600⟩
    blockSnapshot := groupC7, groupSnapshotPosition := ⟨10, 10⟩
    groupBlockIds := ["a"], childSnapshots := [snapOfBlock blockC7]
    blockOffsets := [("a", ⟨5, 5⟩)] }

/-- C7 witness: one move event at pointer `(7, 3)`. -/
theorem c7_group_move_preserves_offsets_witness :
    ∃ b2 g2,
      getBlockById (groupMoveEventApply ⟨0, 0, 800, 600⟩ interC7 sceneC7 7 3) "a"
        = some b2 ∧
      getGroupById (groupMoveEventApply ⟨0, 0, 800, 600⟩ interC7 sceneC7 7 3) "g-1"
        = some g2 ∧
      g2.blockOffsets = groupC7.blockOffsets ∧
      b2.position.x = g2.position.x + (offsetLookup groupC7.blockOffsets "a").x ∧
      b2.position.y = g2.position.y + (offsetLookup groupC7.blockOffsets "a").y :=
  c7_group_move_preserves_offsets ⟨0, 0, 800, 600⟩ interC7 sceneC7 7 3 groupC7
    rfl rfl "a" (by decide) blockC7 rfl

/- ===== C8: axis resize postcondition ===== -/

/-- Horizontal part of the default resize branch: the pair
`(next x, next width)` as computed for the given handle. -/
def rsHoriz (snap : InteractionSnap K) (rect : Rect K) (handle : String)
    (dx : K) : K × K :=
  let startWidth := snap.size.width
  let w1 :=
    if hIncludes handle "right" then
      max 40 (min (startWidth + dx) (rect.width - snap.position.x))
    else startWidth
  if hIncludes handle "left" then
    let rightEdge := snap.position.x + startWidth
    let newLeft := max 0 (min (snap.position.x + dx) (rightEdge - 40))
    (newLeft, rightEdge - newLeft)
  else (snap.position.x, w1)

/-- Vertical part of the default resize branch. -/
def rsVert (snap : InteractionSnap K) (rect : Rect K) (handle : String)
    (dy : K) : K × K :=
  let startHeight := snap.size.height
  let h1 :=
    if hIncludes handle "bottom" then
      max 40 (min (startHeight + dy) (rect.height - snap.position.y))
    else startHeight
  if hIncludes handle "top" then
    let bottomEdge := snap.position.y + startHeight
    let newTop := max 0 (min (snap.position.y + dy) (bottomEdge - 40))
    (newTop, bottomEdge - newTop)
  else (snap.position.y, h1)

/-- New left edge of the dedicated text top-left scale branch. -/
def tsLeft (snap : InteractionSnap K) (dx : K) : K :=
  max 0 (min (snap.position.x + dx) (snap.position.x + snap.size.width - 20))

/-- Font scale factor of the text top-left branch (width ratio clamped to
`[1/2, 3]`). -/
def tsScale (snap : InteractionSnap K) (dx : K) : K :=
  max (1 / 2) (min ((snap.position.x + snap.size.width - tsLeft snap dx) /
    snap.size.width) 3)

theorem resizeSingle_default_eq (snap : InteractionSnap K) (rect : Rect K)
    (handle : String) (dx dy : K)
    (h : (snap.btype == "text" && handle == "top-left") = false) :
    resizeSingle snap rect handle dx dy =
      { position := some ⟨(rsHoriz snap rect handle dx).1, (rsVert snap rect handle dy).1⟩
        size := some { snap.size with
          width := (rsHoriz snap rect handle dx).2
          height := (rsVert snap rect handle dy).2 } } := by
  unfold resizeSingle rsHoriz rsVert
  rw [if_neg (by rw [h]; exact Bool.false_ne_true)]

theorem resizeSingle_textTopLeft_eq (snap : InteractionSnap K) (rect : Rect K)
    (dx dy : K) (h : snap.btype = "text") :
    resizeSingle snap rect "top-left" dx dy =
      { position := some { snap.position with x := tsLeft snap dx }
        size := some { snap.size with
          width := snap.position.x + snap.size.width - tsLeft snap dx }
        fontSize := some ((snap.fontSize.getD 16) * tsScale snap dx) } := by
  unfold resizeSingle tsScale tsLeft
  rw [if_pos (by rw [h]; rfl)]

theorem rsHoriz_left_edge_fixed (snap : InteractionSnap K) (rect : Rect K)
    {handle : String} (h : hIncludes handle "left" = false) (dx : K) :
    (rsHoriz snap rect handle dx).1 = snap.position.x := by
  unfold rsHoriz
  rw [if_neg (by rw [h]; exact Bool.false_ne_true)]

theorem rsHoriz_right_edge_fixed (snap : InteractionSnap K) (rect : Rect K)
    {handle : String} (h : hIncludes handle "left" = true) (dx : K) :
    (rsHoriz snap rect handle dx).1 + (rsHoriz snap rect handle dx).2 =
      snap.position.x + snap.size.width := by
  unfold rsHoriz
  rw [if_pos h]
  ring

theorem rsHoriz_min_width_right (snap : InteractionSnap K) (rect : Rect K)
    {handle : String} (hr : hIncludes handle "right" = true)
    (hl : hIncludes handle "left" = false) (dx : K) :
    40 ≤ (rsHoriz snap rect handle dx).2 := by
  unfold rsHoriz
  rw [if_neg (by rw [hl]; exact Bool.false_ne_true), if_pos hr]
  exact le_max_left _ _

theorem rsHoriz_min_width_left (snap : InteractionSnap K) (rect : Rect K)
    {handle : String} (hl : hIncludes handle "left" = true)
    (hedge : 40 ≤ snap.position.x + snap.size.width) (dx : K) :
    40 ≤ (rsHoriz snap rect handle dx).2 := by
  unfold rsHoriz
  rw [if_pos hl]
  have h1 : max 0 (min (snap.position.x + dx) (snap.position.x + snap.size.width - 40))
      ≤ snap.position.x + snap.size.width - 40 :=
    max_le (by linarith) (min_le_right _ _)
  dsimp only
  linarith

theorem rsVert_top_edge_fixed (snap : InteractionSnap K) (rect : Rect K)
    {handle : String} (h : hIncludes handle "top" = false) (dy : K) :
    (rsVert snap rect handle dy).1 = snap.position.y := by
  unfold rsVert
  rw [if_neg (by rw [h]; exact Bool.false_ne_true)]

theorem rsVert_bottom_edge_fixed (snap : InteractionSnap K) (rect : Rect K)
    {handle : String} (h : hIncludes handle "top" = true) (dy : K) :
    (rsVert snap rect handle dy).1 + (rsVert snap rect handle dy).2 =
      snap.position.y + snap.size.height := by
  unfold rsVert
  rw [if_pos h]
  ring

theorem rsVert_min_height_bottom (snap : InteractionSnap K) (rect : Rect K)
    {handle : String} (hb : hIncludes handle "bottom" = true)
    (ht : hIncludes handle "top" = false) (dy : K) :
    40 ≤ (rsVert snap rect handle dy).2 := by
  unfold rsVert
  rw [if_neg (by rw [ht]; exact Bool.false_ne_true), if_pos hb]
  exact le_max_left _ _

theorem rsVert_min_height_top (snap : InteractionSnap K) (rect : Rect K)
    {handle : String} (ht : hIncludes handle "top" = true)
    (hedge : 40 ≤ snap.position.y + snap.size.height) (dy : K) :
    40 ≤ (rsVert snap rect handle dy).2 := by
  unfold rsVert
  rw [if_pos ht]
  have h1 : max 0 (min (snap.position.y + dy) (snap.position.y + snap.size.height - 40))
      ≤ snap.position.y + snap.size.height - 40 :=
    max_le (by linarith) (min_le_right _ _)
  dsimp only
  linarith

/-- C8 scenario block A at `{x: 10, y: 10, w: 50, h: 50}`, rotation 0. -/
def blockC8 : Block ℚ :=
  { id := "A", btype := "image", position := ⟨10, 10⟩, size := ⟨50, 50⟩
    rotation := 0, fontSize := none, crop := none, groupId := none
    locked := false }

/-- C8 scenario scene. -/
def sceneC8 : Scene ℚ :=
  { project := { pages := [⟨"p", [blockC8]⟩] }, activePageId := some "p"
    groups := [] }

/-- C8 scenario canvas rect. -/
def rectC8 : Rect ℚ :=
  ⟨0, 0, 800, 600⟩

/-- C8 scenario interaction (resize by the bottom-right handle starting at
pointer `(100, 100)`). -/
def interC8 : SingleInteraction ℚ :=
  { itype := "resize", startX := 100, startY := 100, canvasRect := rectC8
    blockSnapshot := snapOfBlock blockC8, handle := some "bottom-right" }

/-- C8 counterexample text block (width 100, font size 16). -/
def textBlockC8 : Block ℚ :=
  { id := "t", btype := "text", position := ⟨0, 0⟩, size := ⟨100, 30⟩
    rotation := 0, fontSize := some 16, crop := none, groupId := none
    locked := false }

/-- C8 counterexample scene. -/
def sceneC8t : Scene ℚ :=
  { project := { pages := [⟨"p", [textBlockC8]⟩] }, activePageId := some "p"
    groups := [] }

/-- C8 counterexample interaction (text block, side handle "right"). -/
def interC8t : SingleInteraction ℚ :=
  { itype := "resize", startX := 100, startY := 100, canvasRect := rectC8
    blockSnapshot := snapOfBlock textBlockC8, handle := some "right" }

theorem rsHoriz_C8 : rsHoriz (snapOfBlock blockC8) rectC8 "bottom-right" 20 = (10, 70) := by
  simp only [rsHoriz]
  rw [if_neg (show ¬(hIncludes "bottom-right" "left" = true) by decide),
    if_pos (show hIncludes "bottom-right" "right" = true by decide)]
  show ((10 : ℚ), max 40 (min (50 + 20) (800 - 10))) = (10, 70)
  norm_num [min_def, max_def]

theorem rsVert_C8 : rsVert (snapOfBlock blockC8) rectC8 "bottom-right" 0 = (10, 50) := by
  simp only [rsVert]
  rw [if_neg (show ¬(hIncludes "bottom-right" "top" = true) by decide),
    if_pos (show hIncludes "bottom-right" "bottom" = true by decide)]
  show ((10 : ℚ), max 40 (min (50 + 0) (600 - 10))) = (10, 50)
  norm_num [min_def, max_def]

theorem resizeEvent_C8 :
    resizeEventApply interC8 sceneC8 120 100 =
      updateBlock sceneC8 "A"
        { position := some ⟨10, 10⟩, size := some ⟨70, 50⟩ } := by
  show updateBlock sceneC8 "A"
      (resizeSingle (snapOfBlock blockC8) rectC8 "bottom-right" (120 - 100) (100 - 100)) = _
  rw [resizeSingle_default_eq (snapOfBlock blockC8) rectC8 "bottom-right"
    (120 - 100) (100 - 100) rfl]
  rw [show (120 : ℚ) - 100 = 20 by norm_num, show (100 : ℚ) - 100 = 0 by norm_num]
  rw [rsHoriz_C8, rsVert_C8]

theorem blockC8_after :
    getBlockById (resizeEventApply interC8 sceneC8 120 100) "A" =
      some { blockC8 with position := ⟨10, 10⟩, size := ⟨70, 50⟩ } := by
  rw [resizeEvent_C8, getBlockById_updateBlock_self]
  rfl

theorem rsHoriz_C8t : rsHoriz (snapOfBlock textBlockC8) rectC8 "right" 50 = (0, 150) := by
  simp only [rsHoriz]
  rw [if_neg (show ¬(hIncludes "right" "left" = true) by decide),
    if_pos (show hIncludes "right" "right" = true by decide)]
  show ((0 : ℚ), max 40 (min (100 + 50) (800 - 0))) = (0, 150)
  norm_num [min_def, max_def]

theorem rsVert_C8t : rsVert (snapOfBlock textBlockC8) rectC8 "right" 0 = (0, 30) := by
  simp only [rsVert]
  rw [if_neg (show ¬(hIncludes "right" "top" = true) by decide),
    if_neg (show ¬(hIncludes "right" "bottom" = true) by decide)]
  rfl

/-- C8 counterexample: dragging a text block's side handle "right" by 50px
changes its width from 100 to 150 but leaves `fontSize` at 16 — only the
dedicated text "top-left" branch rescales fonts, so the claim that a text
block's font size is rescaled by the same factor as its width (which would
give `16·1.5 = 24`) is false for side handles. -/
theorem c8_axis_resize_counterexample :
    (getBlockById (resizeEventApply interC8t sceneC8t 150 100) "t").map
        (fun b => (b.size.width, b.fontSize)) = some (150, some 16) ∧
    some (16 : ℚ) ≠ some (16 * ((150 : ℚ) / 100)) := by
  constructor
  · have e1 : resizeEventApply interC8t sceneC8t 150 100 =
        updateBlock sceneC8t "t"
          { position := some ⟨0, 0⟩, size := some ⟨150, 30⟩ } := by
      show updateBlock sceneC8t "t"
          (resizeSingle (snapOfBlock textBlockC8) rectC8 "right" (150 - 100) (100 - 100)) = _
      rw [resizeSingle_default_eq (snapOfBlock textBlockC8) rectC8 "right"
        (150 - 100) (100 - 100) rfl]
      rw [show (150 : ℚ) - 100 = 50 by norm_num, show (100 : ℚ) - 100 = 0 by norm_num]
      rw [rsHoriz_C8t, rsVert_C8t]
    rw [e1, getBlockById_updateBlock_self]
    rfl
  · intro h
    have h2 : (16 : ℚ) = 16 * (150 / 100) := by injection h
    norm_num at h2

theorem endInteractionSingle_resize (st : Store K) (inter : SingleInteraction K)
    (hty : inter.itype = "resize") (current : Block K)
    (hcur : getBlockById st.scene inter.blockSnapshot.id = some current)
    (hdiff : inter.blockSnapshot.size ≠ current.size ∨
      inter.blockSnapshot.position ≠ current.position ∨
      inter.blockSnapshot.fontSize ≠ current.fontSize) :
    endInteractionSingle st inter =
      st.applyCommand (ResizeCommand
        { blockId := inter.blockSnapshot.id
          oldSize := inter.blockSnapshot.size
          newSize := current.size
          oldPos := some inter.blockSnapshot.position
          newPos := some current.position
          oldFontSize := inter.blockSnapshot.fontSize
          newFontSize := current.fontSize }) := by
  simp only [endInteractionSingle]
  rw [hcur]
  simp only [hty]
  rw [if_neg (show ¬(("resize" == "move") = true) by decide),
    if_pos (show (("resize" == "resize") = true) by decide)]
  rw [if_pos hdiff]

theorem endInteractionSingle_move (st : Store K) (inter : SingleInteraction K)
    (hty : inter.itype = "move") (current : Block K)
    (hcur : getBlockById st.scene inter.blockSnapshot.id = some current) :
    endInteractionSingle st inter =
      if inter.blockSnapshot.position.x ≠ current.position.x ∨
          inter.blockSnapshot.position.y ≠ current.position.y then
        st.applyCommand
          (MoveCommand inter.blockSnapshot.id inter.blockSnapshot.position
            current.position)
      else st := by
  simp only [endInteractionSingle]
  rw [hcur]
  simp only [hty]
  rw [if_pos (show (("move" == "move") = true) by decide)]

theorem endInteraction_C8 :
    endInteractionSingle
        ⟨resizeEventApply interC8 sceneC8 120 100, [], []⟩ interC8 =
      Store.applyCommand ⟨resizeEventApply interC8 sceneC8 120 100, [], []⟩
        (ResizeCommand
          { blockId := "A"
            oldSize := ⟨50, 50⟩
            newSize := ⟨70, 50⟩
            oldPos := some ⟨10, 10⟩
            newPos := some ⟨10, 10⟩
            oldFontSize := none
            newFontSize := none }) := by
  rw [endInteractionSingle_resize ⟨resizeEventApply interC8 sceneC8 120 100, [], []⟩
    interC8 rfl ({ blockC8 with position := ⟨10, 10⟩, size := ⟨70, 50⟩ }) blockC8_after
    (Or.inl (by
      intro hsz
      have h2 := congrArg Size.width hsz
      simp only [interC8, snapOfBlock, blockC8] at h2
      norm_num at h2))]
  rfl

/-- C8 (amended): for the default axis-resize branch the edge opposite the
dragged handle stays fixed and the resized axis obeys the 40px minimum
(for a left/top handle provided the fixed opposite edge is at least 40px
from the origin, since the new left/top is also clamped at 0); font size is
rescaled — by the width factor clamped to `[1/2, 3]`, with a 20px width
minimum — only in the dedicated text top-left branch, while every other
handle leaves the font size unchanged; and the concrete scenario holds:
block A `{x: 10, y: 10, w: 50, h: 50}` resized by "bottom-right" with
delta `(20, 0)` ends at size `{70, 50}` with unchanged position, and undo
restores `{50, 50}`. -/
theorem c8_axis_resize_amended :
    (∀ (snap : InteractionSnap K) (rect : Rect K) (handle : String) (dx dy : K),
      (snap.btype == "text" && handle == "top-left") = false →
      resizeSingle snap rect handle dx dy =
        { position := some ⟨(rsHoriz snap rect handle dx).1, (rsVert snap rect handle dy).1⟩
          size := some { snap.size with
            width := (rsHoriz snap rect handle dx).2
            height := (rsVert snap rect handle dy).2 } } ∧
      (hIncludes handle "left" = false →
        (rsHoriz snap rect handle dx).1 = snap.position.x) ∧
      (hIncludes handle "left" = true →
        (rsHoriz snap rect handle dx).1 + (rsHoriz snap rect handle dx).2 =
          snap.position.x + snap.size.width) ∧
      (hIncludes handle "right" = true → hIncludes handle "left" = false →
        40 ≤ (rsHoriz snap rect handle dx).2) ∧
      (hIncludes handle "left" = true → 40 ≤ snap.position.x + snap.size.width →
        40 ≤ (rsHoriz snap rect handle dx).2) ∧
      (hIncludes handle "top" = false →
        (rsVert snap rect handle dy).1 = snap.position.y) ∧
      (hIncludes handle "top" = true →
        (rsVert snap rect handle dy).1 + (rsVert snap rect handle dy).2 =
          snap.position.y + snap.size.height) ∧
      (hIncludes handle "bottom" = true → hIncludes handle "top" = false →
        40 ≤ (rsVert snap rect handle dy).2) ∧
      (hIncludes handle "top" = true → 40 ≤ snap.position.y + snap.size.height →
        40 ≤ (rsVert snap rect handle dy).2)) ∧
    (∀ (snap : InteractionSnap K) (rect : Rect K) (dx dy : K),
      snap.btype = "text" →
      resizeSingle snap rect "top-left" dx dy =
        { position := some { snap.position with x := tsLeft snap dx }
          size := some { snap.size with
            width := snap.position.x + snap.size.width - tsLeft snap dx }
          fontSize := some ((snap.fontSize.getD 16) * tsScale snap dx) } ∧
      tsLeft snap dx + (snap.position.x + snap.size.width - tsLeft snap dx) =
        snap.position.x + snap.size.width ∧
      (1 / 2 : K) ≤ tsScale snap dx ∧ tsScale snap dx ≤ 3 ∧
      (20 ≤ snap.position.x + snap.size.width →
        20 ≤ snap.position.x + snap.size.width - tsLeft snap dx)) ∧
    (beginInteractionSingle sceneC8 "resize" "A" 100 100 rectC8
        (some "bottom-right") = some interC8 ∧
      (getBlockById (resizeEventApply interC8 sceneC8 120 100) "A").map
        (fun b => (b.position, b.size)) = some (⟨10, 10⟩, ⟨70, 50⟩) ∧
      (endInteractionSingle
        ⟨resizeEventApply interC8 sceneC8 120 100, [], []⟩ interC8).undoStack.length
        = 1 ∧
      (getBlockById (Store.undo (endInteractionSingle
          ⟨resizeEventApply interC8 sceneC8 120 100, [], []⟩ interC8)).scene "A").map
        (fun b => (b.position, b.size)) = some (⟨10, 10⟩, ⟨50, 50⟩)) := by
  refine ⟨?_, ?_, ?_, ?_, ?_, ?_⟩
  · intro snap rect handle dx dy h
    refine ⟨resizeSingle_default_eq snap rect handle dx dy h, ?_, ?_, ?_, ?_, ?_, ?_, ?_, ?_⟩
    · intro hl
      exact rsHoriz_left_edge_fixed snap rect hl dx
    · intro hl
      exact rsHoriz_right_edge_fixed snap rect hl dx
    · intro hr hl
      exact rsHoriz_min_width_right snap rect hr hl dx
    · intro hl hedge
      exact rsHoriz_min_width_left snap rect hl hedge dx
    · intro ht
      exact rsVert_top_edge_fixed snap rect ht dy
    · intro ht
      exact rsVert_bottom_edge_fixed snap rect ht dy
    · intro hb ht
      exact rsVert_min_height_bottom snap rect hb ht dy
    · intro ht hedge
      exact rsVert_min_height_top snap rect ht hedge dy
  · intro snap rect dx dy h
    refine ⟨resizeSingle_textTopLeft_eq snap rect dx dy h, by ring, ?_, ?_, ?_⟩
    · exact le_max_left _ _
    · exact max_le (by norm_num) (min_le_right _ _)
    · intro hedge
      have h1 : tsLeft snap dx ≤ snap.position.x + snap.size.width - 20 := by
        unfold tsLeft
        exact max_le (by linarith) (min_le_right _ _)
      linarith
  · rfl
  · rw [blockC8_after]
    rfl
  · rw [endInteraction_C8]
    rfl
  · rw [endInteraction_C8]
    show (getBlockById (updateBlock (updateBlock (resizeEventApply interC8 sceneC8 120 100)
        "A" { position := some ⟨10, 10⟩, size := some ⟨70, 50⟩, fontSize := none }) "A"
        { position := some ⟨10, 10⟩, size := some ⟨50, 50⟩, fontSize := none }) "A").map
        (fun b => (b.position, b.size)) = some (⟨10, 10⟩, ⟨50, 50⟩)
    rw [getBlockById_updateBlock_self, getBlockById_updateBlock_self, blockC8_after]
    rfl

/-- C8 witness: the amended facts instantiated at the scenario block. -/
theorem c8_axis_resize_amended_witness :
    ((40 : ℚ) ≤ (rsHoriz (snapOfBlock blockC8) rectC8 "bottom-right" 20).2) ∧
    (endInteractionSingle
      ⟨resizeEventApply interC8 sceneC8 120 100, [], []⟩ interC8).undoStack.length = 1 :=
  ⟨((@c8_axis_resize_amended ℚ _ _).1 (snapOfBlock blockC8) rectC8 "bottom-right"
      20 0 rfl).2.2.2.1 rfl rfl,
   (@c8_axis_resize_amended ℚ _ _).2.2.2.2.1⟩

/- ===== C5: rotate gesture result ===== -/

/-- First-match group update with no match is the identity. -/
theorem updateGroupInList_id_of_find?_none {f : Group K → Group K} {gid : String} :
    ∀ (gs : List (Group K)), gs.find? (fun g => g.id == gid) = none →
      updateGroupInList gid f gs = gs := by
  intro gs
  induction gs with
  | nil => intro _; rfl
  | cons hd tl ih =>
      intro hnone
      cases hp : (hd.id == gid) with
      | true => simp [List.find?_cons, hp] at hnone
      | false =>
          have htl : tl.find? (fun g => g.id == gid) = none := by
            simpa [List.find?_cons, hp] using hnone
          simp [updateGroupInList, hp, ih htl]

/-- An `updateGroup` patch without `childIds`/`blockIds` takes the plain
allowed-fields merge path. -/
theorem updateGroup_of_none_ids (s : Scene K) (gid : String) (patch : GroupPatch K)
    (hc : patch.childIds = none) (hb : patch.blockIds = none) :
    updateGroup s gid patch = applyGroupFields s gid patch := by
  cases hfind : s.groups.find? (fun g => g.id == gid) with
  | none =>
      have happ : applyGroupFields s gid patch = s := by
        unfold applyGroupFields
        rw [updateGroupInList_id_of_find?_none s.groups hfind]
      have hupd : updateGroup s gid patch = s := by
        unfold updateGroup
        rw [hfind]
      rw [hupd, happ]
  | some g =>
      unfold updateGroup
      rw [hfind, hc, hb]

/-- Lookup of the patched group after the allowed-fields merge. -/
theorem getGroupById_applyGroupFields_self (s : Scene K) (gid : String)
    (p : GroupPatch K) :
    getGroupById (applyGroupFields s gid p) gid =
      (getGroupById s gid).map (fun g =>
        { g with position := p.position.getD g.position
                 size := p.size.getD g.size
                 rotation := p.rotation.getD g.rotation
                 blockOffsets := p.blockOffsets.getD g.blockOffsets }) := by
  unfold applyGroupFields getGroupById
  simp only
  apply find?_updateGroupInList_self
  intro g
  rfl

/-- Blocks are untouched by the allowed-fields merge. -/
theorem getBlockById_applyGroupFields (s : Scene K) (gid : String)
    (p : GroupPatch K) (bid : String) :
    getBlockById (applyGroupFields s gid p) bid = getBlockById s bid := rfl

/-- A snapshot-keyed patch fold leaves untouched ids unchanged. -/
theorem foldl_snapPatch_ne (f : InteractionSnap K → BlockPatch K) :
    ∀ (snaps : List (InteractionSnap K)) (s : Scene K) (id2 : String),
      (∀ sn ∈ snaps, sn.id ≠ id2) →
      getBlockById (snaps.foldl (fun acc sn => updateBlock acc sn.id (f sn)) s) id2
        = getBlockById s id2 := by
  intro snaps
  induction snaps with
  | nil => intro s id2 _; rfl
  | cons sn0 rest ih =>
      intro s id2 h
      rw [List.foldl_cons]
      rw [ih (updateBlock s sn0.id (f sn0)) id2
        (fun sn hsn => h sn (List.mem_cons_of_mem sn0 hsn))]
      exact getBlockById_updateBlock_ne s
        (Ne.symm (h sn0 (List.mem_cons_self sn0 rest))) (f sn0)

/-- Under unique snapshot ids, a snapshot-keyed patch fold writes exactly
each snapshot's patch into the block carrying its id. -/
theorem foldl_snapPatch_char (f : InteractionSnap K → BlockPatch K) :
    ∀ (snaps : List (InteractionSnap K)) (s : Scene K),
      (snaps.map InteractionSnap.id).Nodup →
      ∀ snap ∈ snaps, ∀ b : Block K, getBlockById s snap.id = some b →
        getBlockById (snaps.foldl (fun acc sn => updateBlock acc sn.id (f sn)) s)
          snap.id = some (applyBlockPatch b (f snap)) := by
  intro snaps
  induction snaps with
  | nil => intro s _ snap hmem; exact absurd hmem (List.not_mem_nil snap)
  | cons sn0 rest ih =>
      intro s hnd snap hmem b hb
      rw [List.map_cons, List.nodup_cons] at hnd
      obtain ⟨hni, hndr⟩ := hnd
      rw [List.foldl_cons]
      rcases List.mem_cons.mp hmem with rfl | hmemr
      · have hb1 : getBlockById (updateBlock s snap.id (f snap)) snap.id =
            some (applyBlockPatch b (f snap)) := by
          rw [getBlockById_updateBlock_self, hb]
          rfl
        rw [foldl_snapPatch_ne f rest (updateBlock s snap.id (f snap)) snap.id
          (fun sn hsn he => hni (he ▸ List.mem_map_of_mem InteractionSnap.id hsn))]
        exact hb1
      · have hne : snap.id ≠ sn0.id := by
          intro he
          exact hni (he ▸ List.mem_map_of_mem InteractionSnap.id hmemr)
        have hb2 : getBlockById (updateBlock s sn0.id (f sn0)) snap.id = some b := by
          rw [getBlockById_updateBlock_ne s hne (f sn0)]
          exact hb
        exact ih (updateBlock s sn0.id (f sn0)) hndr snap hmemr b hb2

theorem jsRem_360_bounds (a : ℝ) :
    -360 < jsRem a 360 ∧ jsRem a 360 < 360 ∧ ∃ k : ℤ, a - jsRem a 360 = 360 * k := by
  refine ⟨?_, ?_, ⟨jsTrunc (a / 360), by unfold jsRem; ring⟩⟩ <;>
  · unfold jsRem jsTrunc
    have ha : a = 360 * (a / 360) := by field_simp
    by_cases h : 0 ≤ a / 360
    · rw [if_pos h]
      have h1 : (⌊a / 360⌋ : ℝ) ≤ a / 360 := Int.floor_le _
      have h2 : a / 360 < ⌊a / 360⌋ + 1 := Int.lt_floor_add_one _
      nlinarith
    · rw [if_neg h]
      have h1 : a / 360 ≤ (⌈a / 360⌉ : ℝ) := Int.le_ceil _
      have h2 : (⌈a / 360⌉ : ℝ) < a / 360 + 1 := Int.ceil_lt_add_one _
      nlinarith

/-- C5 (amended): the new rotation written by BOTH rotate branches — the
single-block write and the group-record write — is
`((currentAngle − startAngle)·180/π + initialRotation) % 360` with the JS
remainder, which lies strictly between `−360` and `360` and agrees with the
claimed value modulo 360 — but it is NOT normalized into `[0, 360)`: for a
negative accumulated angle the stored rotation is negative.  The group
branch additionally writes `snapshot.rotation + deltaDegrees` into every
child, with no `%` at all. -/
theorem c5_rotate_amended :
    (∀ init start cur : ℝ,
      (-360 < rotateDegrees init start cur ∧ rotateDegrees init start cur < 360) ∧
      ∃ k : ℤ, (cur - start) * 180 / Real.pi + init -
        rotateDegrees init start cur = 360 * k) ∧
    (∀ (ri : RotateInteraction) (bid : String) (s : Scene ℝ) (ex ey : ℝ)
      (b : Block ℝ), getBlockById s bid = some b →
      getBlockById (rotateEventApply ri bid s ex ey) bid =
        some { b with
          rotation := rotateDegrees ri.initialRotation ri.startAngle
            (atan2 (ey - ri.center.y) (ex - ri.center.x)) }) ∧
    (∀ (ri : RotateInteraction) (inter : GroupInteraction ℝ) (s : Scene ℝ)
      (ex ey : ℝ) (g : Group ℝ),
      getGroupById s inter.blockId = some g →
      (getGroupById (groupRotateEventApply ri inter s ex ey) inter.blockId).map
          Group.rotation =
        some (rotateDegrees ri.initialRotation ri.startAngle
          (atan2 (ey - ri.center.y) (ex - ri.center.x)))) ∧
    (∀ (ri : RotateInteraction) (inter : GroupInteraction ℝ) (s : Scene ℝ)
      (ex ey : ℝ),
      (inter.childSnapshots.map InteractionSnap.id).Nodup →
      ∀ snap ∈ inter.childSnapshots, ∀ b : Block ℝ,
        getBlockById s snap.id = some b →
        (getBlockById (groupRotateEventApply ri inter s ex ey) snap.id).map
            Block.rotation =
          some (snap.rotation +
            (atan2 (ey - ri.center.y) (ex - ri.center.x) - ri.startAngle) *
              180 / Real.pi)) := by
  refine ⟨?_, ?_, ?_, ?_⟩
  · intro init start cur
    obtain ⟨h1, h2, k, hk⟩ := jsRem_360_bounds ((cur - start) * 180 / Real.pi + init)
    exact ⟨⟨h1, h2⟩, k, hk⟩
  · intro ri bid s ex ey b hb
    unfold rotateEventApply
    rw [getBlockById_updateBlock_self, hb]
    rfl
  · intro ri inter s ex ey g hg
    simp only [groupRotateEventApply]
    have hgroups1 : (inter.childSnapshots.foldl
        (fun acc snap => updateBlock acc snap.id
          (childRotPatch (inter.blockSnapshot.position.x +
              inter.blockSnapshot.size.width / 2)
            (inter.blockSnapshot.position.y + inter.blockSnapshot.size.height / 2)
            (atan2 (ey - ri.center.y) (ex - ri.center.x) - ri.startAngle)
            ((atan2 (ey - ri.center.y) (ex - ri.center.x) - ri.startAngle) *
              180 / Real.pi) snap)) s).groups = s.groups := by
      apply foldl_preserve_mem (fun t => t.groups = s.groups)
      · intro t x _ ht
        rw [updateBlock_groups, ht]
      · rfl
    rw [updateGroup_of_none_ids _ _ _ rfl rfl]
    rw [getGroupById_applyGroupFields_self]
    rw [getGroupById_congr_groups hgroups1, hg]
    rfl
  · intro ri inter s ex ey hnd snap hmem b hb
    simp only [groupRotateEventApply]
    rw [updateGroup_of_none_ids _ _ _ rfl rfl, getBlockById_applyGroupFields]
    rw [foldl_snapPatch_char
      (childRotPatch (inter.blockSnapshot.position.x +
          inter.blockSnapshot.size.width / 2)
        (inter.blockSnapshot.position.y + inter.blockSnapshot.size.height / 2)
        (atan2 (ey - ri.center.y) (ex - ri.center.x) - ri.startAngle)
        ((atan2 (ey - ri.center.y) (ex - ri.center.x) - ri.startAngle) *
          180 / Real.pi))
      inter.childSnapshots s hnd snap hmem b hb]
    rfl

/-- C5 counterexample rotate target block (center at the canvas origin). -/
def blockC5 : Block ℝ :=
  { id := "r", btype := "image", position := ⟨-100, -50⟩, size := ⟨200, 100⟩
    rotation := 0, fontSize := none, crop := none, groupId := none
    locked := false }

/-- C5 counterexample scene. -/
def sceneC5 : Scene ℝ :=
  { project := { pages := [⟨"p", [blockC5]⟩] }, activePageId := some "p"
    groups := [] }

/-- C5 counterexample rotate-interaction payload: pointer-down at
`(100, 0)`, pivot `(0, 0)`, snapshot rotation 0. -/
noncomputable def riC5 : RotateInteraction :=
  { center := ⟨0, 0⟩, startAngle := atan2 0 100, initialRotation := 0 }

theorem beginRotate_C5 :
    beginRotateSingle blockC5 ⟨0, 0, 800, 600⟩ 100 0 = riC5 := by
  unfold beginRotateSingle blockC5 riC5
  simp only [RotateInteraction.mk.injEq]
  refine ⟨by simp only [Pos.mk.injEq]; constructor <;> norm_num, ?_, trivial⟩
  congr 1 <;> norm_num

/-- C5 counterexample: a rotate gesture from pointer angle 0 to pointer
angle −π/2 (pointer moved from `(100, 0)` to `(0, −100)` around the pivot)
stores rotation `−90`, which is negative — the claim's normalization into
`[0, 360)` (which would store 270) does not happen. -/
theorem c5_rotate_counterexample :
    beginRotateSingle blockC5 ⟨0, 0, 800, 600⟩ 100 0 = riC5 ∧
    (getBlockById (rotateEventApply riC5 "r" sceneC5 0 (-100)) "r").map
      Block.rotation = some (-90) ∧
    ((-90 : ℝ) < 0) := by
  have hstart : riC5.startAngle = 0 := by
    show atan2 0 100 = 0
    unfold atan2
    rw [show ((⟨100, 0⟩ : ℂ)) = ((100 : ℝ) : ℂ) from by apply Complex.ext <;> simp]
    exact Complex.arg_ofReal_of_nonneg (by norm_num)
  have hcur : atan2 (-100 - riC5.center.y) (0 - riC5.center.x) = -(Real.pi / 2) := by
    show atan2 (-100 - 0) (0 - 0) = _
    unfold atan2
    rw [show ((⟨0 - 0, -100 - 0⟩ : ℂ)) = ((100 : ℝ) : ℂ) * (-Complex.I) from by
      apply Complex.ext <;> simp]
    rw [Complex.arg_real_mul _ (by norm_num : (0 : ℝ) < 100), Complex.arg_neg_I]
  have hdeg : rotateDegrees riC5.initialRotation riC5.startAngle
      (atan2 (-100 - riC5.center.y) (0 - riC5.center.x)) = -90 := by
    rw [hcur, hstart]
    show rotateDegrees 0 0 (-(Real.pi / 2)) = -90
    unfold rotateDegrees jsRem jsTrunc
    rw [show (-(Real.pi / 2) - 0) * 180 / Real.pi + 0 = -90 from by field_simp; ring]
    rw [show ((-90 : ℝ) / 360) = -(1 / 4) from by norm_num]
    rw [if_neg (by norm_num)]
    rw [show ⌈(-(1 / 4) : ℝ)⌉ = 0 from by
      rw [Int.ceil_eq_zero_iff]; constructor <;> norm_num]
    norm_num
  refine ⟨beginRotate_C5, ?_, by norm_num⟩
  unfold rotateEventApply
  rw [getBlockById_updateBlock_self,
    show getBlockById sceneC5 "r" = some blockC5 from rfl]
  show some (applyBlockPatch blockC5 _).rotation = _
  rw [show (applyBlockPatch blockC5 { rotation := some (rotateDegrees
      riC5.initialRotation riC5.startAngle
      (atan2 (-100 - riC5.center.y) (0 - riC5.center.x))) }).rotation =
    rotateDegrees riC5.initialRotation riC5.startAngle
      (atan2 (-100 - riC5.center.y) (0 - riC5.center.x)) from rfl]
  rw [hdeg]

/-- C5 witness group: the rotate target block as a one-child group. -/
def groupC5r : Group ℝ :=
  { id := "gr", childIds := ["r"], blockIds := ["r"], position := ⟨-100, -50⟩
    size := ⟨200, 100⟩, rotation := 0, blockOffsets := [] }

/-- C5 witness scene for the group rotate branch. -/
def sceneC5r : Scene ℝ :=
  { project := { pages := [⟨"p", [blockC5]⟩] }, activePageId := some "p"
    groups := [groupC5r] }

/-- C5 witness group-interaction payload for the group rotate branch. -/
def interC5r : GroupInteraction ℝ :=
  { blockId := "gr", startX := 100, startY := 0, canvasRect := ⟨0, 0, 800, 600⟩
    blockSnapshot := groupC5r, groupSnapshotPosition := ⟨-100, -50⟩
    groupBlockIds := ["r"], childSnapshots := [snapOfBlock blockC5]
    blockOffsets := [] }

/-- C5 witness: the amended bounds, the single-block write-through, and
the group-branch writes (group record and child) at concrete inputs. -/
theorem c5_rotate_amended_witness :
    ((-360 < rotateDegrees 0 0 (-(Real.pi / 2)) ∧
      rotateDegrees 0 0 (-(Real.pi / 2)) < 360) ∧
     ∃ k : ℤ, (-(Real.pi / 2) - 0) * 180 / Real.pi + 0 -
       rotateDegrees 0 0 (-(Real.pi / 2)) = 360 * k) ∧
    getBlockById (rotateEventApply riC5 "r" sceneC5 0 (-100)) "r" =
      some { blockC5 with
        rotation := rotateDegrees riC5.initialRotation riC5.startAngle
          (atan2 (-100 - riC5.center.y) (0 - riC5.center.x)) } ∧
    (getGroupById (groupRotateEventApply riC5 interC5r sceneC5r 0 (-100))
        "gr").map Group.rotation =
      some (rotateDegrees riC5.initialRotation riC5.startAngle
        (atan2 (-100 - riC5.center.y) (0 - riC5.center.x))) ∧
    (getBlockById (groupRotateEventApply riC5 interC5r sceneC5r 0 (-100))
        "r").map Block.rotation =
      some ((snapOfBlock blockC5).rotation +
        (atan2 (-100 - riC5.center.y) (0 - riC5.center.x) - riC5.startAngle) *
          180 / Real.pi) :=
  ⟨(c5_rotate_amended.1 0 0 (-(Real.pi / 2))),
   (c5_rotate_amended.2.1 riC5 "r" sceneC5 0 (-100) blockC5 rfl),
   (c5_rotate_amended.2.2.1 riC5 interC5r sceneC5r 0 (-100) groupC5r rfl),
   (c5_rotate_amended.2.2.2 riC5 interC5r sceneC5r 0 (-100) (by decide)
     (snapOfBlock blockC5) (List.mem_cons_self _ _) blockC5 rfl)⟩

/- ===== C4: no-op drag and the undo stack ===== -/

/-- Lookup success pins the found block's id: `getBlockById` filters on
`b.id == id`. -/
theorem getBlockById_eq_id {s : Scene K} {bid : String} {b : Block K}
    (h : getBlockById s bid = some b) : b.id = bid := by
  unfold getBlockById at h
  obtain ⟨p, _, hfind⟩ := List.exists_of_findSome?_eq_some h
  have h2 := List.find?_some hfind
  simpa using h2

/-- Componentwise characterization of inequality of positions. -/
theorem pos_ne_iff (p q : Pos K) : p ≠ q ↔ (p.x ≠ q.x ∨ p.y ≠ q.y) := by
  constructor
  · intro h
    by_contra hc
    push_neg at hc
    exact h (by cases p; cases q; simp_all)
  · intro h he
    subst he
    rcases h with h | h <;> exact h rfl

/-- A successful single-gesture entry: the payload recorded by
`beginInteraction` for an unlocked block. -/
theorem beginInteractionSingle_some {s : Scene K} {bid : String} {b : Block K}
    (hb : getBlockById s bid = some b) (hlock : b.locked = false)
    (itype : String) (sx sy : K) (rect : Rect K) (handle : Option String) :
    beginInteractionSingle s itype bid sx sy rect handle =
      some { itype := itype, startX := sx, startY := sy, canvasRect := rect
             blockSnapshot := snapOfBlock b, handle := handle } := by
  unfold beginInteractionSingle
  rw [hb]
  simp [hlock]

/-- The interaction payload captured by `beginInteraction` for a move
gesture on an unlocked block. -/
def mkMoveInter (rect : Rect K) (b : Block K) (sx sy : K) : SingleInteraction K :=
  { itype := "move", startX := sx, startY := sy, canvasRect := rect
    blockSnapshot := snapOfBlock b, handle := none }

/-- The clamped target position a move pointer-event at `(ex, ey)` commits
for a single-block gesture. -/
noncomputable def smTarget (ws : Rect ℝ) (inter : SingleInteraction ℝ)
    (ex ey : ℝ) : Pos ℝ :=
  moveClamp ws inter.canvasRect
    (effSize inter.blockSnapshot.size.width inter.blockSnapshot.size.height
      inter.blockSnapshot.rotation)
    (inter.blockSnapshot.position.x + (ex - inter.startX))
    (inter.blockSnapshot.position.y + (ey - inter.startY))

/-- A move pointer-event writes exactly the clamped target through
`updateBlock`. -/
theorem moveEventApply_eq (ws : Rect ℝ) (inter : SingleInteraction ℝ)
    (s : Scene ℝ) (ex ey : ℝ) :
    moveEventApply ws inter s ex ey =
      updateBlock s inter.blockSnapshot.id
        { position := some (smTarget ws inter ex ey) } := rfl

/-- End-of-gesture characterization for a single-block move: the handler
pushes one `MoveCommand` precisely when the committed clamped target
differs from the entry snapshot position, and leaves the store untouched
otherwise. -/
theorem endMove_char (ws : Rect ℝ) (s : Scene ℝ) {bid : String} {b : Block ℝ}
    (hb : getBlockById s bid = some b) (rect : Rect ℝ) (sx sy ex ey : ℝ)
    (U R : List (Command ℝ)) :
    endInteractionSingle
        ⟨moveEventApply ws (mkMoveInter rect b sx sy) s ex ey, U, R⟩
        (mkMoveInter rect b sx sy) =
      if smTarget ws (mkMoveInter rect b sx sy) ex ey = b.position then
        ⟨moveEventApply ws (mkMoveInter rect b sx sy) s ex ey, U, R⟩
      else
        Store.applyCommand
          ⟨moveEventApply ws (mkMoveInter rect b sx sy) s ex ey, U, R⟩
          (MoveCommand b.id b.position
            (smTarget ws (mkMoveInter rect b sx sy) ex ey)) := by
  have hid : b.id = bid := getBlockById_eq_id hb
  have hb2 : getBlockById s b.id = some b := by rw [hid]; exact hb
  have hcur : getBlockById
      (moveEventApply ws (mkMoveInter rect b sx sy) s ex ey)
      (mkMoveInter rect b sx sy).blockSnapshot.id =
      some { b with position := smTarget ws (mkMoveInter rect b sx sy) ex ey } := by
    rw [moveEventApply_eq]
    show getBlockById
      (updateBlock s b.id
        { position := some (smTarget ws (mkMoveInter rect b sx sy) ex ey) })
      b.id = _
    rw [getBlockById_updateBlock_self, hb2]
    rfl
  rw [endInteractionSingle_move _ _ rfl _ hcur]
  by_cases h : smTarget ws (mkMoveInter rect b sx sy) ex ey = b.position
  · rw [if_pos h, if_neg]
    intro hA
    rcases hA with hx | hy
    · exact hx (show b.position.x =
        (smTarget ws (mkMoveInter rect b sx sy) ex ey).x by rw [h])
    · exact hy (show b.position.y =
        (smTarget ws (mkMoveInter rect b sx sy) ex ey).y by rw [h])
  · rw [if_neg h, if_pos]
    · rfl
    · have h2 : b.position ≠ smTarget ws (mkMoveInter rect b sx sy) ex ey :=
        fun he => h he.symm
      rcases (pos_ne_iff _ _).mp h2 with hx | hy
      · exact Or.inl hx
      · exact Or.inr hy

/-- Footprint of an unrotated box. -/
theorem effSize_zero (w h : ℝ) : effSize w h 0 = (|w|, |h|) := by
  simp [effSize]

/-- C4 counterexample workspace/canvas rectangle. -/
def wsC4 : Rect ℝ := ⟨0, 0, 1000, 800⟩

/-- C4 counterexample block: unrotated, parked far outside the workspace. -/
def blockC4 : Block ℝ :=
  { id := "a", btype := "image", position := ⟨2000, 100⟩, size := ⟨100, 50⟩
    rotation := 0, fontSize := none, crop := none
    groupId := none, locked := false }

/-- C4 counterexample scene. -/
def sceneC4 : Scene ℝ :=
  { project := { pages := [⟨"p", [blockC4]⟩] }, activePageId := some "p"
    groups := [] }

/-- C4 counterexample interaction payload (pointer down at the origin). -/
def interC4 : SingleInteraction ℝ := mkMoveInter wsC4 blockC4 0 0

/-- C4 (counterexample): a pointer-down / move-to-the-same-point /
pointer-up move gesture on an out-of-bounds block does NOT leave the undo
stack length unchanged: the zero-delta pointer-move still clamps the block
back into the workspace (x: 2000 ↦ 900), so `endInteraction` sees a
changed position and pushes a `MoveCommand`, growing the undo stack from
0 to 1 entries. -/
theorem c4_noop_drag_counterexample :
    beginInteractionSingle sceneC4 "move" "a" 0 0 wsC4 none = some interC4 ∧
    (endInteractionSingle
        ⟨moveEventApply wsC4 interC4 sceneC4 0 0, [], []⟩ interC4).undoStack.length
      = 1 := by
  have hb : getBlockById sceneC4 "a" = some blockC4 := rfl
  have htar : smTarget wsC4 (mkMoveInter wsC4 blockC4 0 0) 0 0 = ⟨900, 100⟩ := by
    show moveClamp wsC4 wsC4 (effSize 100 50 0) (2000 + (0 - 0)) (100 + (0 - 0)) =
      (⟨900, 100⟩ : Pos ℝ)
    rw [effSize_zero]
    norm_num [moveClamp, wsC4, min_def, max_def, Pos.mk.injEq]
  constructor
  · exact beginInteractionSingle_some hb rfl "move" 0 0 wsC4 none
  · show (endInteractionSingle
      ⟨moveEventApply wsC4 (mkMoveInter wsC4 blockC4 0 0) sceneC4 0 0, [], []⟩
      (mkMoveInter wsC4 blockC4 0 0)).undoStack.length = 1
    rw [endMove_char wsC4 sceneC4 hb wsC4 0 0 0 0 [] []]
    rw [htar]
    rw [if_neg (show ¬((⟨900, 100⟩ : Pos ℝ) = blockC4.position) by
      norm_num [blockC4, Pos.mk.injEq])]
    rfl

/-- A fold whose every step fixes the accumulator fixes it overall. -/
theorem foldl_fixed {α β : Type} (f : α → β → α) (a : α) :
    ∀ (l : List β), (∀ x ∈ l, f a x = a) → l.foldl f a = a
  | [], _ => rfl
  | x :: xs, h => by
      rw [List.foldl_cons, h x (List.mem_cons_self x xs)]
      exact foldl_fixed f a xs (fun y hy => h y (List.mem_cons_of_mem x hy))

/-- The child-snapshot fold of the group arm of `beginInteraction` is a
`filterMap` over the id list. -/
theorem foldSnaps_eq (s : Scene K) (ids : List String) :
    ∀ (init : List (InteractionSnap K)),
      ids.foldl (snapStep s) init
      = init ++ ids.filterMap (fun bid => (getBlockById s bid).map snapOfBlock) := by
  induction ids with
  | nil => intro init; simp
  | cons bid ids ih =>
      intro init
      rw [List.foldl_cons]
      cases hb : getBlockById s bid with
      | none =>
          rw [show snapStep s init bid = init by simp [snapStep, hb]]
          rw [ih init]; simp [List.filterMap_cons, hb]
      | some b =>
          rw [show snapStep s init bid = init ++ [snapOfBlock b] by
            simp [snapStep, hb]]
          rw [ih (init ++ [snapOfBlock b])]
          simp [List.filterMap_cons, hb]

/-- The child-after fold of the group arm of `endInteraction` is a
`filterMap` over the id list. -/
theorem foldGeom_eq (s : Scene K) (ids : List String) :
    ∀ (init : List (String × ChildGeom K)),
      ids.foldl (geomStep s) init
      = init ++ ids.filterMap (fun cid => (getBlockById s cid).map
          (fun b => (cid, ChildGeom.mk b.position b.rotation b.size b.fontSize))) := by
  induction ids with
  | nil => intro init; simp
  | cons cid ids ih =>
      intro init
      rw [List.foldl_cons]
      cases hb : getBlockById s cid with
      | none =>
          rw [show geomStep s init cid = init by simp [geomStep, hb]]
          rw [ih init]; simp [List.filterMap_cons, hb]
      | some b =>
          rw [show geomStep s init cid =
              init ++ [(cid, ChildGeom.mk b.position b.rotation b.size b.fontSize)] by
            simp [geomStep, hb]]
          rw [ih (init ++ [(cid, ChildGeom.mk b.position b.rotation b.size b.fontSize)])]
          simp [List.filterMap_cons, hb]

/-- On an unchanged scene the before map built from the entry snapshots
coincides with the after map rebuilt from the live blocks. -/
theorem childBefore_eq_after (s : Scene K) (ids : List String) :
    (ids.filterMap (fun bid => (getBlockById s bid).map snapOfBlock)).map
      (fun cs => (cs.id, ChildGeom.mk cs.position cs.rotation cs.size cs.fontSize))
    = ids.filterMap (fun cid => (getBlockById s cid).map
        (fun b => (cid, ChildGeom.mk b.position b.rotation b.size b.fontSize))) := by
  rw [List.map_filterMap]
  apply List.filterMap_congr
  intro cid _
  cases hb : getBlockById s cid with
  | none => rfl
  | some b => simp [snapOfBlock, getBlockById_eq_id hb]

/-- Writing a block's current position back into it is a scene no-op. -/
theorem updateBlock_congr_pos {s : Scene K} {cid : String} {b : Block K}
    (hb : getBlockById s cid = some b) (p : Pos K) (hp : b.position = p) :
    updateBlock s cid { position := some p } = s := by
  unfold updateBlock
  apply modifyBlock_congr_id
  intro b2 hb2
  rw [hb] at hb2
  obtain rfl := Option.some.inj hb2
  subst hp
  rfl

/-- Updating the first matching group with a function that fixes it is a
no-op on the group list. -/
theorem updateGroupInList_congr_find {f : Group K → Group K} {gid : String}
    {gs : List (Group K)}
    (h : ∀ g, gs.find? (fun g2 => g2.id == gid) = some g → f g = g) :
    updateGroupInList gid f gs = gs := by
  induction gs with
  | nil => rfl
  | cons g rest ih =>
      cases hg : (g.id == gid) with
      | true =>
          have hfind : (g :: rest).find? (fun g2 => g2.id == gid) = some g := by
            simp [List.find?_cons, hg]
          simp [updateGroupInList, hg, h g hfind]
      | false =>
          have ih2 : updateGroupInList gid f rest = rest := by
            apply ih
            intro g2 hg2
            apply h
            simp [List.find?_cons, hg, hg2]
          simp [updateGroupInList, hg, ih2]

/-- Replaying a group's current position through `updateGroup` is a scene
no-op. -/
theorem updateGroup_position_self {s : Scene K} {gid : String} {g : Group K}
    (hg : getGroupById s gid = some g) :
    updateGroup s gid { position := some g.position } = s := by
  unfold getGroupById at hg
  unfold updateGroup
  rw [hg]
  show applyGroupFields s gid { position := some g.position } = s
  unfold applyGroupFields
  rw [updateGroupInList_congr_find]
  intro g2 hg2
  rw [hg] at hg2
  obtain rfl := Option.some.inj hg2
  rfl

/-- C4 (amended): on pointer-up the end handler diffs the current
committed geometry against the entry snapshot and pushes exactly one
command iff something changed — but "changed" compares the CLAMPED
committed position against the snapshot, so a zero-delta drag is a no-op
only when the clamp fixes the snapshot position (an out-of-bounds block
is snapped back and a command IS pushed).  Part 1: for a single-block
move gesture, the undo-stack length is unchanged iff the clamped target
equals the snapshot position, and otherwise exactly one `MoveCommand`
carrying before/after is pushed.  Part 2: a group gesture never pushes
more than one command, and when it pushes, the single
`GroupTransformCommand` covers the group record and every child snapshot
as one atomic unit.  Part 3: a zero-delta group drag on a group whose
stored offsets are consistent and whose clamp is a fixpoint leaves the
scene and both stacks untouched. -/
theorem c4_noop_drag_amended :
    (∀ (ws rect : Rect ℝ) (s : Scene ℝ) (bid : String) (b : Block ℝ)
        (sx sy ex ey : ℝ) (U R : List (Command ℝ)),
      getBlockById s bid = some b → b.locked = false →
      beginInteractionSingle s "move" bid sx sy rect none =
          some (mkMoveInter rect b sx sy) ∧
      ((endInteractionSingle
            ⟨moveEventApply ws (mkMoveInter rect b sx sy) s ex ey, U, R⟩
            (mkMoveInter rect b sx sy)).undoStack.length = U.length ↔
        smTarget ws (mkMoveInter rect b sx sy) ex ey = b.position) ∧
      (smTarget ws (mkMoveInter rect b sx sy) ex ey ≠ b.position →
        endInteractionSingle
            ⟨moveEventApply ws (mkMoveInter rect b sx sy) s ex ey, U, R⟩
            (mkMoveInter rect b sx sy) =
          Store.applyCommand
            ⟨moveEventApply ws (mkMoveInter rect b sx sy) s ex ey, U, R⟩
            (MoveCommand bid b.position
              (smTarget ws (mkMoveInter rect b sx sy) ex ey)))) ∧
    (∀ (st : Store ℝ) (inter : GroupInteraction ℝ),
      endInteractionGroup st inter = st ∨
      ∃ after cafter s2,
        endInteractionGroup st inter =
          ⟨s2, st.undoStack ++ [GroupTransformCommand inter.blockId
            (some (groupToPatch inter.blockSnapshot)) after
            (inter.childSnapshots.map (fun cs =>
              (cs.id, childGeomPatch ⟨cs.position, cs.rotation, cs.size, cs.fontSize⟩)))
            cafter], []⟩) ∧
    (∀ (ws rect : Rect ℝ) (s : Scene ℝ) (gid : String) (g : Group ℝ)
        (sx sy : ℝ) (U R : List (Command ℝ)),
      getGroupById s gid = some g →
      g.blockOffsets.isEmpty = false →
      (∀ cid ∈ g.childIds, ∃ b, getBlockById s cid = some b ∧
        b.position = ⟨g.position.x + (offsetLookup g.blockOffsets cid).x,
                      g.position.y + (offsetLookup g.blockOffsets cid).y⟩) →
      moveClamp ws rect (effSize g.size.width g.size.height g.rotation)
          g.position.x g.position.y = g.position →
      ∀ interG, beginInteractionGroup s gid sx sy rect = some interG →
        groupMoveEventApply ws interG s sx sy = s ∧
        endInteractionGroup ⟨s, U, R⟩ interG = ⟨s, U, R⟩) := by
  refine ⟨?_, ?_, ?_⟩
  · intro ws rect s bid b sx sy ex ey U R hb hlock
    have hid : b.id = bid := getBlockById_eq_id hb
    refine ⟨beginInteractionSingle_some hb hlock "move" sx sy rect none, ?_, ?_⟩
    · rw [endMove_char ws s hb rect sx sy ex ey U R]
      by_cases h : smTarget ws (mkMoveInter rect b sx sy) ex ey = b.position
      · rw [if_pos h]
        exact iff_of_true rfl h
      · rw [if_neg h]
        have hlen : (Store.applyCommand
            (⟨moveEventApply ws (mkMoveInter rect b sx sy) s ex ey, U, R⟩ : Store ℝ)
            (MoveCommand b.id b.position
              (smTarget ws (mkMoveInter rect b sx sy) ex ey))).undoStack.length
            = U.length + 1 := by
          simp [Store.applyCommand, MoveCommand]
        rw [hlen]
        exact iff_of_false (by omega) h
    · intro hne
      rw [endMove_char ws s hb rect sx sy ex ey U R, if_neg hne, hid]
  · intro st inter
    simp only [endInteractionGroup]
    split
    · right
      rw [List.map_map]
      exact ⟨_, _, _, rfl⟩
    · left
      rfl
  · intro ws rect s gid g sx sy U R hg hoffne hcons hclamp interG hbegin
    simp only [beginInteractionGroup, hg, hoffne, Bool.false_eq_true, if_false,
      Option.some.injEq] at hbegin
    subst hbegin
    constructor
    · rw [groupMoveEventApply_eq]
      dsimp only [gmClamp]
      simp only [sub_self, add_zero]
      rw [hclamp]
      rw [foldl_fixed _ s g.childIds]
      · exact updateGroup_position_self hg
      · intro cid hmem
        obtain ⟨b, hbc, hpos⟩ := hcons cid hmem
        exact updateBlock_congr_pos hbc _ hpos
    · simp only [endInteractionGroup]
      simp only [hg, ite_self]
      rw [foldSnaps_eq s g.childIds [], List.nil_append,
        childBefore_eq_after s g.childIds,
        foldGeom_eq s g.childIds [], List.nil_append]
      rw [if_neg]
      intro hcond
      rcases hcond with hc | hc <;> exact hc rfl

/-- C4 witness block: unrotated, fully inside the workspace. -/
def blockC4w : Block ℝ :=
  { id := "w", btype := "image", position := ⟨100, 100⟩, size := ⟨100, 50⟩
    rotation := 0, fontSize := none, crop := none
    groupId := none, locked := false }

/-- C4 witness scene for the single-block part. -/
def sceneC4w : Scene ℝ :=
  { project := { pages := [⟨"p", [blockC4w]⟩] }, activePageId := some "p"
    groups := [] }

/-- C4 witness child block: parked at group position + stored offset. -/
def blockC4g : Block ℝ :=
  { id := "ga", btype := "image", position := ⟨15, 15⟩, size := ⟨20, 20⟩
    rotation := 0, fontSize := none, crop := none
    groupId := some "gg", locked := false }

/-- C4 witness group: one child, consistent stored offset `(5, 5)`. -/
def groupC4g : Group ℝ :=
  { id := "gg", childIds := ["ga"], blockIds := ["ga"], position := ⟨10, 10⟩
    size := ⟨100, 100⟩, rotation := 0, blockOffsets := [("ga", ⟨5, 5⟩)] }

/-- C4 witness scene for the group part. -/
def sceneC4g : Scene ℝ :=
  { project := { pages := [⟨"p", [blockC4g]⟩] }, activePageId := some "p"
    groups := [groupC4g] }

/-- C4 witness group-interaction payload as captured by `beginInteraction`
at pointer-down `(0, 0)`. -/
def interC4g : GroupInteraction ℝ :=
  { blockId := "gg", startX := 0, startY := 0, canvasRect := wsC4
    blockSnapshot := groupC4g, groupSnapshotPosition := ⟨10, 10⟩
    groupBlockIds := ["ga"], childSnapshots := [snapOfBlock blockC4g]
    blockOffsets := [("ga", ⟨5, 5⟩)] }

/-- C4 witness: an in-bounds zero-delta single-block drag pushes nothing,
and a consistent zero-delta group drag leaves scene and stacks untouched. -/
theorem c4_noop_drag_amended_witness :
    (beginInteractionSingle sceneC4w "move" "w" 0 0 wsC4 none =
        some (mkMoveInter wsC4 blockC4w 0 0) ∧
      (endInteractionSingle
        ⟨moveEventApply wsC4 (mkMoveInter wsC4 blockC4w 0 0) sceneC4w 0 0, [], []⟩
        (mkMoveInter wsC4 blockC4w 0 0)).undoStack.length = 0) ∧
    (groupMoveEventApply wsC4 interC4g sceneC4g 0 0 = sceneC4g ∧
      endInteractionGroup ⟨sceneC4g, [], []⟩ interC4g = ⟨sceneC4g, [], []⟩) := by
  obtain ⟨ha, _, hc⟩ := c4_noop_drag_amended
  constructor
  · obtain ⟨h1, h2, _⟩ := ha wsC4 wsC4 sceneC4w "w" blockC4w 0 0 0 0 [] [] rfl rfl
    refine ⟨h1, ?_⟩
    have ht : smTarget wsC4 (mkMoveInter wsC4 blockC4w 0 0) 0 0 =
        blockC4w.position := by
      show moveClamp wsC4 wsC4 (effSize 100 50 0) (100 + (0 - 0)) (100 + (0 - 0)) =
        blockC4w.position
      rw [effSize_zero]
      norm_num [moveClamp, wsC4, blockC4w, min_def, max_def, Pos.mk.injEq]
    exact h2.mpr ht
  · refine hc wsC4 wsC4 sceneC4g "gg" groupC4g 0 0 [] [] rfl rfl ?_ ?_ interC4g rfl
    · intro cid hmem
      have hc2 : cid = "ga" := by simpa [groupC4g] using hmem
      subst hc2
      exact ⟨blockC4g, rfl, by
        norm_num [blockC4g, groupC4g, offsetLookup, Pos.mk.injEq]⟩
    · show moveClamp wsC4 wsC4 (effSize 100 100 0) 10 10 = (⟨10, 10⟩ : Pos ℝ)
      rw [effSize_zero]
      norm_num [moveClamp, wsC4, min_def, max_def, Pos.mk.injEq]

/- ===== C1: undo/redo symmetry of the command factories ===== -/

/-- C1 block "a", already a child of group "g-1". -/
def blockC1a : Block ℚ :=
  { id := "a", btype := "image", position := ⟨0, 0⟩, size := ⟨10, 10⟩
    rotation := 0, fontSize := none, crop := none
    groupId := some "g-1", locked := false }

/-- C1 block "b", ungrouped. -/
def blockC1b : Block ℚ :=
  { id := "b", btype := "image", position := ⟨20, 0⟩, size := ⟨10, 10⟩
    rotation := 0, fontSize := none, crop := none
    groupId := none, locked := false }

/-- C1 group "g-1" with the single child "a". -/
def groupC1 : Group ℚ :=
  { id := "g-1", childIds := ["a"], blockIds := ["a"], position := ⟨0, 0⟩
    size := ⟨0, 0⟩, rotation := 0, blockOffsets := [] }

/-- C1 page. -/
def pageC1 : Page ℚ := ⟨"p", [blockC1a, blockC1b]⟩

/-- C1 scene. -/
def sceneC1 : Scene ℚ :=
  { project := { pages := [pageC1] }, activePageId := some "p"
    groups := [groupC1] }

/-- C1 (counterexample): `GroupCommand` do/undo is NOT symmetric when the
grouped ids overlap an existing group's children.  Grouping `["a", "b"]`
into the existing group "g-1" (which already holds "a") merges the child
lists to `["a", "b"]`; undo filters ALL grouped ids back out of
`childIds`, yielding `[]` instead of the original `["a"]` — the group
record is an affected entity that is not restored field-by-field. -/
theorem c1_undo_redo_symmetry_counterexample :
    ∃ s1 cl s2 g2,
      groupCommandDo sceneC1 "g-1" ["a", "b"] = some (s1, cl) ∧
      groupCommandUndo s1 "g-1" ["a", "b"] cl = some s2 ∧
      getGroupById sceneC1 "g-1" = some groupC1 ∧
      getGroupById s2 "g-1" = some g2 ∧
      g2.childIds ≠ groupC1.childIds := by
  refine ⟨_, _, _, _, rfl, rfl, rfl, rfl, ?_⟩
  decide

/-- Lookup success locates the block on some page. -/
theorem getBlockById_mem {s : Scene K} {bid : String} {b : Block K}
    (h : getBlockById s bid = some b) : ∃ p ∈ s.project.pages, b ∈ p.blocks := by
  unfold getBlockById at h
  obtain ⟨p, hp, hfind⟩ := List.exists_of_findSome?_eq_some h
  exact ⟨p, hp, List.mem_of_find?_eq_some hfind⟩

/-- Head step of the association-list lookup. -/
theorem alistFind_cons (k : String) (v : Option String)
    (rest : List (String × Option String)) (key : String) :
    alistFind ((k, v) :: rest) key =
      if (k == key) = true then v else alistFind rest key := by
  unfold alistFind
  cases h : (k == key) with
  | true => simp [List.find?_cons, h]
  | false => simp [List.find?_cons, h]

/-- The `oldGroups` capture of `GroupCommand.do` looks up to each targeted
block's previous `groupId`, provided block ids are unique. -/
theorem alistFind_filter_map (ids : List String) (l : List (Block K)) :
    (l.map Block.id).Nodup →
    ∀ b0 ∈ l, ids.contains b0.id = true →
    alistFind ((l.filter (fun b => ids.contains b.id)).map
      (fun b => (b.id, b.groupId))) b0.id = b0.groupId := by
  induction l with
  | nil => intro _ b0 hmem; exact absurd hmem (List.not_mem_nil b0)
  | cons hd tl ih =>
      intro hnd b0 hmem hc
      rw [List.map_cons, List.nodup_cons] at hnd
      obtain ⟨hhdni, hndtl⟩ := hnd
      rcases List.mem_cons.mp hmem with rfl | hmemtl
      · rw [List.filter_cons, if_pos hc, List.map_cons, alistFind_cons,
          if_pos (by simp)]
      · have hne : (hd.id == b0.id) = false := by
          simp only [beq_eq_false_iff_ne]
          intro he
          exact hhdni (he ▸ List.mem_map_of_mem Block.id hmemtl)
        by_cases hhd : ids.contains hd.id = true
        · rw [List.filter_cons, if_pos hhd, List.map_cons, alistFind_cons,
            if_neg (by simp [hne])]
          exact ih hndtl b0 hmemtl hc
        · rw [List.filter_cons, if_neg hhd]
          exact ih hndtl b0 hmemtl hc

/-- The active page of a single-page scene. -/
theorem activePage_single (pid : String) (bs : List (Block K))
    (G : List (Group K)) :
    (⟨⟨[⟨pid, bs⟩]⟩, some pid, G⟩ : Scene K).activePage = some ⟨pid, bs⟩ := by
  unfold Scene.activePage
  simp [List.find?_cons]

/-- Replacing the blocks of the single (active) page. -/
theorem setActivePageBlocks_single (pid : String) (bs bs2 : List (Block K))
    (G : List (Group K)) :
    setActivePageBlocks (⟨⟨[⟨pid, bs⟩]⟩, some pid, G⟩ : Scene K) bs2 =
      ⟨⟨[⟨pid, bs2⟩]⟩, some pid, G⟩ := by
  simp [setActivePageBlocks, setActivePageBlocks.go]

/-- Attaching a listed id to the group it was just restamped with is a
scene no-op. -/
theorem attachChild_listed_noop (pid : String) (bs : List (Block K))
    (G2 : List (Group K)) (gid : String) (ids : List String) (bid2 : String)
    (hmem : bid2 ∈ ids) :
    attachChild (⟨⟨[⟨pid, bs.map (fun b =>
        if ids.contains b.id = true then { b with groupId := some gid } else b)⟩]⟩,
        some pid, G2⟩ : Scene K) bid2 gid =
      ⟨⟨[⟨pid, bs.map (fun b =>
        if ids.contains b.id = true then { b with groupId := some gid } else b)⟩]⟩,
        some pid, G2⟩ := by
  unfold attachChild
  cases hb : getBlockById (⟨⟨[⟨pid, bs.map (fun b =>
      if ids.contains b.id = true then { b with groupId := some gid } else b)⟩]⟩,
      some pid, G2⟩ : Scene K) bid2 with
  | none => rfl
  | some b =>
      unfold setBlockGroupId
      apply modifyBlock_congr_id
      intro b2 hb2
      rw [hb] at hb2
      obtain rfl := Option.some.inj hb2
      have hid2 : b.id = bid2 := getBlockById_eq_id hb
      obtain ⟨p, hp, hbmem⟩ := getBlockById_mem hb
      rw [List.mem_singleton] at hp
      subst hp
      obtain ⟨b0, hb0mem, hb0eq⟩ := List.mem_map.mp hbmem
      have hbg : b.groupId = some gid := by
        by_cases hcb : ids.contains b0.id = true
        · rw [if_pos hcb] at hb0eq
          rw [← hb0eq]
        · rw [if_neg hcb] at hb0eq
          subst hb0eq
          refine absurd ?_ hcb
          rw [hid2]
          simp [hmem]
      show { b with groupId := some gid } = b
      rw [← hbg]

/-- Detaching an id from a group none of the page's blocks points at is a
scene no-op. -/
theorem detachIfOwned_fresh_noop (pid : String) (bs : List (Block K))
    (G2 : List (Group K)) (gid : String)
    (hfreshb : ∀ b ∈ bs, b.groupId ≠ some gid) (bid2 : String) :
    detachIfOwned (⟨⟨[⟨pid, bs⟩]⟩, some pid, G2⟩ : Scene K) bid2 gid =
      ⟨⟨[⟨pid, bs⟩]⟩, some pid, G2⟩ := by
  unfold detachIfOwned
  cases hb : getBlockById (⟨⟨[⟨pid, bs⟩]⟩, some pid, G2⟩ : Scene K) bid2 with
  | none => rfl
  | some b =>
      obtain ⟨p, hp, hbmem⟩ := getBlockById_mem hb
      rw [List.mem_singleton] at hp
      subst hp
      show (if b.groupId = some gid then
          setBlockGroupId (⟨⟨[⟨pid, bs⟩]⟩, some pid, G2⟩ : Scene K) bid2 none
        else (⟨⟨[⟨pid, bs⟩]⟩, some pid, G2⟩ : Scene K)) =
        (⟨⟨[⟨pid, bs⟩]⟩, some pid, G2⟩ : Scene K)
      rw [if_neg (hfreshb b hbmem)]

/-- Restamp-then-restore round trip on the targeted blocks: restoring each
targeted block's captured `groupId` undoes the restamp exactly (unique
block ids make the capture lookup hit the right entry). -/
theorem restampRestore (ids : List String) (gid : String)
    (l : List (Block K)) (hnd : (l.map Block.id).Nodup) :
    (l.map (fun b =>
        if ids.contains b.id = true then { b with groupId := some gid } else b)).map
      (fun b => if ids.contains b.id = true then
        { b with groupId := alistFind ((l.filter (fun b2 => ids.contains b2.id)).map
            (fun b2 => (b2.id, b2.groupId))) b.id }
      else b) = l := by
  rw [List.map_map]
  have hpt : ∀ b0 ∈ l,
      ((fun b => if ids.contains b.id = true then
        { b with groupId := alistFind ((l.filter (fun b2 => ids.contains b2.id)).map
            (fun b2 => (b2.id, b2.groupId))) b.id }
      else b) ∘ (fun b =>
        if ids.contains b.id = true then { b with groupId := some gid } else b)) b0
      = b0 := by
    intro b0 hb0
    have halist := alistFind_filter_map ids l hnd b0 hb0
    simp only [Function.comp_apply]
    by_cases hcb : ids.contains b0.id = true
    · rw [if_pos hcb]
      have hcb2 : ids.contains ({ b0 with groupId := some gid } : Block K).id = true := hcb
      rw [if_pos hcb2]
      show ({ b0 with groupId := alistFind ((l.filter (fun b2 =>
        ids.contains b2.id)).map (fun b2 => (b2.id, b2.groupId))) b0.id } : Block K) = b0
      rw [halist hcb]
    · rw [if_neg hcb, if_neg hcb]
  calc l.map _ = l.map id := List.map_congr_left hpt
    _ = l := List.map_id l

/-- C1 (amended): do/undo symmetry holds for `MoveCommand` whenever the
`oldPos` payload matches the block's current position (with
do-undo-do = do as a consequence), and for `GroupCommand` on its
group-creation path on a single-page store with unique block ids, provided
the group id is fresh (no existing group carries it and no block already
points at it); but it FAILS in general — grouping ids that overlap an
existing group's children is not undone field-by-field (see the
counterexample). -/
theorem c1_undo_redo_symmetry_amended :
    (∀ (s : Scene K) (bid : String) (b : Block K) (oldPos newPos : Pos K),
      getBlockById s bid = some b → b.position = oldPos →
      ((MoveCommand bid oldPos newPos).undoFn
          ((MoveCommand bid oldPos newPos).doFn s).1).1 = s ∧
      (MoveCommand bid oldPos newPos).doFn
          (((MoveCommand bid oldPos newPos).undoFn
            ((MoveCommand bid oldPos newPos).doFn s).1).1) =
        (MoveCommand bid oldPos newPos).doFn s) ∧
    (∀ (pid : String) (bs : List (Block K)) (G : List (Group K))
        (gid : String) (ids : List String),
      (bs.map Block.id).Nodup →
      (∀ g ∈ G, g.id ≠ gid) →
      (∀ b ∈ bs, b.groupId ≠ some gid) →
      ∃ s1 cl,
        groupCommandDo (⟨⟨[⟨pid, bs⟩]⟩, some pid, G⟩ : Scene K) gid ids =
          some (s1, cl) ∧
        groupCommandUndo s1 gid ids cl =
          some (⟨⟨[⟨pid, bs⟩]⟩, some pid, G⟩ : Scene K)) := by
  constructor
  · intro s bid b oldPos newPos hb hpos
    have h1 : ((MoveCommand bid oldPos newPos).undoFn
        ((MoveCommand bid oldPos newPos).doFn s).1).1 = s := by
      show updateBlock (updateBlock s bid { position := some newPos }) bid
        { position := some oldPos } = s
      unfold updateBlock
      rw [@modifyBlock_comp K _ _
        (fun b2 => applyBlockPatch b2 { position := some newPos })
        (fun b2 => applyBlockPatch b2 { position := some oldPos })
        (fun b2 => rfl) s bid]
      apply modifyBlock_congr_id
      intro b2 hb2
      rw [hb] at hb2
      obtain rfl := Option.some.inj hb2
      subst hpos
      rfl
    exact ⟨h1, by rw [h1]⟩
  · intro pid bs G gid ids hnd hfreshg hfreshb
    have hnone : getGroupById (⟨⟨[⟨pid, bs.map (fun b =>
        if ids.contains b.id = true then { b with groupId := some gid } else b)⟩]⟩,
        some pid, G⟩ : Scene K) gid = none :=
      List.find?_eq_none.mpr (fun g hg => by simp [hfreshg g hg])
    refine ⟨⟨⟨[⟨pid, bs.map (fun b =>
        if ids.contains b.id = true then { b with groupId := some gid } else b)⟩]⟩,
        some pid, G ++ [⟨gid, ids, ids, ⟨0, 0⟩, ⟨0, 0⟩, 0, []⟩]⟩,
      ⟨(bs.filter (fun b => ids.contains b.id)).map (fun b => (b.id, b.groupId)),
        true⟩, ?_, ?_⟩
    · simp only [groupCommandDo, activePage_single]
      rw [setActivePageBlocks_single]
      rw [hnone]
      show some (addGroup (⟨⟨[⟨pid, bs.map (fun b =>
          if ids.contains b.id = true then { b with groupId := some gid } else b)⟩]⟩,
          some pid, G⟩ : Scene K)
          { id := some gid, childIds := some ids, position := some ⟨0, 0⟩
            size := some ⟨0, 0⟩, rotation := some 0 } gid,
          ({ oldGroups := (bs.filter (fun b => ids.contains b.id)).map
              (fun b => (b.id, b.groupId)), createdGroup := true } : GroupClosure)) = _
      unfold addGroup
      simp only [Option.getD_some, Option.getD_none]
      rw [foldl_fixed (fun acc bid => attachChild acc bid gid)
        (⟨⟨[⟨pid, bs.map (fun b =>
          if ids.contains b.id = true then { b with groupId := some gid } else b)⟩]⟩,
          some pid,
          G ++ [(⟨gid, ids, ids, ⟨0, 0⟩, ⟨0, 0⟩, 0, []⟩ : Group K)]⟩ : Scene K) ids
        (fun bid2 hmem2 => attachChild_listed_noop pid bs
          (G ++ [(⟨gid, ids, ids, ⟨0, 0⟩, ⟨0, 0⟩, 0, []⟩ : Group K)])
          gid ids bid2 hmem2)]
    · have hfind : (G ++ [(⟨gid, ids, ids, ⟨0, 0⟩, ⟨0, 0⟩, 0, []⟩ : Group K)]).find?
          (fun g => g.id == gid) = some ⟨gid, ids, ids, ⟨0, 0⟩, ⟨0, 0⟩, 0, []⟩ := by
        rw [List.find?_append, List.find?_eq_none.mpr (fun g hg => by
          simp [hfreshg g hg])]
        simp [List.find?_cons]
      have hrg : removeGroup (⟨⟨[⟨pid, bs⟩]⟩, some pid,
          G ++ [⟨gid, ids, ids, ⟨0, 0⟩, ⟨0, 0⟩, 0, []⟩]⟩ : Scene K) gid =
          (⟨⟨[⟨pid, bs⟩]⟩, some pid, G⟩ : Scene K) := by
        simp only [removeGroup, hfind]
        rw [foldl_fixed (fun acc bid => detachIfOwned acc bid gid)
          (⟨⟨[⟨pid, bs⟩]⟩, some pid,
            G ++ [(⟨gid, ids, ids, ⟨0, 0⟩, ⟨0, 0⟩, 0, []⟩ : Group K)]⟩ : Scene K) ids
          (fun bid2 _ => detachIfOwned_fresh_noop pid bs
            (G ++ [(⟨gid, ids, ids, ⟨0, 0⟩, ⟨0, 0⟩, 0, []⟩ : Group K)])
            gid hfreshb bid2)]
        rw [show (⟨⟨[⟨pid, bs⟩]⟩, some pid,
          G ++ [(⟨gid, ids, ids, ⟨0, 0⟩, ⟨0, 0⟩, 0, []⟩ : Group K)]⟩ : Scene K).groups =
          G ++ [⟨gid, ids, ids, ⟨0, 0⟩, ⟨0, 0⟩, 0, []⟩] from rfl]
        rw [List.eraseP_append_right _ (by
          intro g hg
          simp [hfreshg g hg])]
        simp [List.eraseP_cons]
      simp only [groupCommandUndo, activePage_single]
      rw [setActivePageBlocks_single]
      rw [restampRestore ids gid bs hnd]
      simp [hrg]

/-- C1 witness: the amended symmetry at concrete inputs — a `MoveCommand`
round trip on block "a", and a `GroupCommand` create-path round trip with
the fresh group id "g-2". -/
theorem c1_undo_redo_symmetry_witness :
    (((MoveCommand "a" ⟨0, 0⟩ ⟨5, 5⟩ : Command ℚ).undoFn
        ((MoveCommand "a" ⟨0, 0⟩ ⟨5, 5⟩).doFn sceneC1).1).1 = sceneC1) ∧
    (∃ s1 cl, groupCommandDo sceneC1 "g-2" ["a", "b"] = some (s1, cl) ∧
      groupCommandUndo s1 "g-2" ["a", "b"] cl = some sceneC1) := by
  obtain ⟨hmv, hgp⟩ := @c1_undo_redo_symmetry_amended ℚ _ _
  constructor
  · exact (hmv sceneC1 "a" blockC1a ⟨0, 0⟩ ⟨5, 5⟩ rfl rfl).1
  · exact hgp "p" [blockC1a, blockC1b] [groupC1] "g-2" ["a", "b"]
      (by decide) (by decide) (by decide)

/- ===== C3: group/block membership consistency ===== -/

/-- All blocks of the store, in page-major order. -/
def blocksOf (s : Scene K) : List (Block K) :=
  (s.project.pages.map Page.blocks).flatten

/-- Lookup over pages equals lookup in the joined block list. -/
theorem findSome?_find?_join (ps : List (Page K)) (bid : String) :
    ps.findSome? (fun p => p.blocks.find? (fun b => b.id == bid)) =
      ((ps.map Page.blocks).flatten).find? (fun b => b.id == bid) := by
  induction ps with
  | nil => rfl
  | cons p ps ih =>
      rw [List.findSome?_cons, List.map_cons, List.flatten_cons, List.find?_append]
      cases h : p.blocks.find? (fun b => b.id == bid) with
      | none => simp [h, ih]
      | some b => simp [h]

/-- Lookup `getBlockById` as a lookup over `blocksOf`. -/
theorem getBlockById_blocksOf (s : Scene K) (bid : String) :
    getBlockById s bid = (blocksOf s).find? (fun b => b.id == bid) :=
  findSome?_find?_join s.project.pages bid

/-- First-match update distributes over appended lists. -/
theorem updateBlockInList_append (id : String) (f : Block K → Block K)
    (l1 l2 : List (Block K)) :
    updateBlockInList id f (l1 ++ l2) =
      if l1.any (fun b => b.id == id) then updateBlockInList id f l1 ++ l2
      else l1 ++ updateBlockInList id f l2 := by
  induction l1 with
  | nil => simp [updateBlockInList]
  | cons hd tl ih =>
      cases h : (hd.id == id) with
      | true => simp [updateBlockInList, h, List.any_cons]
      | false =>
          rw [List.cons_append]
          rw [show updateBlockInList id f (hd :: (tl ++ l2)) =
            hd :: updateBlockInList id f (tl ++ l2) by simp [updateBlockInList, h]]
          rw [ih, List.any_cons, h]
          cases h2 : tl.any (fun b => b.id == id) with
          | true => simp [updateBlockInList, h]
          | false => simp [updateBlockInList, h]

/-- Page-major first-match update is first-match update on the joined
list. -/
theorem join_updateBlockInPages (id : String) (f : Block K → Block K) :
    ∀ (ps : List (Page K)),
      ((updateBlockInPages id f ps).map Page.blocks).flatten =
        updateBlockInList id f ((ps.map Page.blocks).flatten) := by
  intro ps
  induction ps with
  | nil => rfl
  | cons p ps ih =>
      rw [List.map_cons, List.flatten_cons, updateBlockInList_append]
      cases h : p.blocks.any (fun b => b.id == id) with
      | true => simp [updateBlockInPages, h]
      | false => simp [updateBlockInPages, h, ih]

/-- The joined block list of `modifyBlock`. -/
theorem blocksOf_modifyBlock (s : Scene K) (id : String) (f : Block K → Block K) :
    blocksOf (modifyBlock s id f) = updateBlockInList id f (blocksOf s) :=
  join_updateBlockInPages id f s.project.pages

/-- Under unique block ids, first-match update is a pointwise map. -/
theorem updateBlockInList_eq_map (id : String) (f : Block K → Block K)
    (l : List (Block K)) (hnd : (l.map Block.id).Nodup) :
    updateBlockInList id f l = l.map (fun b => if b.id = id then f b else b) := by
  induction l with
  | nil => rfl
  | cons hd tl ih =>
      rw [List.map_cons, List.nodup_cons] at hnd
      obtain ⟨hni, hndtl⟩ := hnd
      cases h : (hd.id == id) with
      | true =>
          have hid : hd.id = id := by simpa using h
          have htl : tl.map (fun b => if b.id = id then f b else b) = tl := by
            refine (List.map_congr_left ?_).trans (List.map_id tl)
            intro b hb
            have hbne : ¬(b.id = id) := fun hbid =>
              hni (hid ▸ hbid ▸ List.mem_map_of_mem Block.id hb)
            rw [if_neg hbne]
            rfl
          rw [List.map_cons, if_pos hid, htl]
          simp [updateBlockInList, h]
      | false =>
          have hid : ¬(hd.id = id) := by simpa using h
          rw [List.map_cons, if_neg hid]
          rw [show updateBlockInList id f (hd :: tl) =
            hd :: updateBlockInList id f tl by simp [updateBlockInList, h]]
          rw [ih hndtl]

/-- Under unique group ids, first-match group update is a pointwise map. -/
theorem updateGroupInList_eq_map (gid : String) (f : Group K → Group K)
    (gs : List (Group K)) (hnd : (gs.map Group.id).Nodup) :
    updateGroupInList gid f gs = gs.map (fun g => if g.id = gid then f g else g) := by
  induction gs with
  | nil => rfl
  | cons hd tl ih =>
      rw [List.map_cons, List.nodup_cons] at hnd
      obtain ⟨hni, hndtl⟩ := hnd
      cases h : (hd.id == gid) with
      | true =>
          have hid : hd.id = gid := by simpa using h
          have htl : tl.map (fun g => if g.id = gid then f g else g) = tl := by
            refine (List.map_congr_left ?_).trans (List.map_id tl)
            intro g hg
            have hgne : ¬(g.id = gid) := fun hgid =>
              hni (hid ▸ hgid ▸ List.mem_map_of_mem Group.id hg)
            rw [if_neg hgne]
            rfl
          rw [List.map_cons, if_pos hid, htl]
          simp [updateGroupInList, h]
      | false =>
          have hid : ¬(hd.id = gid) := by simpa using h
          rw [List.map_cons, if_neg hid]
          rw [show updateGroupInList gid f (hd :: tl) =
            hd :: updateGroupInList gid f tl by simp [updateGroupInList, h]]
          rw [ih hndtl]

/-- A fold with a skip condition folds the filtered list. -/
theorem foldl_skip {α β : Type} (f : α → β → α) (p : β → Bool) :
    ∀ (l : List β) (a : α),
      l.foldl (fun acc x => if p x then acc else f acc x) a =
        (l.filter (fun x => !p x)).foldl f a := by
  intro l
  induction l with
  | nil => intro a; rfl
  | cons hd tl ih =>
      intro a
      rw [List.foldl_cons, List.filter_cons]
      cases h : p hd with
      | true => simp [h, ih]
      | false => simp [h, ih]

/-- At most one block carries a given id when block ids are unique. -/
theorem eq_of_mem_of_nodup_ids {l : List (Block K)}
    (hnd : (l.map Block.id).Nodup) {b b2 : Block K}
    (hb : b ∈ l) (hb2 : b2 ∈ l) (h : b.id = b2.id) : b = b2 :=
  List.inj_on_of_nodup_map hnd hb hb2 h

/-- Effect of one guarded detach on the joined block list (pointwise under
unique ids): the unique block with the given id loses its `groupId` iff it
pointed at the group; nothing else changes. -/
theorem detachIfOwned_char (s : Scene K) (i gid : String)
    (hnd : ((blocksOf s).map Block.id).Nodup) :
    blocksOf (detachIfOwned s i gid) =
      (blocksOf s).map (fun b =>
        if b.id = i ∧ b.groupId = some gid then { b with groupId := none } else b) ∧
    (detachIfOwned s i gid).groups = s.groups := by
  cases hfound : getBlockById s i with
  | none =>
      have hred : detachIfOwned s i gid = s := by
        unfold detachIfOwned
        rw [hfound]
      rw [hred]
      refine ⟨?_, rfl⟩
      rw [getBlockById_blocksOf] at hfound
      have hall := List.find?_eq_none.mp hfound
      refine ((List.map_congr_left ?_).trans (List.map_id _)).symm
      intro b hb
      have hnc : ¬(b.id = i ∧ b.groupId = some gid) := by
        rintro ⟨hbid, _⟩
        exact absurd (by simp [hbid]) (hall b hb)
      rw [if_neg hnc]
      rfl
  | some b =>
      have hred : detachIfOwned s i gid =
          if b.groupId = some gid then setBlockGroupId s i none else s := by
        unfold detachIfOwned
        rw [hfound]
      rw [hred]
      rw [getBlockById_blocksOf] at hfound
      have hbmem := List.mem_of_find?_eq_some hfound
      have hbid : b.id = i := by simpa using List.find?_some hfound
      by_cases hg : b.groupId = some gid
      · rw [if_pos hg]
        refine ⟨?_, rfl⟩
        unfold setBlockGroupId
        rw [blocksOf_modifyBlock, updateBlockInList_eq_map _ _ _ hnd]
        apply List.map_congr_left
        intro b2 hb2
        by_cases hb2i : b2.id = i
        · have hb2b : b2 = b :=
            eq_of_mem_of_nodup_ids hnd hb2 hbmem (by rw [hb2i, hbid])
          subst hb2b
          rw [if_pos hb2i, if_pos ⟨hb2i, hg⟩]
        · rw [if_neg hb2i, if_neg (fun hc => hb2i hc.1)]
      · rw [if_neg hg]
        refine ⟨?_, rfl⟩
        refine ((List.map_congr_left ?_).trans (List.map_id _)).symm
        intro b2 hb2
        have hnc : ¬(b2.id = i ∧ b2.groupId = some gid) := by
          rintro ⟨hb2i, hb2g⟩
          have hb2b : b2 = b :=
            eq_of_mem_of_nodup_ids hnd hb2 hbmem (by rw [hb2i, hbid])
          exact hg (hb2b ▸ hb2g)
        rw [if_neg hnc]
        rfl

/-- Effect of one unconditional attach on the joined block list. -/
theorem attachChild_char (s : Scene K) (i gid : String)
    (hnd : ((blocksOf s).map Block.id).Nodup) :
    blocksOf (attachChild s i gid) =
      (blocksOf s).map (fun b =>
        if b.id = i then { b with groupId := some gid } else b) ∧
    (attachChild s i gid).groups = s.groups := by
  cases hfound : getBlockById s i with
  | none =>
      have hred : attachChild s i gid = s := by
        unfold attachChild
        rw [hfound]
      rw [hred]
      refine ⟨?_, rfl⟩
      rw [getBlockById_blocksOf] at hfound
      have hall := List.find?_eq_none.mp hfound
      refine ((List.map_congr_left ?_).trans (List.map_id _)).symm
      intro b hb
      have hnc : ¬(b.id = i) := fun hbid =>
        absurd (by simp [hbid]) (hall b hb)
      rw [if_neg hnc]
      rfl
  | some b =>
      have hred : attachChild s i gid = setBlockGroupId s i (some gid) := by
        unfold attachChild
        rw [hfound]
      rw [hred]
      refine ⟨?_, rfl⟩
      unfold setBlockGroupId
      rw [blocksOf_modifyBlock, updateBlockInList_eq_map _ _ _ hnd]

/-- A pointwise block map that fixes ids fixes the id list. -/
theorem map_ids_of_id_fixed {f : Block K → Block K}
    (hf : ∀ b, (f b).id = b.id) (l : List (Block K)) :
    (l.map f).map Block.id = l.map Block.id := by
  rw [List.map_map]
  apply List.map_congr_left
  intro b _
  exact hf b

/-- Effect of the guarded-detach loop on the joined block list. -/
theorem detachFold_char (gid : String) : ∀ (ids : List String) (s : Scene K),
    ((blocksOf s).map Block.id).Nodup →
    blocksOf (ids.foldl (fun acc i => detachIfOwned acc i gid) s) =
      (blocksOf s).map (fun b =>
        if b.id ∈ ids ∧ b.groupId = some gid then { b with groupId := none } else b) ∧
    (ids.foldl (fun acc i => detachIfOwned acc i gid) s).groups = s.groups := by
  intro ids
  induction ids with
  | nil =>
      intro s hnd
      refine ⟨?_, rfl⟩
      refine ((List.map_congr_left ?_).trans (List.map_id _)).symm
      intro b hb
      have hnc : ¬(b.id ∈ ([] : List String) ∧ b.groupId = some gid) := by
        rintro ⟨h1, _⟩
        exact absurd h1 (List.not_mem_nil b.id)
      rw [if_neg hnc]
      rfl
  | cons i ids ih =>
      intro s hnd
      rw [List.foldl_cons]
      obtain ⟨hb1, hg1⟩ := detachIfOwned_char s i gid hnd
      have hnd2 : ((blocksOf (detachIfOwned s i gid)).map Block.id).Nodup := by
        rw [hb1, map_ids_of_id_fixed (fun b => by
          by_cases hc : b.id = i ∧ b.groupId = some gid
          · rw [if_pos hc]
          · rw [if_neg hc])]
        exact hnd
      obtain ⟨hb2, hg2⟩ := ih (detachIfOwned s i gid) hnd2
      refine ⟨?_, by rw [hg2, hg1]⟩
      rw [hb2, hb1, List.map_map]
      apply List.map_congr_left
      intro b hb
      simp only [Function.comp_apply]
      by_cases hig : b.id = i ∧ b.groupId = some gid
      · rw [show (if b.id = i ∧ b.groupId = some gid then
            ({ b with groupId := none } : Block K) else b) = { b with groupId := none }
          from if_pos hig]
        dsimp only
        rw [if_neg (fun hc => Option.noConfusion hc.2)]
        rw [if_pos ⟨by rw [hig.1]; exact List.mem_cons_self i ids, hig.2⟩]
      · rw [show (if b.id = i ∧ b.groupId = some gid then
            ({ b with groupId := none } : Block K) else b) = b from if_neg hig]
        by_cases hrest : b.id ∈ ids ∧ b.groupId = some gid
        · rw [if_pos hrest, if_pos ⟨List.mem_cons_of_mem i hrest.1, hrest.2⟩]
        · have hni2 : ¬(b.id ∈ i :: ids ∧ b.groupId = some gid) := by
            rintro ⟨hmem, hgq⟩
            rcases List.mem_cons.mp hmem with he | hm
            · exact hig ⟨he, hgq⟩
            · exact hrest ⟨hm, hgq⟩
          rw [if_neg hrest, if_neg hni2]

/-- Effect of the unconditional-attach loop on the joined block list. -/
theorem attachFold_char (gid : String) : ∀ (ids : List String) (s : Scene K),
    ((blocksOf s).map Block.id).Nodup →
    blocksOf (ids.foldl (fun acc i => attachChild acc i gid) s) =
      (blocksOf s).map (fun b =>
        if b.id ∈ ids then { b with groupId := some gid } else b) ∧
    (ids.foldl (fun acc i => attachChild acc i gid) s).groups = s.groups := by
  intro ids
  induction ids with
  | nil =>
      intro s hnd
      refine ⟨?_, rfl⟩
      refine ((List.map_congr_left ?_).trans (List.map_id _)).symm
      intro b hb
      rw [if_neg (List.not_mem_nil b.id)]
      rfl
  | cons i ids ih =>
      intro s hnd
      rw [List.foldl_cons]
      obtain ⟨hb1, hg1⟩ := attachChild_char s i gid hnd
      have hnd2 : ((blocksOf (attachChild s i gid)).map Block.id).Nodup := by
        rw [hb1, map_ids_of_id_fixed (fun b => by
          by_cases hc : b.id = i
          · rw [if_pos hc]
          · rw [if_neg hc])]
        exact hnd
      obtain ⟨hb2, hg2⟩ := ih (attachChild s i gid) hnd2
      refine ⟨?_, by rw [hg2, hg1]⟩
      rw [hb2, hb1, List.map_map]
      apply List.map_congr_left
      intro b hb
      simp only [Function.comp_apply]
      by_cases hi : b.id = i
      · rw [show (if b.id = i then ({ b with groupId := some gid } : Block K) else b) =
          { b with groupId := some gid } from if_pos hi]
        dsimp only
        by_cases hmem : b.id ∈ ids
        · rw [if_pos hmem, if_pos (List.mem_cons_of_mem i hmem)]
        · rw [if_neg hmem, if_pos (by rw [hi]; exact List.mem_cons_self i ids)]
      · rw [show (if b.id = i then ({ b with groupId := some gid } : Block K) else b) = b
          from if_neg hi]
        by_cases hmem : b.id ∈ ids
        · rw [if_pos hmem, if_pos (List.mem_cons_of_mem i hmem)]
        · have hni2 : ¬(b.id ∈ i :: ids) := fun hc =>
            hmem ((List.mem_cons.mp hc).resolve_left hi)
          rw [if_neg hmem, if_neg hni2]

/-- The well-formedness invariant the spec asserts for group membership:
unique block and group ids, no dangling `groupId` pointer, and mutual
consistency between `groupId` pointers and `childIds` lists. -/
def SceneWF (s : Scene K) : Prop :=
  ((blocksOf s).map Block.id).Nodup ∧
  (s.groups.map Group.id).Nodup ∧
  (∀ b ∈ blocksOf s, ∀ gid2, b.groupId = some gid2 → ∃ g ∈ s.groups, g.id = gid2) ∧
  (∀ g ∈ s.groups, ∀ b ∈ blocksOf s, (b.groupId = some g.id ↔ b.id ∈ g.childIds))

instance (s : Scene K) : Decidable (SceneWF s) := by
  unfold SceneWF
  infer_instance

/-- The effective `childIds` payload of an `updateGroup` patch (a
`blockIds`-only patch is normalized into `childIds`). -/
def effChildIds (patch : GroupPatch K) : Option (List String) :=
  match patch.childIds with
  | some c => some c
  | none => patch.blockIds

/-- A store-level group operation. -/
inductive GroupOp (K : Type) where
  | add (spec : GroupSpec K) (genFresh : String)
  | upd (gid : String) (patch : GroupPatch K)
  | rem (gid : String)

/-- Application of one group operation to the scene. -/
def applyGroupOp (s : Scene K) : GroupOp K → Scene K
  | .add spec genFresh => addGroup s spec genFresh
  | .upd gid patch => updateGroup s gid patch
  | .rem gid => removeGroup s gid

/-- Precondition of one group operation: a created group's id is fresh and
its listed children are currently ungrouped; children newly added by an
`updateGroup` childIds patch are currently ungrouped; removal needs
nothing. -/
def OpOK (s : Scene K) : GroupOp K → Prop
  | .add spec genFresh =>
      spec.id.getD genFresh ∉ s.groups.map Group.id ∧
      ∀ cid ∈ spec.childIds.getD (spec.blockIds.getD []),
        ∀ b ∈ blocksOf s, b.id = cid → b.groupId = none
  | .upd gid patch =>
      ∀ g ∈ s.groups, g.id = gid →
        ∀ cid ∈ (effChildIds patch).getD [], cid ∉ g.childIds →
          ∀ b ∈ blocksOf s, b.id = cid → b.groupId = none
  | .rem _ => True

instance (s : Scene K) : (op : GroupOp K) → Decidable (OpOK s op)
  | .add spec genFresh => inferInstanceAs (Decidable (_ ∧ _))
  | .upd gid patch => inferInstanceAs (Decidable (∀ g ∈ s.groups, g.id = gid →
      ∀ cid ∈ (effChildIds patch).getD [], cid ∉ g.childIds →
        ∀ b ∈ blocksOf s, b.id = cid → b.groupId = none))
  | .rem _ => .isTrue trivial

/-- Application of a sequence of group operations. -/
def applyGroupOps (s : Scene K) (ops : List (GroupOp K)) : Scene K :=
  ops.foldl applyGroupOp s

/-- Every operation of the sequence satisfies its precondition in the
state it runs in. -/
def OpsOK (s : Scene K) : List (GroupOp K) → Prop
  | [] => True
  | op :: ops => OpOK s op ∧ OpsOK (applyGroupOp s op) ops

instance opsOKDecidable : (s : Scene K) → (ops : List (GroupOp K)) →
    Decidable (OpsOK s ops)
  | _, [] => .isTrue trivial
  | s, op :: ops =>
      @instDecidableAnd _ _ inferInstance (opsOKDecidable (applyGroupOp s op) ops)

/-- A pointwise group map that fixes ids fixes the id list. -/
theorem map_gids_of_id_fixed {f : Group K → Group K}
    (hf : ∀ g, (f g).id = g.id) (l : List (Group K)) :
    (l.map f).map Group.id = l.map Group.id := by
  rw [List.map_map]
  apply List.map_congr_left
  intro g _
  exact hf g

/-- Operation `addGroup` preserves the membership invariant when the group
id is fresh and the listed children are ungrouped. -/
theorem addGroup_wf (s : Scene K) (spec : GroupSpec K) (genFresh : String)
    (hwf : SceneWF s) (hok : OpOK s (.add spec genFresh)) :
    SceneWF (addGroup s spec genFresh) := by
  obtain ⟨hndb, hndg, hdangle, hiff⟩ := hwf
  obtain ⟨hfresh, hkids⟩ := hok
  have hred : addGroup s spec genFresh =
      (spec.childIds.getD (spec.blockIds.getD [])).foldl
        (fun acc bid => attachChild acc bid (spec.id.getD genFresh))
        ⟨s.project, s.activePageId, s.groups ++ [⟨spec.id.getD genFresh,
          spec.childIds.getD (spec.blockIds.getD []),
          spec.blockIds.getD (spec.childIds.getD []),
          spec.position.getD ⟨0, 0⟩, spec.size.getD ⟨0, 0⟩,
          spec.rotation.getD 0, spec.blockOffsets.getD []⟩]⟩ := rfl
  obtain ⟨hbl, hgr⟩ := attachFold_char (spec.id.getD genFresh)
    (spec.childIds.getD (spec.blockIds.getD []))
    ⟨s.project, s.activePageId, s.groups ++ [⟨spec.id.getD genFresh,
      spec.childIds.getD (spec.blockIds.getD []),
      spec.blockIds.getD (spec.childIds.getD []),
      spec.position.getD ⟨0, 0⟩, spec.size.getD ⟨0, 0⟩,
      spec.rotation.getD 0, spec.blockOffsets.getD []⟩]⟩ hndb
  rw [hred]
  refine ⟨?_, ?_, ?_, ?_⟩
  · rw [hbl, map_ids_of_id_fixed (fun b => by
      by_cases hc : b.id ∈ spec.childIds.getD (spec.blockIds.getD [])
      · rw [if_pos hc]
      · rw [if_neg hc])]
    exact hndb
  · rw [hgr]
    show ((s.groups ++ [_]).map Group.id).Nodup
    rw [List.map_append]
    refine List.nodup_append.mpr ⟨hndg, List.nodup_singleton _, ?_⟩
    intro a ha hmem2
    rw [List.map_singleton, List.mem_singleton] at hmem2
    subst hmem2
    exact hfresh ha
  · intro b2 hb2 gid2 hbg
    rw [hbl] at hb2
    obtain ⟨b, hbmem, hbeq⟩ := List.mem_map.mp hb2
    rw [hgr]
    show ∃ g ∈ s.groups ++ [_], g.id = gid2
    by_cases hc : b.id ∈ spec.childIds.getD (spec.blockIds.getD [])
    · rw [if_pos hc] at hbeq
      have : some (spec.id.getD genFresh) = some gid2 := by
        rw [← hbg, ← hbeq]
      obtain rfl := Option.some.inj this
      exact ⟨_, List.mem_append_right _ (List.mem_singleton_self _), rfl⟩
    · rw [if_neg hc] at hbeq
      subst hbeq
      obtain ⟨g3, hg3, hg3id⟩ := hdangle b hbmem gid2 hbg
      exact ⟨g3, List.mem_append_left _ hg3, hg3id⟩
  · intro g2 hg2 b2 hb2
    rw [hbl] at hb2
    obtain ⟨b, hbmem, hbeq⟩ := List.mem_map.mp hb2
    rw [hgr] at hg2
    rcases List.mem_append.mp hg2 with hg2s | hg2n
    · have hg2ne : g2.id ≠ spec.id.getD genFresh := by
        intro he
        exact hfresh (he ▸ List.mem_map_of_mem Group.id hg2s)
      by_cases hc : b.id ∈ spec.childIds.getD (spec.blockIds.getD [])
      · rw [if_pos hc] at hbeq
        have hb0 : b.groupId = none := hkids b.id hc b hbmem rfl
        subst hbeq
        show (some (spec.id.getD genFresh) = some g2.id ↔ b.id ∈ g2.childIds)
        constructor
        · intro he
          exact absurd (Option.some.inj he).symm hg2ne
        · intro hmem
          have := (hiff g2 hg2s b hbmem).mpr hmem
          rw [hb0] at this
          exact absurd this (by simp)
      · rw [if_neg hc] at hbeq
        subst hbeq
        exact hiff g2 hg2s b hbmem
    · rw [List.mem_singleton] at hg2n
      subst hg2n
      show (b2.groupId = some (spec.id.getD genFresh) ↔
        b2.id ∈ spec.childIds.getD (spec.blockIds.getD []))
      by_cases hc : b.id ∈ spec.childIds.getD (spec.blockIds.getD [])
      · rw [if_pos hc] at hbeq
        subst hbeq
        simpa using hc
      · rw [if_neg hc] at hbeq
        subst hbeq
        constructor
        · intro he
          obtain ⟨g3, hg3, hg3id⟩ := hdangle b hbmem _ he
          exact absurd (hg3id ▸ List.mem_map_of_mem Group.id hg3) hfresh
        · intro hmem
          exact absurd hmem hc

/-- Blocks are untouched by `applyGroupFields`. -/
theorem blocksOf_applyGroupFields (s : Scene K) (gid : String) (p : GroupPatch K) :
    blocksOf (applyGroupFields s gid p) = blocksOf s := rfl

/-- Blocks are untouched by `setGroupChildIds`. -/
theorem blocksOf_setGroupChildIds (s : Scene K) (gid : String) (ids : List String) :
    blocksOf (setGroupChildIds s gid ids) = blocksOf s := rfl

/-- Group-list shape of `setGroupChildIds`. -/
theorem groups_setGroupChildIds (s : Scene K) (gid : String) (ids : List String) :
    (setGroupChildIds s gid ids).groups =
      updateGroupInList gid
        (fun g => { g with childIds := ids, blockIds := ids }) s.groups := rfl

/-- Group-list shape of `applyGroupFields`. -/
theorem groups_applyGroupFields (s : Scene K) (gid : String) (p : GroupPatch K) :
    (applyGroupFields s gid p).groups =
      updateGroupInList gid (fun g =>
        { g with position := p.position.getD g.position
                 size := p.size.getD g.size
                 rotation := p.rotation.getD g.rotation
                 blockOffsets := p.blockOffsets.getD g.blockOffsets }) s.groups := rfl

/-- The allowed-fields merge touches neither ids nor child lists, so it
preserves the membership invariant outright. -/
theorem applyGroupFields_wf (s : Scene K) (gid : String) (patch : GroupPatch K)
    (hwf : SceneWF s) : SceneWF (applyGroupFields s gid patch) := by
  obtain ⟨hndb, hndg, hdangle, hiff⟩ := hwf
  refine ⟨?_, ?_, ?_, ?_⟩
  · rw [blocksOf_applyGroupFields]
    exact hndb
  · rw [groups_applyGroupFields, updateGroupInList_eq_map _ _ _ hndg,
      map_gids_of_id_fixed (fun g => by
        by_cases hc : g.id = gid
        · rw [if_pos hc]
        · rw [if_neg hc])]
    exact hndg
  · intro b hb gid2 hbg
    rw [blocksOf_applyGroupFields] at hb
    obtain ⟨g3, hg3, hg3id⟩ := hdangle b hb gid2 hbg
    rw [groups_applyGroupFields, updateGroupInList_eq_map _ _ _ hndg]
    refine ⟨_, List.mem_map_of_mem _ hg3, ?_⟩
    by_cases hc : g3.id = gid
    · rw [if_pos hc]
      exact hg3id
    · rw [if_neg hc]
      exact hg3id
  · intro g2 hg2 b hb
    rw [blocksOf_applyGroupFields] at hb
    rw [groups_applyGroupFields, updateGroupInList_eq_map _ _ _ hndg] at hg2
    obtain ⟨g0, hg0, rfl⟩ := List.mem_map.mp hg2
    by_cases hc : g0.id = gid
    · rw [if_pos hc]
      exact hiff g0 hg0 b hb
    · rw [if_neg hc]
      exact hiff g0 hg0 b hb

/-- Operation `updateGroup` preserves the membership invariant; for a
`childIds` patch the newly added members must currently be ungrouped. -/
theorem updateGroup_wf (s : Scene K) (gid : String) (patch : GroupPatch K)
    (hwf : SceneWF s) (hok : OpOK s (.upd gid patch)) :
    SceneWF (updateGroup s gid patch) := by
  cases hfind : s.groups.find? (fun g => g.id == gid) with
  | none =>
      have hred : updateGroup s gid patch = s := by
        unfold updateGroup
        rw [hfind]
      rw [hred]
      exact hwf
  | some g =>
      have hgmem : g ∈ s.groups := List.mem_of_find?_eq_some hfind
      have hgid : g.id = gid := by simpa using List.find?_some hfind
      cases heff : effChildIds patch with
      | none =>
          have hcnone : patch.childIds = none := by
            cases hc : patch.childIds with
            | none => rfl
            | some c => simp [effChildIds, hc] at heff
          have hbnone : patch.blockIds = none := by
            have h2 := heff
            simp [effChildIds, hcnone] at h2
            exact h2
          have hred : updateGroup s gid patch = applyGroupFields s gid patch := by
            unfold updateGroup
            rw [hfind, hcnone, hbnone]
          rw [hred]
          exact applyGroupFields_wf s gid patch hwf
      | some newIds =>
          obtain ⟨hndb, hndg, hdangle, hiff⟩ := hwf
          have hok2 : ∀ cid ∈ newIds, cid ∉ g.childIds →
              ∀ b ∈ blocksOf s, b.id = cid → b.groupId = none := by
            intro cid hc
            refine hok g hgmem hgid cid ?_
            rw [show (effChildIds patch).getD [] = newIds by rw [heff]; rfl]
            exact hc
          have hred : updateGroup s gid patch =
              applyGroupFields (setGroupChildIds
                (newIds.foldl (fun acc newId =>
                  if g.childIds.contains newId then acc else attachChild acc newId gid)
                  (g.childIds.foldl (fun acc oldId =>
                    if newIds.contains oldId then acc
                    else detachIfOwned acc oldId gid) s))
                gid newIds) gid patch := by
            unfold updateGroup
            rw [hfind]
            cases hc : patch.childIds with
            | some c =>
                have hcn : c = newIds := by simpa [effChildIds, hc] using heff
                subst hcn
                rfl
            | none =>
                have hb2 : patch.blockIds = some newIds := by
                  simpa [effChildIds, hc] using heff
                rw [hb2]
          rw [hred,
            foldl_skip (fun acc i => detachIfOwned acc i gid)
              (fun oldId => newIds.contains oldId) g.childIds s,
            foldl_skip (fun acc i => attachChild acc i gid)
              (fun newId => g.childIds.contains newId) newIds _]
          apply applyGroupFields_wf
          obtain ⟨hdb, hdgr⟩ := detachFold_char gid
            (g.childIds.filter (fun i => !newIds.contains i)) s hndb
          have hndb2 : ((blocksOf ((g.childIds.filter (fun i =>
              !newIds.contains i)).foldl (fun acc i => detachIfOwned acc i gid)
              s)).map Block.id).Nodup := by
            rw [hdb, map_ids_of_id_fixed (fun b => by
              by_cases hc : b.id ∈ g.childIds.filter (fun i => !newIds.contains i) ∧
                  b.groupId = some gid
              · rw [if_pos hc]
              · rw [if_neg hc])]
            exact hndb
          obtain ⟨hab, hagr⟩ := attachFold_char gid
            (newIds.filter (fun i => !g.childIds.contains i)) _ hndb2
          have hflat : ∀ b : Block K,
              ((fun b => if b.id ∈ newIds.filter (fun i => !g.childIds.contains i)
                  then { b with groupId := some gid } else b) ∘
               (fun b => if b.id ∈ g.childIds.filter (fun i => !newIds.contains i) ∧
                  b.groupId = some gid then { b with groupId := none } else b)) b
              = if b.id ∈ newIds.filter (fun i => !g.childIds.contains i)
                then { b with groupId := some gid }
                else if b.id ∈ g.childIds.filter (fun i => !newIds.contains i) ∧
                    b.groupId = some gid then { b with groupId := none } else b := by
            intro b
            simp only [Function.comp_apply]
            by_cases hd : b.id ∈ g.childIds.filter (fun i => !newIds.contains i) ∧
                b.groupId = some gid
            · rw [show (if b.id ∈ g.childIds.filter (fun i => !newIds.contains i) ∧
                  b.groupId = some gid then ({ b with groupId := none } : Block K)
                  else b) = { b with groupId := none } from if_pos hd]
            · rw [show (if b.id ∈ g.childIds.filter (fun i => !newIds.contains i) ∧
                  b.groupId = some gid then ({ b with groupId := none } : Block K)
                  else b) = b from if_neg hd]
          have hbmap : blocksOf ((newIds.filter (fun i =>
              !g.childIds.contains i)).foldl (fun acc i => attachChild acc i gid)
              ((g.childIds.filter (fun i => !newIds.contains i)).foldl
                (fun acc i => detachIfOwned acc i gid) s)) =
              (blocksOf s).map (fun b =>
                if b.id ∈ newIds.filter (fun i => !g.childIds.contains i)
                then { b with groupId := some gid }
                else if b.id ∈ g.childIds.filter (fun i => !newIds.contains i) ∧
                    b.groupId = some gid then { b with groupId := none } else b) := by
            rw [hab, hdb, List.map_map]
            exact List.map_congr_left (fun b _ => hflat b)
          have hAgroups : ((newIds.filter (fun i =>
              !g.childIds.contains i)).foldl (fun acc i => attachChild acc i gid)
              ((g.childIds.filter (fun i => !newIds.contains i)).foldl
                (fun acc i => detachIfOwned acc i gid) s)).groups = s.groups := by
            rw [hagr, hdgr]
          refine ⟨?_, ?_, ?_, ?_⟩
          · rw [blocksOf_setGroupChildIds, hbmap, map_ids_of_id_fixed (fun b => by
              by_cases ha : b.id ∈ newIds.filter (fun i => !g.childIds.contains i)
              · rw [if_pos ha]
              · by_cases hd : b.id ∈ g.childIds.filter (fun i => !newIds.contains i) ∧
                    b.groupId = some gid
                · rw [if_neg ha, if_pos hd]
                · rw [if_neg ha, if_neg hd])]
            exact hndb
          · rw [groups_setGroupChildIds, hAgroups,
              updateGroupInList_eq_map _ _ _ hndg,
              map_gids_of_id_fixed (fun g2 => by
                by_cases hc : g2.id = gid
                · rw [if_pos hc]
                · rw [if_neg hc])]
            exact hndg
          · intro b2 hb2 gid2 hbg
            rw [blocksOf_setGroupChildIds, hbmap] at hb2
            obtain ⟨b, hbmem, rfl⟩ := List.mem_map.mp hb2
            rw [groups_setGroupChildIds, hAgroups, updateGroupInList_eq_map _ _ _ hndg]
            by_cases ha : b.id ∈ newIds.filter (fun i => !g.childIds.contains i)
            · rw [if_pos ha] at hbg
              have hg2 : gid = gid2 := by simpa using hbg
              subst hg2
              refine ⟨_, List.mem_map_of_mem _ hgmem, ?_⟩
              rw [if_pos hgid]
              exact hgid
            · rw [if_neg ha] at hbg
              by_cases hd : b.id ∈ g.childIds.filter (fun i => !newIds.contains i) ∧
                  b.groupId = some gid
              · rw [if_pos hd] at hbg
                simp at hbg
              · rw [if_neg hd] at hbg
                obtain ⟨g3, hg3, hg3id⟩ := hdangle b hbmem gid2 hbg
                refine ⟨_, List.mem_map_of_mem _ hg3, ?_⟩
                by_cases hc : g3.id = gid
                · rw [if_pos hc]
                  exact hg3id
                · rw [if_neg hc]
                  exact hg3id
          · intro g2 hg2 b2 hb2
            rw [groups_setGroupChildIds, hAgroups,
              updateGroupInList_eq_map _ _ _ hndg] at hg2
            rw [blocksOf_setGroupChildIds, hbmap] at hb2
            obtain ⟨g0, hg0, rfl⟩ := List.mem_map.mp hg2
            obtain ⟨b, hbmem, rfl⟩ := List.mem_map.mp hb2
            by_cases hcg : g0.id = gid
            · have hg0g : g0 = g :=
                List.inj_on_of_nodup_map hndg hg0 hgmem (by rw [hcg, hgid])
              subst hg0g
              rw [if_pos hcg]
              dsimp only
              rw [hcg]
              by_cases ha : b.id ∈ newIds.filter (fun i => !g0.childIds.contains i)
              · rw [if_pos ha]
                dsimp only
                have hbn : b.id ∈ newIds := (List.mem_filter.mp ha).1
                simp [hbn]
              · by_cases hd : b.id ∈ g0.childIds.filter (fun i =>
                    !newIds.contains i) ∧ b.groupId = some gid
                · rw [if_neg ha, if_pos hd]
                  dsimp only
                  have hdn : b.id ∉ newIds := by
                    have h2 := (List.mem_filter.mp hd.1).2
                    simpa using h2
                  simp [hdn]
                · rw [if_neg ha, if_neg hd]
                  constructor
                  · intro hbg
                    have hbold : b.id ∈ g0.childIds :=
                      (hiff g0 hgmem b hbmem).mp (by rw [hbg, ← hgid])
                    by_contra hnn
                    have hbD : b.id ∈ g0.childIds.filter (fun i =>
                        !newIds.contains i) :=
                      List.mem_filter.mpr ⟨hbold, by simpa using hnn⟩
                    exact hd ⟨hbD, hbg⟩
                  · intro hbn
                    have hbold : b.id ∈ g0.childIds := by
                      by_contra hno
                      exact ha (List.mem_filter.mpr ⟨hbn, by simpa using hno⟩)
                    have h3 := (hiff g0 hgmem b hbmem).mpr hbold
                    rw [h3, hgid]
            · rw [if_neg hcg]
              by_cases ha : b.id ∈ newIds.filter (fun i => !g.childIds.contains i)
              · rw [if_pos ha]
                dsimp only
                have hmemf := List.mem_filter.mp ha
                have hbnone : b.groupId = none :=
                  hok2 b.id hmemf.1 (by simpa using hmemf.2) b hbmem rfl
                have hrhs : b.id ∉ g0.childIds := by
                  intro hmem
                  have h3 := (hiff g0 hg0 b hbmem).mpr hmem
                  rw [hbnone] at h3
                  exact Option.noConfusion h3
                constructor
                · intro he
                  exact absurd (Option.some.inj he) (fun hh => hcg hh.symm)
                · intro hmem
                  exact absurd hmem hrhs
              · by_cases hd : b.id ∈ g.childIds.filter (fun i =>
                    !newIds.contains i) ∧ b.groupId = some gid
                · rw [if_neg ha, if_pos hd]
                  dsimp only
                  have hrhs : b.id ∉ g0.childIds := by
                    intro hmem
                    have h3 := (hiff g0 hg0 b hbmem).mpr hmem
                    rw [hd.2] at h3
                    exact hcg (Option.some.inj h3).symm
                  constructor
                  · intro he
                    exact Option.noConfusion he
                  · intro hmem
                    exact absurd hmem hrhs
                · rw [if_neg ha, if_neg hd]
                  exact hiff g0 hg0 b hbmem

/-- After erasing the (unique) group with the given id, no survivor
carries it. -/
theorem not_id_of_mem_eraseP (gid : String) : ∀ (gs : List (Group K)),
    (gs.map Group.id).Nodup →
    ∀ g2 ∈ gs.eraseP (fun g => g.id == gid), g2.id ≠ gid := by
  intro gs
  induction gs with
  | nil => intro _ g2 hmem; exact absurd hmem (List.not_mem_nil g2)
  | cons hd tl ih =>
      intro hnd g2 hmem
      rw [List.map_cons, List.nodup_cons] at hnd
      obtain ⟨hni, hndtl⟩ := hnd
      cases hp : (hd.id == gid) with
      | true =>
          simp only [List.eraseP_cons, hp, cond_true] at hmem
          intro hg2
          apply hni
          rw [show hd.id = gid by simpa using hp, ← hg2]
          exact List.mem_map_of_mem Group.id hmem
      | false =>
          simp only [List.eraseP_cons, hp, cond_false] at hmem
          rcases List.mem_cons.mp hmem with rfl | hmem2
          · simpa using hp
          · exact ih hndtl g2 hmem2

/-- A group with a different id survives the erasure. -/
theorem mem_eraseP_of_id_ne (gid : String) : ∀ (gs : List (Group K))
    (g2 : Group K), g2 ∈ gs → g2.id ≠ gid →
    g2 ∈ gs.eraseP (fun g => g.id == gid) := by
  intro gs
  induction gs with
  | nil => intro g2 hmem; exact absurd hmem (List.not_mem_nil g2)
  | cons hd tl ih =>
      intro g2 hmem hne
      cases hp : (hd.id == gid) with
      | true =>
          simp only [List.eraseP_cons, hp, cond_true]
          rcases List.mem_cons.mp hmem with rfl | hmem2
          · exact absurd (by simpa using hp) hne
          · exact hmem2
      | false =>
          simp only [List.eraseP_cons, hp, cond_false]
          rcases List.mem_cons.mp hmem with rfl | hmem2
          · exact List.mem_cons_self _ _
          · exact List.mem_cons_of_mem _ (ih g2 hmem2 hne)

/-- Operation `removeGroup` preserves the membership invariant
unconditionally. -/
theorem removeGroup_wf (s : Scene K) (gid : String) (hwf : SceneWF s) :
    SceneWF (removeGroup s gid) := by
  obtain ⟨hndb, hndg, hdangle, hiff⟩ := hwf
  cases hfind : s.groups.find? (fun g => g.id == gid) with
  | none =>
      have hred : removeGroup s gid = s := by
        unfold removeGroup
        rw [hfind]
      rw [hred]
      exact ⟨hndb, hndg, hdangle, hiff⟩
  | some g =>
      have hgmem : g ∈ s.groups := List.mem_of_find?_eq_some hfind
      have hgid : g.id = gid := by simpa using List.find?_some hfind
      have hred : removeGroup s gid =
          ⟨(g.childIds.foldl (fun acc bid => detachIfOwned acc bid gid) s).project,
           (g.childIds.foldl (fun acc bid => detachIfOwned acc bid gid) s).activePageId,
           (g.childIds.foldl (fun acc bid =>
             detachIfOwned acc bid gid) s).groups.eraseP (fun h2 => h2.id == gid)⟩ := by
        unfold removeGroup
        rw [hfind]
      obtain ⟨hdb, hdgr⟩ := detachFold_char gid g.childIds s hndb
      have hblocks : blocksOf (removeGroup s gid) =
          (blocksOf s).map (fun b =>
            if b.id ∈ g.childIds ∧ b.groupId = some gid
            then { b with groupId := none } else b) := by
        rw [hred]
        exact hdb
      have hgroups : (removeGroup s gid).groups =
          s.groups.eraseP (fun h2 => h2.id == gid) := by
        rw [hred]
        show (g.childIds.foldl (fun acc bid =>
          detachIfOwned acc bid gid) s).groups.eraseP (fun h2 => h2.id == gid) = _
        rw [hdgr]
      refine ⟨?_, ?_, ?_, ?_⟩
      · rw [hblocks, map_ids_of_id_fixed (fun b => by
          by_cases hc : b.id ∈ g.childIds ∧ b.groupId = some gid
          · rw [if_pos hc]
          · rw [if_neg hc])]
        exact hndb
      · rw [hgroups]
        exact List.Nodup.sublist ((List.eraseP_sublist s.groups).map Group.id) hndg
      · intro b2 hb2 gid2 hbg
        rw [hblocks] at hb2
        obtain ⟨b, hbmem, rfl⟩ := List.mem_map.mp hb2
        rw [hgroups]
        by_cases hd : b.id ∈ g.childIds ∧ b.groupId = some gid
        · rw [if_pos hd] at hbg
          simp at hbg
        · rw [if_neg hd] at hbg
          obtain ⟨g3, hg3, hg3id⟩ := hdangle b hbmem gid2 hbg
          have hne : g3.id ≠ gid := by
            intro he
            have hg2g : gid2 = gid := by rw [← hg3id, he]
            subst hg2g
            have hbin : b.id ∈ g.childIds :=
              (hiff g hgmem b hbmem).mp (by rw [hbg, hgid])
            exact hd ⟨hbin, hbg⟩
          exact ⟨g3, mem_eraseP_of_id_ne gid s.groups g3 hg3 hne, hg3id⟩
      · intro g2 hg2 b2 hb2
        rw [hgroups] at hg2
        rw [hblocks] at hb2
        obtain ⟨b, hbmem, rfl⟩ := List.mem_map.mp hb2
        have hg2mem : g2 ∈ s.groups := (List.eraseP_sublist s.groups).subset hg2
        have hg2ne : g2.id ≠ gid := not_id_of_mem_eraseP gid s.groups hndg g2 hg2
        by_cases hd : b.id ∈ g.childIds ∧ b.groupId = some gid
        · rw [if_pos hd]
          dsimp only
          have hrhs : b.id ∉ g2.childIds := by
            intro hmem
            have h3 := (hiff g2 hg2mem b hbmem).mpr hmem
            rw [hd.2] at h3
            exact hg2ne (Option.some.inj h3).symm
          constructor
          · intro he
            exact Option.noConfusion he
          · intro hmem
            exact absurd hmem hrhs
        · rw [if_neg hd]
          exact hiff g2 hg2mem b hbmem

/-- Any single group operation satisfying its precondition preserves the
membership invariant. -/
theorem applyGroupOp_wf (s : Scene K) (op : GroupOp K)
    (hwf : SceneWF s) (hok : OpOK s op) : SceneWF (applyGroupOp s op) := by
  cases op with
  | add spec genFresh => exact addGroup_wf s spec genFresh hwf hok
  | upd gid patch => exact updateGroup_wf s gid patch hwf hok
  | rem gid => exact removeGroup_wf s gid hwf

/-- C3 (counterexample): the membership invariant is not maintained by
arbitrary group operations, and a zero-children group is NOT removed.
Adding a new group "g-2" over block "a" (already a child of "g-1")
restamps the block's `groupId` but leaves `childIds` of "g-1" untouched:
afterwards "a" is listed in "g-1" while pointing at "g-2".  And patching
"g-1" down to zero children leaves the empty group record in the store. -/
theorem c3_membership_consistency_counterexample :
    (∃ g b,
      getGroupById (addGroup sceneC1
          { id := some "g-2", childIds := some ["a"] } "g-2") "g-1" = some g ∧
      getBlockById (addGroup sceneC1
          { id := some "g-2", childIds := some ["a"] } "g-2") "a" = some b ∧
      b.id ∈ g.childIds ∧ b.groupId ≠ some g.id) ∧
    (∃ g2,
      getGroupById (updateGroup sceneC1 "g-1" { childIds := some [] }) "g-1" =
        some g2 ∧
      g2.childIds = []) := by
  refine ⟨⟨_, _, rfl, rfl, ?_, ?_⟩, ⟨_, rfl, ?_⟩⟩ <;> decide

/-- C3 (amended): the iff-consistency between `block.groupId` pointers and
`childIds` (together with unique ids and no dangling pointer) IS an
invariant of every sequence of group operations, provided each operation
meets its precondition: a created group's id is fresh and its children are
currently ungrouped, and children newly added by a `childIds` patch are
currently ungrouped.  No operation removes a zero-children group, and
without the preconditions the invariant is violated (see the
counterexample). -/
theorem c3_membership_consistency_amended :
    ∀ (ops : List (GroupOp K)) (s : Scene K),
      SceneWF s → OpsOK s ops → SceneWF (applyGroupOps s ops) := by
  intro ops
  induction ops with
  | nil =>
      intro s hwf _
      exact hwf
  | cons op ops ih =>
      intro s hwf hok
      exact ih (applyGroupOp s op) (applyGroupOp_wf s op hwf hok.1) hok.2

/-- C3 witness block "x". -/
def blockC3x : Block ℚ :=
  { id := "x", btype := "image", position := ⟨0, 0⟩, size := ⟨10, 10⟩
    rotation := 0, fontSize := none, crop := none
    groupId := none, locked := false }

/-- C3 witness block "y". -/
def blockC3y : Block ℚ :=
  { id := "y", btype := "image", position := ⟨20, 0⟩, size := ⟨10, 10⟩
    rotation := 0, fontSize := none, crop := none
    groupId := none, locked := false }

/-- C3 witness scene: two ungrouped blocks, no groups. -/
def sceneC3 : Scene ℚ :=
  { project := { pages := [⟨"p", [blockC3x, blockC3y]⟩] }
    activePageId := some "p", groups := [] }

/-- C3 witness operation sequence: create a group over "x", extend it to
"y", then remove it. -/
def opsC3 : List (GroupOp ℚ) :=
  [.add { id := some "g", childIds := some ["x"] } "g",
   .upd "g" { childIds := some ["x", "y"] },
   .rem "g"]

/-- C3 witness: the invariant holds initially, every operation meets its
precondition, and the invariant holds after the whole sequence. -/
theorem c3_membership_consistency_witness :
    SceneWF sceneC3 ∧ OpsOK sceneC3 opsC3 ∧
    SceneWF (applyGroupOps sceneC3 opsC3) :=
  ⟨by decide, by decide,
   c3_membership_consistency_amended opsC3 sceneC3 (by decide) (by decide)⟩

end Infographics
